import Mathlib

/-!
# Ocean pole tide (`source/classes/tides/tidesOceanPole.cpp`) and GRACE L1B converters

Shallow embedding of `TidesOceanPole`: the constructor, `pole`,
`sphericalHarmonics` and `deformation`; and of the read loops of
`GraceL1b2Clock::run` and `GraceL1b2Magnetometer::run`
(`source/programs/conversion/grace`).

Conventions of the embedding.

* `Double` is a type `K` that carries the arithmetic operations. The
  properties of exact arithmetic are proved for `K` a field; `Binary64` is the
  arithmetic of the C++ `double` that the program runs on, with every
  operation rounded to nearest.
* `Time` is an arbitrary type `T`.
* A C++ exception is a value of `Exception`; `GROOPS_RETHROW` only prepends
  the function name to the message, so a rethrown exception keeps its
  constructor.
* A collaborator that may throw (`earthOrientationParameter`,
  `MeanPolarMotion::compute`, the file readers) is a function into `Option`,
  `none` standing for a throw.
* Side effects that the properties talk about are returned explicitly: the
  calls made to the orientation provider and to `deformationMatrix` are
  listed as `Event`s, and the displacement buffer, which the C++ code
  mutates through a reference, is returned together with the result, also
  when the call throws.
-/

namespace Groops

/-! ## Library types -/

/-- Origin of a C++ exception reaching the caller. -/
inductive Exception where
  /-- thrown by `EarthRotation::earthOrientationParameter` -/
  | earthRotation
  /-- thrown by `MeanPolarMotion::compute` -/
  | meanPolarMotion
  /-- thrown by `readFileOceanPoleTide` or `readFileMeanPolarMotion` -/
  | file
  /-- dimension error of a matrix operation -/
  | dimension
  /-- `std::out_of_range` of `std::vector::at` -/
  | outOfRange
  /-- element access outside of a `Vector` -/
  | index
  deriving DecidableEq

/-- Three-dimensional vector `Vector3d`. -/
structure Vector3d (K : Type) where
  x : K
  y : K
  z : K
  deriving DecidableEq

/-- Modelled from the spec: the column vector `Vector` of `base/matrix.h`
(not among the sources), "a flattened sequence" of numbers: its length and
its elements. -/
structure Vector (K : Type) where
  rows : Nat
  coeff : Nat → K

/-- Modelled from the spec: the dense `Matrix` of `base/matrix.h` (not among
the sources): its dimensions and its elements. -/
structure Matrix (K : Type) where
  rows : Nat
  columns : Nat
  coeff : Nat → Nat → K

/-- Spherical harmonic field: reference `GM` and `R`, coefficient matrices
`cnm`, `snm` indexed by degree and order. -/
structure SphericalHarmonics (K : Type) where
  GM : K
  R : K
  cnm : Matrix K
  snm : Matrix K

/-- Output of `earthOrientationParameter`. -/
structure EarthOrientationParameter (K : Type) where
  xp : K
  yp : K
  sp : K
  deltaUT : K
  LOD : K
  X : K
  Y : K
  S : K

/-- Mean pole model: `compute(time, xBar, yBar)`, in arcseconds. -/
structure MeanPolarMotion (K T : Type) where
  compute : T → Option (K × K)

/-- Calls to collaborators made during an evaluation, in program order. -/
inductive Event (K T : Type) where
  | earthOrientationParameter (time : T)
  | deformationMatrix (point : List (Vector3d K))

/-- The caller's displacement buffer `std::vector<std::vector<Vector3d>>`,
indexed by site, then by epoch. -/
abbrev Displacement (K : Type) := List (List (Vector3d K))

/-! ## The arithmetic of `Double`

`Double` is the C++ `double`: IEEE 754 binary64, every operation rounded to
nearest, ties to even. `Binary64` holds the finite numbers with an unbounded
exponent: overflow, subnormal numbers, infinities and NaN are not
represented, and a division by zero has the value zero. -/

/-- A finite binary64 number `(-1)^sign · mant · 2^exp`: `mant = 0` for the two
zeros, `2^52 ≤ mant < 2^53` for every other number, so that every number has
one representation. The zeros `+0` and `-0` are two values of the structure,
whereas `==` of C++ holds between them. -/
structure Binary64 where
  sign : Bool
  mant : Nat
  exp : Int
  deriving DecidableEq

/-- Integer part of `log₂ n` for `1 ≤ n`, by halving; `fuel` bounds the number
of halvings, and `fuel = n` is enough. -/
def Binary64.log2 : Nat → Nat → Nat
  | 0, _ => 0
  | fuel + 1, n => if n < 2 then 0 else Binary64.log2 fuel (n / 2) + 1

/-- Rounding to nearest, ties to even: the binary64 number nearest to
`(-1)^sign · (n/d) · 2^e`. With `2^a ≤ n < 2^(a+1)` and `2^b ≤ d < 2^(b+1)` the
shift `s` brings the quotient `n·2^s/d` into `[2^52, 2^53)`; its integer part
`q` is the significand, or `q + 1` when the remainder is more than a half, or
is a half and `q` is odd. -/
def Binary64.round (sign : Bool) (n d : Nat) (e : Int) : Binary64 :=
  if n = 0 ∨ d = 0 then { sign := sign, mant := 0, exp := 0 }
  else
    let a := Binary64.log2 n n
    let b := Binary64.log2 d d
    let s : Int := if d * 2 ^ a ≤ n * 2 ^ b then 52 - ((a : Int) - b) else 52 - ((a : Int) - b - 1)
    let num := n * 2 ^ s.toNat
    let den := d * 2 ^ (-s).toNat
    let q := num / den
    let r := num % den
    let m := if den < 2 * r ∨ (2 * r = den ∧ q % 2 = 1) then q + 1 else q
    if m = 2 ^ 53 then { sign := sign, mant := 2 ^ 52, exp := e - s + 1 }
    else { sign := sign, mant := m, exp := e - s }

/-- Unary minus: the sign bit is flipped. -/
def Binary64.neg (x : Binary64) : Binary64 := { x with sign := !x.sign }

/-- Product: the exact product, rounded. -/
def Binary64.mul (x y : Binary64) : Binary64 :=
  Binary64.round (x.sign != y.sign) (x.mant * y.mant) 1 (x.exp + y.exp)

/-- Quotient: the exact quotient, rounded. -/
def Binary64.div (x y : Binary64) : Binary64 :=
  Binary64.round (x.sign != y.sign) x.mant y.mant (x.exp - y.exp)

/-- Sum: the exact sum of the two numbers brought to the smaller exponent,
rounded. An exact sum zero of two numbers of opposite sign is `+0`. -/
def Binary64.add (x y : Binary64) : Binary64 :=
  let e := min x.exp y.exp
  let a := x.mant * 2 ^ (x.exp - e).toNat
  let b := y.mant * 2 ^ (y.exp - e).toNat
  if x.sign = y.sign then Binary64.round x.sign (a + b) 1 e
  else if a = b then { sign := false, mant := 0, exp := 0 }
  else if b < a then Binary64.round x.sign (a - b) 1 e
  else Binary64.round y.sign (b - a) 1 e

/-- Difference `x - y = x + (-y)`. -/
def Binary64.sub (x y : Binary64) : Binary64 := x.add y.neg

/-- Conversion of an integer constant such as `3600` to `double`. -/
def Binary64.ofNat (n : Nat) : Binary64 := Binary64.round false n 1 0

instance : Neg Binary64 := ⟨Binary64.neg⟩
instance : Mul Binary64 := ⟨Binary64.mul⟩
instance : Div Binary64 := ⟨Binary64.div⟩
instance : Add Binary64 := ⟨Binary64.add⟩
instance : Sub Binary64 := ⟨Binary64.sub⟩
instance : NatCast Binary64 := ⟨Binary64.ofNat⟩
instance : Zero Binary64 := ⟨Binary64.ofNat 0⟩
instance : One Binary64 := ⟨Binary64.ofNat 1⟩

/-- Modelled from the spec: constant `PI` of `base/constants.h` (not among the
sources), the number π as a `double`: `0x1.921fb54442d18p+1`, which is
3.141592653589793. -/
def Binary64.PI : Binary64 := { sign := false, mant := 0x1921fb54442d18, exp := -51 }

section Library
variable {K : Type} [Add K] [Sub K] [Mul K] [Div K] [Neg K] [Zero K] [One K] [NatCast K]

/-- Modelled from the spec: constant `RAD2DEG` of `base/constants.h` (not
among the sources); radians to arcseconds is "multiply by 180·3600/π". -/
def RAD2DEG (PI : K) : K := 180 / PI

/-- Modelled from the spec: constant `DEG2RAD` of `base/constants.h` (not
among the sources); the arcsecond-to-radian factor is "π/(180·3600)". -/
def DEG2RAD (PI : K) : K := PI / 180

/-- Modelled from the spec: `Matrix * Double`, every element times the
scalar. -/
def Matrix.mul (A : Matrix K) (c : K) : Matrix K :=
  { rows := A.rows, columns := A.columns, coeff := fun i j => A.coeff i j * c }

/-- Modelled from the spec: `Matrix += Matrix`, elementwise; a dimension
error is thrown when the shapes differ. -/
def Matrix.addAssign (A B : Matrix K) : Except Exception (Matrix K) :=
  if A.rows = B.rows ∧ A.columns = B.columns then
    .ok { rows := A.rows, columns := A.columns, coeff := fun i j => A.coeff i j + B.coeff i j }
  else
    .error .dimension

/-- Modelled from the spec: `Vector * Double`. -/
def Vector.mul (x : Vector K) (c : K) : Vector K :=
  { rows := x.rows, coeff := fun i => x.coeff i * c }

/-- Modelled from the spec: `Vector + Vector`, elementwise; a dimension error
is thrown when the lengths differ. -/
def Vector.add (x y : Vector K) : Except Exception (Vector K) :=
  if x.rows = y.rows then
    .ok { rows := x.rows, coeff := fun i => x.coeff i + y.coeff i }
  else
    .error .dimension

/-- Modelled from the spec: element access `x(i)` of a `Vector`; an access
outside of the vector has no defined value and is reported as
`Exception.index`. -/
def Vector.get (x : Vector K) (i : Nat) : Except Exception K :=
  if i < x.rows then .ok (x.coeff i) else .error .index

/-- Modelled from the spec: `Matrix * Vector`, the linear map of the
"LoadResponseOperator" applied to a coefficient vector; a dimension error is
thrown when the column count differs from the vector length. -/
def Matrix.mulVec (A : Matrix K) (x : Vector K) : Except Exception (Vector K) :=
  if A.columns = x.rows then
    .ok { rows := A.rows
          coeff := fun i => ((List.range A.columns).map fun j => A.coeff i j * x.coeff j).sum }
  else
    .error .dimension

/-- Largest degree held by a field: `cnm` has `maxDegree+1` rows. -/
def SphericalHarmonics.maxDegree (h : SphericalHarmonics K) : Nat := h.cnm.rows - 1

/-- Modelled from the spec: `Double * SphericalHarmonics` of
`base/sphericalHarmonics.h` (not among the sources): the field is
"multiplied by the scale factor", `GM` and `R` are kept. -/
def SphericalHarmonics.scale (factor : K) (h : SphericalHarmonics K) : SphericalHarmonics K :=
  { GM := h.GM, R := h.R
    cnm := { rows := h.cnm.rows, columns := h.cnm.columns, coeff := fun n m => factor * h.cnm.coeff n m }
    snm := { rows := h.snm.rows, columns := h.snm.columns, coeff := fun n m => factor * h.snm.coeff n m } }

/-- Modelled from the spec: `SphericalHarmonics::get(maxDegree, minDegree, GM, R)`
of `base/sphericalHarmonics.h` (not among the sources): "a truncation/rescale
operation returns a new field with coefficients outside the requested range
removed and values rescaled if GM/R differ"; `INFINITYDEGREE` asks for "the
file's native maximum". The degree-wise factor of the rescaling is the
argument `rescale GM₀ R₀ GM R n`. -/
def SphericalHarmonics.get [DecidableEq K] (INFINITYDEGREE : Nat) (rescale : K → K → K → K → Nat → K)
    (h : SphericalHarmonics K) (maxDegree minDegree : Nat) (GM R : K) : SphericalHarmonics K :=
  let maxDegree := if maxDegree = INFINITYDEGREE then h.maxDegree else maxDegree
  let factor : Nat → K := fun n => if GM = h.GM ∧ R = h.R then 1 else rescale h.GM h.R GM R n
  let pick : Matrix K → Matrix K := fun c =>
    { rows := maxDegree + 1, columns := maxDegree + 1
      coeff := fun n m =>
        if minDegree ≤ n ∧ n ≤ maxDegree ∧ n < c.rows ∧ m ≤ n then factor n * c.coeff n m else 0 }
  { GM := GM, R := R, cnm := pick h.cnm, snm := pick h.snm }

end Library

/-! ## `TidesOceanPole` -/

/-- Members of `TidesOceanPole`. -/
structure TidesOceanPole (K T : Type) where
  harmReal : SphericalHarmonics K
  harmImag : SphericalHarmonics K
  gammaR : K
  gammaI : K
  meanPole : MeanPolarMotion K T

/-- Values delivered by `readConfig` to the constructor. `maxDegree` is
`OPTIONAL`: when absent the variable keeps its initial `INFINITYDEGREE`. -/
structure Config (K : Type) where
  inputfileOceanPole : String
  minDegree : Nat
  maxDegree : Option Nat
  gammaReal : K
  gammaImaginary : K
  inputfileMeanPole : String
  factor : K
  isCreateSchema : Bool

/-- State of the displacement buffer, the result and the collaborator calls
at the end of `deformation`. -/
structure Outcome (K T : Type) where
  result : Except Exception Unit
  disp : Displacement K
  events : List (Event K T)

section Tides
variable {K T : Type} [Add K] [Sub K] [Mul K] [Div K] [Neg K] [Zero K] [One K] [NatCast K]

/-- Constructor `TidesOceanPole::TidesOceanPole(Config&)`; `self` holds the
members as default-initialised before the body runs. -/
def TidesOceanPole.create [DecidableEq K] (INFINITYDEGREE : Nat) (rescale : K → K → K → K → Nat → K)
    (readFileOceanPoleTide : String → Option (SphericalHarmonics K × SphericalHarmonics K))
    (readFileMeanPolarMotion : String → Option (MeanPolarMotion K T))
    (self : TidesOceanPole K T) (config : Config K) : Except Exception (TidesOceanPole K T) :=
  let minDegree := config.minDegree
  let maxDegree := config.maxDegree.getD INFINITYDEGREE
  let factor := config.factor
  let self := { self with gammaR := config.gammaReal, gammaI := config.gammaImaginary }
  if config.isCreateSchema then .ok self
  else
    match readFileOceanPoleTide config.inputfileOceanPole with
    | none => .error .file
    | some (harmReal, harmImag) =>
      let harmReal := (harmReal.get INFINITYDEGREE rescale maxDegree minDegree harmReal.GM harmReal.R).scale factor
      let harmImag := (harmImag.get INFINITYDEGREE rescale maxDegree minDegree harmImag.GM harmImag.R).scale factor
      match readFileMeanPolarMotion config.inputfileMeanPole with
      | none => .error .file
      | some meanPole =>
        .ok { self with harmReal := harmReal, harmImag := harmImag, meanPole := meanPole }

/-- Method `TidesOceanPole::pole`: the pair `(m1, m2)`. -/
def TidesOceanPole.pole (PI : K) (self : TidesOceanPole K T) (time : T)
    (earthRotation : T → Option (EarthOrientationParameter K)) :
    Except Exception (K × K) × List (Event K T) :=
  match self.meanPole.compute time with
  | none => (.error .meanPolarMotion, [])
  | some (xBar, yBar) =>
    match earthRotation time with
    | none => (.error .earthRotation, [.earthOrientationParameter time])
    | some eop =>
      let m1 := (eop.xp * RAD2DEG PI * 3600 - xBar)
      let m2 := -(eop.yp * RAD2DEG PI * 3600 - yBar)
      (.ok (m1, m2), [.earthOrientationParameter time])

/-- Lines 91-95 of `sphericalHarmonics`: the field
`SphericalHarmonics(harmReal.GM(), harmReal.R(), cnm, snm)` before its
conversion. -/
def TidesOceanPole.field (PI : K) (self : TidesOceanPole K T) (m1 m2 : K) :
    Except Exception (SphericalHarmonics K) :=
  let cnm := self.harmReal.cnm.mul ((m1 * self.gammaR + m2 * self.gammaI) * DEG2RAD PI / 3600)
  let snm := self.harmReal.snm.mul ((m1 * self.gammaR + m2 * self.gammaI) * DEG2RAD PI / 3600)
  match cnm.addAssign (self.harmImag.cnm.mul ((m2 * self.gammaR - m1 * self.gammaI) * DEG2RAD PI / 3600)) with
  | .error e => .error e
  | .ok cnm =>
    match snm.addAssign (self.harmImag.snm.mul ((m2 * self.gammaR - m1 * self.gammaI) * DEG2RAD PI / 3600)) with
    | .error e => .error e
    | .ok snm => .ok { GM := self.harmReal.GM, R := self.harmReal.R, cnm := cnm, snm := snm }

/-- Method `TidesOceanPole::sphericalHarmonics`; `rotEarth` and `ephemerides`
are the two unnamed arguments. -/
def TidesOceanPole.sphericalHarmonics [DecidableEq K] {Rotary3d EphemeridesPtr : Type}
    (PI : K) (INFINITYDEGREE : Nat) (rescale : K → K → K → K → Nat → K)
    (self : TidesOceanPole K T) (time : T) (_rotEarth : Rotary3d)
    (earthRotation : T → Option (EarthOrientationParameter K)) (_ephemerides : EphemeridesPtr)
    (maxDegree minDegree : Nat) (GM R : K) :
    Except Exception (SphericalHarmonics K) × List (Event K T) :=
  match self.pole PI time earthRotation with
  | (.error e, events) => (.error e, events)
  | (.ok (m1, m2), events) =>
    match self.field PI m1 m2 with
    | .error e => (.error e, events)
    | .ok harm => (.ok (harm.get INFINITYDEGREE rescale maxDegree minDegree GM R), events)

/-- Line `disp.at(k).at(idEpoch).c() += v` for one component `c`, written by
`put`. -/
def addAt (put : Vector3d K → K → Vector3d K) (disp : Displacement K) (k idEpoch : Nat) (v : K) :
    Except Exception (Displacement K) :=
  match disp[k]? with
  | none => .error .outOfRange
  | some row =>
    match row[idEpoch]? with
    | none => .error .outOfRange
    | some p => .ok (disp.set k (row.set idEpoch (put p v)))

/-- Body of the loop over the sites, lines 127-129. -/
def siteBody (x : Vector K) (idEpoch k : Nat) (disp : Displacement K) :
    Except Exception Unit × Displacement K :=
  match x.get (3 * k + 0) with
  | .error e => (.error e, disp)
  | .ok v0 =>
    match addAt (fun p v => { p with x := p.x + v }) disp k idEpoch v0 with
    | .error e => (.error e, disp)
    | .ok disp =>
      match x.get (3 * k + 1) with
      | .error e => (.error e, disp)
      | .ok v1 =>
        match addAt (fun p v => { p with y := p.y + v }) disp k idEpoch v1 with
        | .error e => (.error e, disp)
        | .ok disp =>
          match x.get (3 * k + 2) with
          | .error e => (.error e, disp)
          | .ok v2 =>
            match addAt (fun p v => { p with z := p.z + v }) disp k idEpoch v2 with
            | .error e => (.error e, disp)
            | .ok disp => (.ok (), disp)

/-- Loop `for(UInt k=0; k<point.size(); k++)`, over the remaining values of
`k`. -/
def siteLoop (x : Vector K) (idEpoch : Nat) : List Nat → Displacement K →
    Except Exception Unit × Displacement K
  | [], disp => (.ok (), disp)
  | k :: ks, disp =>
    match siteBody x idEpoch k disp with
    | (.error e, disp) => (.error e, disp)
    | (.ok (), disp) => siteLoop x idEpoch ks disp

/-- Loop `for(UInt idEpoch=0; idEpoch<time.size(); idEpoch++)`, from
`idEpoch` on; `time` holds the epochs `time.at(idEpoch)`, `time.at(idEpoch+1)`, ... -/
def epochLoop (PI : K) (self : TidesOceanPole K T) (point : List (Vector3d K))
    (rotation : T → Option (EarthOrientationParameter K)) (xReal xImag : Vector K) :
    Nat → List T → Displacement K → Outcome K T
  | _, [], disp => { result := .ok (), disp := disp, events := [] }
  | idEpoch, t :: time, disp =>
    match self.pole PI t rotation with
    | (.error e, events) => { result := .error e, disp := disp, events := events }
    | (.ok (m1, m2), events) =>
      match (xReal.mul ((m1 * self.gammaR + m2 * self.gammaI) * DEG2RAD PI / 3600)).add
          (xImag.mul ((m2 * self.gammaR - m1 * self.gammaI) * DEG2RAD PI / 3600)) with
      | .error e => { result := .error e, disp := disp, events := events }
      | .ok x =>
        match siteLoop x idEpoch (List.range point.length) disp with
        | (.error e, disp) => { result := .error e, disp := disp, events := events }
        | (.ok (), disp) =>
          let rest := epochLoop PI self point rotation xReal xImag (idEpoch + 1) time disp
          { result := rest.result, disp := rest.disp, events := events ++ rest.events }

/-- Method `TidesOceanPole::deformation`. `deformationMatrix` (a static
function of `classes/tides/tides.h`) and `SphericalHarmonics::x` (the
coefficient vector of a field) are not among the sources and are arguments;
`rotEarth` and `ephemerides` are the two unnamed arguments. -/
def TidesOceanPole.deformation {Rotary3d EphemeridesPtr : Type} (PI : K)
    (deformationMatrix : List (Vector3d K) → List K → Vector K → Vector K → K → K → Nat → Matrix K)
    (x : SphericalHarmonics K → Vector K)
    (self : TidesOceanPole K T) (time : List T) (point : List (Vector3d K))
    (_rotEarth : List Rotary3d) (rotation : T → Option (EarthOrientationParameter K))
    (_ephemerides : EphemeridesPtr) (gravity : List K) (hn ln : Vector K)
    (disp : Displacement K) : Outcome K T :=
  if time.length = 0 ∨ point.length = 0 then
    { result := .ok (), disp := disp, events := [] }
  else
    let A := deformationMatrix point gravity hn ln self.harmReal.GM self.harmReal.R self.harmReal.maxDegree
    match A.mulVec (x self.harmReal) with
    | .error e => { result := .error e, disp := disp, events := [.deformationMatrix point] }
    | .ok xReal =>
      match A.mulVec (x self.harmImag) with
      | .error e => { result := .error e, disp := disp, events := [.deformationMatrix point] }
      | .ok xImag =>
        let rest := epochLoop PI self point rotation xReal xImag 0 time disp
        { result := rest.result, disp := rest.disp, events := .deformationMatrix point :: rest.events }

/-- Line 123 of `deformation`: the displacement vector of one epoch,
`xReal * (...) + xImag * (...)`, as the epoch loop computes it. -/
def deformationVector (PI : K) (self : TidesOceanPole K T) (xReal xImag : Vector K) (m1 m2 : K) :
    Except Exception (Vector K) :=
  (xReal.mul ((m1 * self.gammaR + m2 * self.gammaI) * DEG2RAD PI / 3600)).add
    (xImag.mul ((m2 * self.gammaR - m1 * self.gammaI) * DEG2RAD PI / 3600))

/-- Rest of one pass of the epoch loop after the site loop has returned
`sites`: its failure ends the call, otherwise `rest` runs on the buffer. -/
def afterSites (events : List (Event K T)) (sites : Except Exception Unit × Displacement K)
    (rest : Displacement K → Outcome K T) : Outcome K T :=
  match sites with
  | (.error e, disp) => { result := .error e, disp := disp, events := events }
  | (.ok (), disp) =>
    { result := (rest disp).result, disp := (rest disp).disp, events := events ++ (rest disp).events }

end Tides

/-! ## GRACE L1B converters -/

/-- What ends the read loop of a converter other than its normal end. -/
inductive GraceFault where
  /-- an exception of the `FileInGrace` constructor, rethrown by `run` -/
  | file
  /-- `arc.back()` evaluated on an empty arc, which has no defined result -/
  | backOfEmptyArc
  deriving DecidableEq

/-- An opened `FileInGrace`: the number of records announced by its header
and the records that the stream delivers; reading record `idEpoch` throws when
the stream holds no such record. -/
structure FileInGrace (R : Type) where
  numberOfRecords : Nat
  records : List R

/-- One CLK1B record, in reading order. -/
structure ClockRecord (D : Type) where
  seconds : Int
  GRACE_id : Nat
  clock_id : Int
  eps_time : D
  eps_err : D
  eps_drift : D
  drift_err : D
  qualflg : Nat
  deriving DecidableEq

/-- Epoch `ClockEpoch` of the instrument arc. -/
structure ClockEpoch (T D : Type) where
  time : T
  rcvTime : Int
  epsTime : D
  epsError : D
  epsDrift : D
  driftError : D
  qualityFlag : Nat
  deriving DecidableEq

/-- What the loop body of `GraceL1b2Clock::run` did with one record:
`continue` without `push_back`, or `push_back(epoch)`, possibly after the
`arc.remove` of line 126. -/
inductive ClockAction (T D : Type) where
  | skipped
  | pushed (epoch : ClockEpoch T D) (afterRemove : Bool)
  deriving DecidableEq

/-- One MAG1B record, in reading order. -/
structure MagnetometerRecord (F : Type) where
  seconds : Int
  time_frac : Int
  time_ref : Nat
  GRACE_id : Nat
  MfvX_RAW : F
  MfvY_RAW : F
  MfvZ_RAW : F
  torque1A : F
  torque2A : F
  torque3A : F
  torque1B : F
  torque2B : F
  torque3B : F
  MF_BCalX : F
  MF_BCalY : F
  MF_BCalZ : F
  torque_cal : F
  qualflg : Nat
  deriving DecidableEq

/-- Epoch `MagnetometerEpoch` of the instrument arc. -/
structure MagnetometerEpoch (T F : Type) where
  time : T
  magneticField : Vector3d F
  torquerA : Vector3d F
  torquerB : Vector3d F
  magneticFieldCalibration : Vector3d F
  torquerCalibration : F
  deriving DecidableEq

section Grace
variable {T D F E : Type}

/-- Element `arc.back()`; on an empty arc the C++ call has no defined
result. -/
def Arc.back (arc : List E) : Except GraceFault E :=
  match arc.getLast? with
  | some epoch => .ok epoch
  | none => .error .backOfEmptyArc

/-- Lines 86-92 of `GraceL1b2Clock::run`: the quality of a record from its
flag byte; the flag of the end of an invalid period counts as valid in the
first record of a file. -/
def clockQuality (idEpoch qualflg : Nat) : Nat :=
  let quality := 0
  let quality := if qualflg &&& (1 <<< 0) ≠ 0 then 1 else quality
  let quality := if qualflg &&& (1 <<< 1) ≠ 0 then 2 else quality
  if idEpoch = 0 ∧ quality = 2 then 0 else quality

/-- Condition `(arc.size()) && (time == arc.back().time)`: by the
short-circuit `&&` the last epoch is looked at on a non-empty arc only. -/
def lastTimeIs [DecidableEq T] (arc : List (ClockEpoch T D)) (time : T) : Bool :=
  match arc.getLast? with
  | some last => decide (time = last.time)
  | none => false

/-- Condition `(arc.size()) && (arc.back().data().at(1) == 0)`; `dataAt1 epoch`
stands for `epoch.data().at(1)` of `files/fileInstrument.h`. -/
def lastDataIsZero [Zero D] [DecidableEq D] (dataAt1 : ClockEpoch T D → D)
    (arc : List (ClockEpoch T D)) : Bool :=
  match arc.getLast? with
  | some last => decide (dataAt1 last = 0)
  | none => false

/-- Loop body of `GraceL1b2Clock::run`, lines 81-134, for a record that has
been read: the arc, `dummy` and what was done with the record. `toTime seconds`
stands for `mjd2time(51544.5) + seconds2time(seconds)`. The warning of line 82
only writes to the log. -/
def clockBody [DecidableEq T] [Zero D] [DecidableEq D] (toTime : Int → T)
    (dataAt1 : ClockEpoch T D → D) (numberOfRecords idEpoch : Nat) (r : ClockRecord D)
    (arc : List (ClockEpoch T D)) (dummy : Bool) :
    List (ClockEpoch T D) × Bool × ClockAction T D :=
  let time := toTime r.seconds
  let quality := clockQuality idEpoch r.qualflg
  if idEpoch = 1 ∧ lastTimeIs arc time = true then (arc, dummy, .skipped)
  else if idEpoch = numberOfRecords - 1 ∧ quality = 1 ∧ lastTimeIs arc time = true then
    (arc, dummy, .skipped)
  else
    let epoch : ClockEpoch T D :=
      { time := time, rcvTime := r.seconds, epsTime := r.eps_time, epsError := r.eps_err
        epsDrift := r.eps_drift, driftError := r.drift_err, qualityFlag := quality }
    if quality = 1 then (arc ++ [epoch], true, .pushed epoch false)
    else if dummy = true ∧ quality ≠ 2 then (arc, dummy, .skipped)
    else if dummy = true ∧ quality = 2 then
      if lastTimeIs arc epoch.time = true ∧ lastDataIsZero dataAt1 arc = false then
        (arc, false, .skipped)
      else if lastTimeIs arc epoch.time = true ∧ lastDataIsZero dataAt1 arc = true then
        if epoch.epsTime ≠ 0 then (arc.dropLast ++ [epoch], false, .pushed epoch true)
        else (arc.dropLast ++ [epoch], false, .pushed epoch true)
      else (arc ++ [epoch], false, .pushed epoch false)
    else (arc ++ [epoch], dummy, .pushed epoch false)

/-- Loop `for(UInt idEpoch=0; idEpoch<numberOfRecords; idEpoch++)` of
`GraceL1b2Clock::run` from `idEpoch` on, `remaining` passes being left. A
read that throws runs the handler of line 77, which evaluates `arc.back()`
without a guard, and leaves the loop. Returns the arc and the actions, one
per record read. -/
def clockEpochs [DecidableEq T] [Zero D] [DecidableEq D] (toTime : Int → T)
    (dataAt1 : ClockEpoch T D → D) (numberOfRecords : Nat) (records : List (ClockRecord D)) :
    Nat → Nat → List (ClockEpoch T D) → Bool →
      Except GraceFault (List (ClockEpoch T D) × List (ClockAction T D))
  | 0, _, arc, _ => .ok (arc, [])
  | remaining + 1, idEpoch, arc, dummy =>
    match records[idEpoch]? with
    | none =>
      match Arc.back arc with
      | .error f => .error f
      | .ok _ => .ok (arc, [])
    | some r =>
      match clockBody toTime dataAt1 numberOfRecords idEpoch r arc dummy with
      | (arc, dummy, action) =>
        match clockEpochs toTime dataAt1 numberOfRecords records remaining (idEpoch + 1) arc dummy with
        | .error f => .error f
        | .ok (arc, actions) => .ok (arc, action :: actions)

/-- Loop over the input files of `GraceL1b2Clock::run`, lines 55-136;
`fileInGrace name` is the `FileInGrace` constructor, `none` when it throws. -/
def clockFiles [DecidableEq T] [Zero D] [DecidableEq D] (toTime : Int → T)
    (dataAt1 : ClockEpoch T D → D) (fileInGrace : String → Option (FileInGrace (ClockRecord D))) :
    List String → List (ClockEpoch T D) → Except GraceFault (List (ClockEpoch T D))
  | [], arc => .ok arc
  | name :: fileNameIn, arc =>
    match fileInGrace name with
    | none => .error .file
    | some file =>
      match clockEpochs toTime dataAt1 file.numberOfRecords file.records file.numberOfRecords 0 arc
          false with
      | .error f => .error f
      | .ok (arc, _) => clockFiles toTime dataAt1 fileInGrace fileNameIn arc

/-- Program `GraceL1b2Clock::run`: the arc written to `outputfileClock`, if
any. `sort` and `removeDuplicateEpochs` are the `Arc` methods of
`files/fileInstrument.h`. -/
def GraceL1b2Clock.run [DecidableEq T] [Zero D] [DecidableEq D] (toTime : Int → T)
    (dataAt1 : ClockEpoch T D → D) (fileInGrace : String → Option (FileInGrace (ClockRecord D)))
    (sort removeDuplicateEpochs : List (ClockEpoch T D) → List (ClockEpoch T D))
    (fileNameOut : String) (fileNameIn : List String) (isCreateSchema : Bool) :
    Except GraceFault (Option (List (ClockEpoch T D))) :=
  if isCreateSchema then .ok none
  else
    match clockFiles toTime dataAt1 fileInGrace fileNameIn [] with
    | .error f => .error f
    | .ok arc =>
      let arc := sort arc
      let arc := removeDuplicateEpochs arc
      if arc.length = 0 then .ok none
      else if fileNameOut.isEmpty = false then .ok (some arc)
      else .ok none

/-- Loop over the records of one file in `GraceL1b2Magnetometer::run`, lines
61-96. `toTime seconds time_frac` stands for
`mjd2time(51544.5) + seconds2time(seconds) + seconds2time(1e-6*time_frac)`.
The warning of line 85 only writes to the log; the handler of line 80
evaluates `arc.back()` without a guard. -/
def magnetometerEpochs (toTime : Int → Int → T) (records : List (MagnetometerRecord F)) :
    Nat → Nat → List (MagnetometerEpoch T F) → Except GraceFault (List (MagnetometerEpoch T F))
  | 0, _, arc => .ok arc
  | remaining + 1, idEpoch, arc =>
    match records[idEpoch]? with
    | none =>
      match Arc.back arc with
      | .error f => .error f
      | .ok _ => .ok arc
    | some r =>
      let time := toTime r.seconds r.time_frac
      let epoch : MagnetometerEpoch T F :=
        { time := time
          magneticField := { x := r.MfvX_RAW, y := r.MfvY_RAW, z := r.MfvZ_RAW }
          torquerA := { x := r.torque1A, y := r.torque2A, z := r.torque3A }
          torquerB := { x := r.torque1B, y := r.torque2B, z := r.torque3B }
          magneticFieldCalibration := { x := r.MF_BCalX, y := r.MF_BCalY, z := r.MF_BCalZ }
          torquerCalibration := r.torque_cal }
      magnetometerEpochs toTime records remaining (idEpoch + 1) (arc ++ [epoch])

/-- Loop over the input files of `GraceL1b2Magnetometer::run`, lines 55-97. -/
def magnetometerFiles (toTime : Int → Int → T)
    (fileInGrace : String → Option (FileInGrace (MagnetometerRecord F))) :
    List String → List (MagnetometerEpoch T F) → Except GraceFault (List (MagnetometerEpoch T F))
  | [], arc => .ok arc
  | name :: fileNameIn, arc =>
    match fileInGrace name with
    | none => .error .file
    | some file =>
      match magnetometerEpochs toTime file.records file.numberOfRecords 0 arc with
      | .error f => .error f
      | .ok arc => magnetometerFiles toTime fileInGrace fileNameIn arc

/-- Program `GraceL1b2Magnetometer::run`: the arc written to
`outputfileMagnetometer`, if any. -/
def GraceL1b2Magnetometer.run (toTime : Int → Int → T)
    (fileInGrace : String → Option (FileInGrace (MagnetometerRecord F)))
    (sort removeDuplicateEpochs : List (MagnetometerEpoch T F) → List (MagnetometerEpoch T F))
    (fileNameOut : String) (fileNameIn : List String) (isCreateSchema : Bool) :
    Except GraceFault (Option (List (MagnetometerEpoch T F))) :=
  if isCreateSchema then .ok none
  else
    match magnetometerFiles toTime fileInGrace fileNameIn [] with
    | .error f => .error f
    | .ok arc =>
      let arc := sort arc
      let arc := removeDuplicateEpochs arc
      if arc.length = 0 then .ok none
      else if fileNameOut.isEmpty = false then .ok (some arc)
      else .ok none

end Grace

/-! ## The formulas of the specification -/

section SpecFormulas
variable {K T : Type} [Field K]

/-- Weight of the real coefficient set, specification 4.4 step 2. -/
def wReal (PI gammaR gammaI m1 m2 : K) : K := (m1 * gammaR + m2 * gammaI) * PI / (180 * 3600)

/-- Weight of the imaginary coefficient set, specification 4.4 step 2. -/
def wImag (PI gammaR gammaI m1 m2 : K) : K := (m2 * gammaR - m1 * gammaI) * PI / (180 * 3600)

/-- Field of specification 4.4 steps 3-4 before its conversion: the real
coefficient set's `GM` and `R`, `Cnm = wR·Creal + wI·Cimag`, `Snm` alike. -/
def combinedField (self : TidesOceanPole K T) (wR wI : K) : SphericalHarmonics K :=
  { GM := self.harmReal.GM, R := self.harmReal.R
    cnm := { rows := self.harmReal.cnm.rows, columns := self.harmReal.cnm.columns
             coeff := fun n m => wR * self.harmReal.cnm.coeff n m + wI * self.harmImag.cnm.coeff n m }
    snm := { rows := self.harmReal.snm.rows, columns := self.harmReal.snm.columns
             coeff := fun n m => wR * self.harmReal.snm.coeff n m + wI * self.harmImag.snm.coeff n m } }

/-- Real and imaginary coefficient sets have the same shape. -/
def TidesOceanPole.SameShape (self : TidesOceanPole K T) : Prop :=
  self.harmReal.cnm.rows = self.harmImag.cnm.rows ∧ self.harmReal.cnm.columns = self.harmImag.cnm.columns ∧
  self.harmReal.snm.rows = self.harmImag.snm.rows ∧ self.harmReal.snm.columns = self.harmImag.snm.columns

/-- Element `disp.at(k).at(i)` of the displacement buffer, when it exists. -/
def entry (disp : Displacement K) (k i : Nat) : Option (Vector3d K) :=
  match disp[k]? with
  | none => none
  | some row => row[i]?

/-- Per-epoch displacement vector of specification 4.5 step 2,
`x = xReal·wR + xImag·wI`, element `j`. -/
def combinedVector (xReal xImag : Vector K) (wR wI : K) (j : Nat) : K :=
  xReal.coeff j * wR + xImag.coeff j * wI

/-- Entry `p` after the 3-component slice `(3k, 3k+1, 3k+2)` of `x` has been
added to it. -/
def addSlice (x : Nat → K) (k : Nat) (p : Vector3d K) : Vector3d K :=
  { x := p.x + x (3 * k + 0), y := p.y + x (3 * k + 1), z := p.z + x (3 * k + 2) }

/-- Field `f` is the exact negation of field `g`: same `GM`, `R` and shape,
every coefficient negated. -/
def SphericalHarmonics.IsNeg (f g : SphericalHarmonics K) : Prop :=
  f.GM = g.GM ∧ f.R = g.R ∧
  f.cnm.rows = g.cnm.rows ∧ f.cnm.columns = g.cnm.columns ∧
  f.snm.rows = g.snm.rows ∧ f.snm.columns = g.snm.columns ∧
  ∀ n m, f.cnm.coeff n m = -g.cnm.coeff n m ∧ f.snm.coeff n m = -g.snm.coeff n m

/-- Sum of two 3-vectors. -/
def Vector3d.add (p q : Vector3d K) : Vector3d K :=
  { x := p.x + q.x, y := p.y + q.y, z := p.z + q.z }

/-- Multiple `c·p` of a 3-vector. -/
def Vector3d.smul (c : K) (p : Vector3d K) : Vector3d K :=
  { x := c * p.x, y := c * p.y, z := c * p.z }

/-- Entry `(k, i)` expected after the epoch loop has run from `idEpoch` over
`time` for `n` sites, `xi t` being the displacement vector of epoch `t`. -/
def epochUpdate (xi : T → Nat → K) (n idEpoch : Nat) (time : List T) (disp : Displacement K)
    (k i : Nat) : Option (Vector3d K) :=
  if k < n ∧ idEpoch ≤ i then
    match time[i - idEpoch]? with
    | some t => (entry disp k i).map (addSlice (xi t) k)
    | none => entry disp k i
  else entry disp k i

/-- The vectorisation `x()` is linear: the coefficient vector of a combination
`a·f + b·g` of two fields of one shape is the combination of their
coefficient vectors. -/
def LinearVectorisation (x : SphericalHarmonics K → Vector K) : Prop :=
  ∀ (f g h : SphericalHarmonics K) (a b : K),
    f.cnm.rows = g.cnm.rows → f.cnm.columns = g.cnm.columns →
    f.snm.rows = g.snm.rows → f.snm.columns = g.snm.columns →
    h.cnm.rows = f.cnm.rows → h.cnm.columns = f.cnm.columns →
    h.snm.rows = f.snm.rows → h.snm.columns = f.snm.columns →
    (∀ n m, h.cnm.coeff n m = a * f.cnm.coeff n m + b * g.cnm.coeff n m) →
    (∀ n m, h.snm.coeff n m = a * f.snm.coeff n m + b * g.snm.coeff n m) →
    (x h).rows = (x f).rows ∧ ∀ j, (x h).coeff j = a * (x f).coeff j + b * (x g).coeff j
/-- Whether an event is a construction of the load-response operator. -/
def Event.isBuild : Event K T → Bool
  | .deformationMatrix _ => true
  | .earthOrientationParameter _ => false

/-- Number of constructions of the load-response operator among the events. -/
def buildCount (events : List (Event K T)) : Nat := (events.filter Event.isBuild).length

end SpecFormulas

/-! ## Concrete data -/

section Samples
variable (K : Type) [Add K] [Sub K] [Mul K] [Div K] [Neg K] [Zero K] [One K] [NatCast K]

/-- A field up to degree 2 with the given amplitudes. -/
def sampleHarm (a b : K) : SphericalHarmonics K :=
  { GM := 2, R := 3
    cnm := { rows := 3, columns := 3, coeff := fun n m => if m ≤ n ∧ n ≤ 2 then a * (n + m + 1) else 0 }
    snm := { rows := 3, columns := 3, coeff := fun n m => if 1 ≤ m ∧ m ≤ n ∧ n ≤ 2 then b * (n + 2 * m) else 0 } }

/-- An instance whose mean pole is `(xBar, yBar)` at every time. -/
def sampleTides (xBar yBar : K) : TidesOceanPole K Nat :=
  { harmReal := sampleHarm K 1 2, harmImag := sampleHarm K 3 5, gammaR := 7/10, gammaI := 1/100
    meanPole := { compute := fun _ => some (xBar, yBar) } }

/-- An orientation provider with the reading `(xp, yp)` at every time. -/
def sampleRotation (xp yp : K) : Nat → Option (EarthOrientationParameter K) :=
  fun _ => some { xp := xp, yp := yp, sp := 3, deltaUT := 4, LOD := 5, X := 6, Y := 7, S := 8 }

/-- A load-response operator with three rows per site and one column. -/
def sampleDeformationMatrix :
    List (Vector3d K) → List K → Vector K → Vector K → K → K → Nat → Matrix K :=
  fun point _ _ _ _ _ _ => { rows := 3 * point.length, columns := 1, coeff := fun i _ => i + 1 }

/-- A coefficient vector of length one, holding `c00`. -/
def sampleX : SphericalHarmonics K → Vector K :=
  fun harm => { rows := 1, coeff := fun _ => harm.cnm.coeff 0 0 }

/-- Image of the coefficient vector of `harm` under the sample operator for
one site. -/
def sampleImage (harm : SphericalHarmonics K) : Vector K :=
  match (sampleDeformationMatrix K [{ x := 1, y := 0, z := 0 }] [] (sampleX K harm) (sampleX K harm)
      harm.GM harm.R 2).mulVec (sampleX K harm) with
  | .ok v => v
  | .error _ => { rows := 0, coeff := fun _ => 0 }

/-- Reader of the coefficient file: the same two fields for every name. -/
def sampleReadOceanPoleTide : String → Option (SphericalHarmonics K × SphericalHarmonics K) :=
  fun _ => some (sampleHarm K 1 2, sampleHarm K 3 5)

/-- Reader of the mean pole file: the constant model `(1/10, 1/5)`. -/
def sampleReadMeanPolarMotion : String → Option (MeanPolarMotion K Nat) :=
  fun _ => some { compute := fun _ => some (1/10, 1/5) }

/-- Members before the constructor body runs. -/
def sampleInit : TidesOceanPole K Nat :=
  { harmReal := sampleHarm K 0 0, harmImag := sampleHarm K 0 0, gammaR := 0, gammaI := 0
    meanPole := { compute := fun _ => none } }

/-- Configuration with the default constants and the given degrees and
factor. -/
def sampleConfig (minDegree : Nat) (maxDegree : Option Nat) (factor : K) : Config K :=
  { inputfileOceanPole := "oceanPoleTide_desai2004.dat", minDegree := minDegree, maxDegree := maxDegree
    gammaReal := 687/1000, gammaImaginary := 36/10000
    inputfileMeanPole := "secularPole2018.xml", factor := factor, isCreateSchema := false }

/-- The instance that the constructor builds from `sampleConfig`, with
`INFINITYDEGREE = 1000` and no rescaling. -/
def sampleCreated [DecidableEq K] (minDegree : Nat) (maxDegree : Option Nat) (factor : K) :
    TidesOceanPole K Nat :=
  { harmReal := ((sampleHarm K 1 2).get 1000 (fun _ _ _ _ _ => 1) (maxDegree.getD 1000) minDegree
      (sampleHarm K 1 2).GM (sampleHarm K 1 2).R).scale factor
    harmImag := ((sampleHarm K 3 5).get 1000 (fun _ _ _ _ _ => 1) (maxDegree.getD 1000) minDegree
      (sampleHarm K 3 5).GM (sampleHarm K 3 5).R).scale factor
    gammaR := 687/1000, gammaI := 36/10000
    meanPole := { compute := fun _ => some (1/10, 1/5) } }

/-- An instance for the unit conversion alone: the mean pole at `(0, 0)`,
`gammaR = 1` and `gammaI = 0`, so that the weight of the real coefficient set
is `m1·DEG2RAD/3600`. -/
def sampleUnit : TidesOceanPole K Nat :=
  { harmReal := sampleHarm K 1 2, harmImag := sampleHarm K 3 5, gammaR := 1, gammaI := 0
    meanPole := { compute := fun _ => some (0, 0) } }

/-- One site. -/
def samplePoint : List (Vector3d K) := [{ x := 1, y := 0, z := 0 }]

/-- A buffer of one site and two epochs. -/
def sampleDisp : Displacement K := [[{ x := 1, y := 2, z := 3 }, { x := 4, y := 5, z := 6 }]]

/-- An orientation provider that answers `(xp, yp)` before time `n` and
throws from `n` on. -/
def sampleRotationUntil (xp yp : K) (n : Nat) :
    Nat → Option (EarthOrientationParameter K) :=
  fun t => if t < n then
    some { xp := xp, yp := yp, sp := 3, deltaUT := 4, LOD := 5, X := 6, Y := 7, S := 8 }
  else none

end Samples

section GraceSamples

/-- A clock record with the given time and flag byte. -/
def sampleClockRecord (seconds : Int) (qualflg : Nat) : ClockRecord ℚ :=
  { seconds := seconds, GRACE_id := 65, clock_id := 0, eps_time := 1, eps_err := 0, eps_drift := 0
    drift_err := 0, qualflg := qualflg }

/-- The clock epoch built from `sampleClockRecord` with the given quality. -/
def sampleClockEpoch (seconds : Int) (quality : Nat) : ClockEpoch Int ℚ :=
  { time := seconds, rcvTime := seconds, epsTime := 1, epsError := 0, epsDrift := 0
    driftError := 0, qualityFlag := quality }

/-- A clock file of five records: an invalid period opens at 10, record 1 at
11 has quality 1 again, the period closes at 12, then 13, and the last record
repeats the time 13 with quality 1. -/
def sampleClockFile : FileInGrace (ClockRecord ℚ) :=
  { numberOfRecords := 5
    records := [sampleClockRecord 10 1, sampleClockRecord 11 1, sampleClockRecord 12 2,
      sampleClockRecord 13 0, sampleClockRecord 13 1] }

/-- A file whose header announces one record and whose stream holds none. -/
def sampleTruncatedFile (R : Type) : FileInGrace R := { numberOfRecords := 1, records := [] }

end GraceSamples

/-! ## Properties of `Binary64` -/

section Binary64Theorems

/-- The halving of `Binary64.log2` ends within `fuel` steps for every
`n ≤ fuel`, and its result is the integer part of `log₂ n`. -/
theorem Binary64.log2_bounds : ∀ (fuel n : Nat), 1 ≤ n → n ≤ fuel →
    2 ^ Binary64.log2 fuel n ≤ n ∧ n < 2 ^ (Binary64.log2 fuel n + 1) := by
  intro fuel
  induction fuel with
  | zero => intro n h1 h0; omega
  | succ f ih =>
    intro n h1 hf
    by_cases h2 : n < 2
    · have : n = 1 := by omega
      subst this
      simp [Binary64.log2]
    · obtain ⟨hl, hu⟩ := ih (n / 2) (by omega) (by omega)
      simp only [Binary64.log2, if_neg h2]
      constructor
      · rw [pow_succ]
        omega
      · rw [pow_succ]
        omega

/-- Nearest integer to a quotient: with `q` the integer part of `num/den` and
the rule of `Binary64.round` for the last digit, the chosen `m` is `q` or
`q + 1` and lies within a half of `num/den`; at a distance of exactly a half
it is even. -/
theorem Binary64.nearest_quotient (num den : Nat) (hden : 0 < den) (m : Nat)
    (hm : m = if den < 2 * (num % den) ∨ (2 * (num % den) = den ∧ num / den % 2 = 1)
      then num / den + 1 else num / den) :
    num / den ≤ m ∧ m ≤ num / den + 1 ∧ 2 * |(num : ℚ) / den - m| ≤ 1 ∧
      (2 * |(num : ℚ) / den - m| = 1 → m % 2 = 0) := by
  have hdiv : den * (num / den) + num % den = num := Nat.div_add_mod num den
  have hr : num % den < den := Nat.mod_lt _ hden
  have hdenQ : (0 : ℚ) < den := by exact_mod_cast hden
  have hdivQ : (den : ℚ) * ((num / den : Nat) : ℚ) + ((num % den : Nat) : ℚ) = num := by
    exact_mod_cast hdiv
  have key : ∀ k : ℚ, 2 * |(num : ℚ) / den - k| = 2 * |(num : ℚ) - k * den| / den := by
    intro k
    have e : (num : ℚ) / den - k = ((num : ℚ) - k * den) / den := by
      field_simp
      ring
    rw [e, abs_div, abs_of_pos hdenQ, ← mul_div_assoc]
  by_cases c : den < 2 * (num % den) ∨ (2 * (num % den) = den ∧ num / den % 2 = 1)
  · rw [if_pos c] at hm
    subst hm
    have hc : (den : ℚ) ≤ 2 * ((num % den : Nat) : ℚ) := by
      have : den ≤ 2 * (num % den) := by omega
      exact_mod_cast this
    have hrQ : ((num % den : Nat) : ℚ) < den := by exact_mod_cast hr
    have hx : (num : ℚ) - ((num / den + 1 : Nat) : ℚ) * den = ((num % den : Nat) : ℚ) - den := by
      push_cast
      linear_combination -hdivQ
    rw [key, hx, abs_of_nonpos (by linarith)]
    refine ⟨by omega, by omega, ?_, ?_⟩
    · rw [div_le_iff₀ hdenQ]
      linarith
    · intro htie
      rw [div_eq_iff hdenQ.ne.symm] at htie
      have h2r : 2 * (num % den) = den := by
        have : (2 : ℚ) * ((num % den : Nat) : ℚ) = den := by linarith
        exact_mod_cast this
      omega
  · rw [if_neg c] at hm
    subst hm
    have hc : 2 * ((num % den : Nat) : ℚ) ≤ den := by
      have : 2 * (num % den) ≤ den := by omega
      exact_mod_cast this
    have hr0 : (0 : ℚ) ≤ ((num % den : Nat) : ℚ) := by positivity
    have hx : (num : ℚ) - ((num / den : Nat) : ℚ) * den = ((num % den : Nat) : ℚ) := by
      linear_combination -hdivQ
    rw [key, hx, abs_of_nonneg hr0]
    refine ⟨by omega, by omega, ?_, ?_⟩
    · rw [div_le_iff₀ hdenQ]
      linarith
    · intro htie
      rw [div_eq_iff hdenQ.ne.symm] at htie
      have h2r : 2 * (num % den) = den := by
        have : (2 : ℚ) * ((num % den : Nat) : ℚ) = den := by linarith
        exact_mod_cast this
      omega

/-- The shift of `Binary64.round`: with `s` chosen from the two logarithms the
scaled fraction `n·2^s/d` lies in `[2^52, 2^53)`. -/
theorem Binary64.scaled_quotient (n d : Nat) (hn : 0 < n) (hd : 0 < d) (s : Int)
    (hs : s = if d * 2 ^ Binary64.log2 n n ≤ n * 2 ^ Binary64.log2 d d
      then 52 - ((Binary64.log2 n n : Int) - Binary64.log2 d d)
      else 52 - ((Binary64.log2 n n : Int) - Binary64.log2 d d - 1)) :
    0 < d * 2 ^ (-s).toNat ∧
    ((n * 2 ^ s.toNat : Nat) : ℚ) / ((d * 2 ^ (-s).toNat : Nat) : ℚ) = (n : ℚ) / d * 2 ^ s ∧
    2 ^ 52 * (d * 2 ^ (-s).toNat) ≤ n * 2 ^ s.toNat ∧
    n * 2 ^ s.toNat < 2 ^ 53 * (d * 2 ^ (-s).toNat) := by
  obtain ⟨hal, hau⟩ := Binary64.log2_bounds n n hn le_rfl
  obtain ⟨hbl, hbu⟩ := Binary64.log2_bounds d d hd le_rfl
  generalize Binary64.log2 n n = a at *
  generalize Binary64.log2 d d = b at *
  have h2 : (2 : ℚ) ≠ 0 := by norm_num
  have hnQ : (0 : ℚ) < n := by exact_mod_cast hn
  have hdQ : (0 : ℚ) < d := by exact_mod_cast hd
  have halQ : (2 : ℚ) ^ a ≤ n := by exact_mod_cast hal
  have hauQ : (n : ℚ) < 2 ^ (a + 1) := by exact_mod_cast hau
  have hblQ : (2 : ℚ) ^ b ≤ d := by exact_mod_cast hbl
  have hbuQ : (d : ℚ) < 2 ^ (b + 1) := by exact_mod_cast hbu
  have hpa : (0 : ℚ) < 2 ^ a := by positivity
  have hpb : (0 : ℚ) < 2 ^ b := by positivity
  -- the quotient of the two powers of the definition is the power `2^s`
  have hpow : (2 : ℚ) ^ s.toNat / (2 : ℚ) ^ (-s).toNat = (2 : ℚ) ^ s := by
    rcases le_or_lt 0 s with h | h
    · have e1 : (-s).toNat = 0 := Int.toNat_eq_zero.mpr (by omega)
      have e2 : ((s.toNat : Nat) : Int) = s := Int.toNat_of_nonneg h
      rw [e1, pow_zero, div_one, ← zpow_natCast, e2]
    · have e1 : s.toNat = 0 := Int.toNat_eq_zero.mpr (by omega)
      have e2 : (((-s).toNat : Nat) : Int) = -s := Int.toNat_of_nonneg (by omega)
      rw [e1, pow_zero, one_div, ← zpow_natCast, e2, ← zpow_neg, neg_neg]
  have hden : 0 < d * 2 ^ (-s).toNat := Nat.mul_pos hd (by positivity)
  have hquot : ((n * 2 ^ s.toNat : Nat) : ℚ) / ((d * 2 ^ (-s).toNat : Nat) : ℚ) =
      (n : ℚ) / d * 2 ^ s := by
    push_cast
    rw [← hpow]
    field_simp
  -- the exponent `E = 52 - s` of the fraction: `2^E ≤ n/d < 2^(E+1)`
  have hE : (2 : ℚ) ^ (52 - s) ≤ (n : ℚ) / d ∧ (n : ℚ) / d < (2 : ℚ) ^ (53 - s) := by
    by_cases c : d * 2 ^ a ≤ n * 2 ^ b
    · rw [if_pos c] at hs
      have cQ : (d : ℚ) * 2 ^ a ≤ n * 2 ^ b := by exact_mod_cast c
      have e1 : (52 : Int) - s = (a : Int) - b := by omega
      have e2 : (53 : Int) - s = ((a + 1 : Nat) : Int) - b := by push_cast; omega
      rw [e1, e2, zpow_sub₀ h2, zpow_sub₀ h2, zpow_natCast, zpow_natCast, zpow_natCast]
      constructor
      · rw [div_le_div_iff₀ hpb hdQ]
        linarith
      · rw [div_lt_div_iff₀ hdQ hpb]
        calc (n : ℚ) * 2 ^ b < 2 ^ (a + 1) * 2 ^ b := by
              exact mul_lt_mul_of_pos_right hauQ hpb
          _ ≤ 2 ^ (a + 1) * d := by
              exact mul_le_mul_of_nonneg_left hblQ (by positivity)
    · rw [if_neg c] at hs
      have cQ : (n : ℚ) * 2 ^ b < d * 2 ^ a := by
        have : n * 2 ^ b < d * 2 ^ a := by omega
        exact_mod_cast this
      have e1 : (52 : Int) - s = (a : Int) - ((b + 1 : Nat) : Int) := by push_cast; omega
      have e2 : (53 : Int) - s = (a : Int) - b := by omega
      rw [e1, e2, zpow_sub₀ h2, zpow_sub₀ h2, zpow_natCast, zpow_natCast, zpow_natCast]
      constructor
      · rw [div_le_div_iff₀ (by positivity) hdQ]
        calc (2 : ℚ) ^ a * d ≤ 2 ^ a * 2 ^ (b + 1) := by
              exact mul_le_mul_of_nonneg_left hbuQ.le (by positivity)
          _ ≤ n * 2 ^ (b + 1) := by
              exact mul_le_mul_of_nonneg_right halQ (by positivity)
      · rw [div_lt_div_iff₀ hdQ hpb]
        linarith
  have hps : (0 : ℚ) < 2 ^ s := by positivity
  have hlow : (2 : ℚ) ^ 52 ≤ (n : ℚ) / d * 2 ^ s := by
    calc (2 : ℚ) ^ 52 = 2 ^ (52 - s) * 2 ^ s := by
          rw [← zpow_add₀ h2, sub_add_cancel]
          norm_cast
      _ ≤ (n : ℚ) / d * 2 ^ s := mul_le_mul_of_nonneg_right hE.1 hps.le
  have hup : (n : ℚ) / d * 2 ^ s < (2 : ℚ) ^ 53 := by
    calc (n : ℚ) / d * 2 ^ s < 2 ^ (53 - s) * 2 ^ s := mul_lt_mul_of_pos_right hE.2 hps
      _ = (2 : ℚ) ^ 53 := by
          rw [← zpow_add₀ h2, sub_add_cancel]
          norm_cast
  have hdenQ : (0 : ℚ) < ((d * 2 ^ (-s).toNat : Nat) : ℚ) := by exact_mod_cast hden
  refine ⟨hden, hquot, ?_, ?_⟩
  · rw [← hquot, le_div_iff₀ hdenQ] at hlow
    exact_mod_cast hlow
  · rw [← hquot, div_lt_iff₀ hdenQ] at hup
    exact_mod_cast hup

/-- Correctness of `Binary64.round` for a non-zero fraction: the result has
the given sign and a significand of 53 binary digits, and lies within half a
unit in the last place of `(n/d)·2^e`; at a distance of exactly half a unit
its significand is even. -/
theorem Binary64.round_nearest (sign : Bool) (n d : Nat) (e : Int) (hn : 0 < n) (hd : 0 < d) :
    (Binary64.round sign n d e).sign = sign ∧
    2 ^ 52 ≤ (Binary64.round sign n d e).mant ∧ (Binary64.round sign n d e).mant < 2 ^ 53 ∧
    2 * |(n : ℚ) / d * 2 ^ e -
        (Binary64.round sign n d e).mant * 2 ^ (Binary64.round sign n d e).exp| ≤
      2 ^ (Binary64.round sign n d e).exp ∧
    (2 * |(n : ℚ) / d * 2 ^ e -
        (Binary64.round sign n d e).mant * 2 ^ (Binary64.round sign n d e).exp| =
      2 ^ (Binary64.round sign n d e).exp → (Binary64.round sign n d e).mant % 2 = 0) := by
  have h0 : ¬(n = 0 ∨ d = 0) := by omega
  unfold Binary64.round
  rw [if_neg h0]
  simp only []
  generalize hs : (if d * 2 ^ Binary64.log2 n n ≤ n * 2 ^ Binary64.log2 d d
      then 52 - ((Binary64.log2 n n : Int) - Binary64.log2 d d)
      else 52 - ((Binary64.log2 n n : Int) - Binary64.log2 d d - 1)) = s
  obtain ⟨hden, hquot, hlow, hup⟩ := Binary64.scaled_quotient n d hn hd s hs.symm
  generalize n * 2 ^ s.toNat = num at *
  generalize d * 2 ^ (-s).toNat = den at *
  generalize hm : (if den < 2 * (num % den) ∨ (2 * (num % den) = den ∧ num / den % 2 = 1)
      then num / den + 1 else num / den) = m
  obtain ⟨hq1, hq2, hnear, htie⟩ := Binary64.nearest_quotient num den hden m hm.symm
  have hql : 2 ^ 52 ≤ num / den := (Nat.le_div_iff_mul_le hden).mpr hlow
  have hqu : num / den < 2 ^ 53 := (Nat.div_lt_iff_lt_mul hden).mpr hup
  have h2 : (2 : ℚ) ≠ 0 := by norm_num
  have hp : (0 : ℚ) < 2 ^ (e - s) := by positivity
  have hval : (n : ℚ) / d * 2 ^ e - (m : ℚ) * 2 ^ (e - s) =
      ((num : ℚ) / den - m) * 2 ^ (e - s) := by
    rw [hquot, sub_mul, mul_assoc, ← zpow_add₀ h2]
    congr 3
    omega
  have herr : 2 * |(n : ℚ) / d * 2 ^ e - (m : ℚ) * 2 ^ (e - s)| ≤ 2 ^ (e - s) := by
    rw [hval, abs_mul, abs_of_pos hp, ← mul_assoc]
    calc 2 * |(num : ℚ) / den - m| * 2 ^ (e - s) ≤ 1 * 2 ^ (e - s) :=
          mul_le_mul_of_nonneg_right hnear hp.le
      _ = 2 ^ (e - s) := one_mul _
  by_cases h53 : m = 2 ^ 53
  · rw [if_pos h53]
    refine ⟨rfl, le_rfl, by norm_num, ?_, fun _ => by norm_num⟩
    have e1 : ((2 ^ 52 : Nat) : ℚ) * 2 ^ (e - s + 1) = (m : ℚ) * 2 ^ (e - s) := by
      rw [h53, zpow_add₀ h2]
      push_cast
      ring
    rw [e1]
    calc 2 * |(n : ℚ) / d * 2 ^ e - (m : ℚ) * 2 ^ (e - s)| ≤ 2 ^ (e - s) := herr
      _ ≤ 2 ^ (e - s + 1) := by
          rw [zpow_add₀ h2]
          nlinarith
  · rw [if_neg h53]
    refine ⟨rfl, ?_, ?_, herr, ?_⟩
    · show 2 ^ 52 ≤ m
      omega
    · show m < 2 ^ 53
      omega
    · intro h
      apply htie
      have h' : 2 * |(n : ℚ) / d * 2 ^ e - (m : ℚ) * 2 ^ (e - s)| = 2 ^ (e - s) := h
      rw [hval, abs_mul, abs_of_pos hp, ← mul_assoc] at h'
      exact mul_right_cancel₀ hp.ne.symm (h'.trans (one_mul _).symm)

end Binary64Theorems

/-! ## Properties of `pole` and `sphericalHarmonics` -/

section Theorems
variable {K T : Type} [Field K]

/-- Value of `pole` when the mean pole model and the provider answer, in the
source's own association `xp*RAD2DEG*3600`. -/
theorem pole_eq (PI : K) (self : TidesOceanPole K T) (t : T)
    (earthRotation : T → Option (EarthOrientationParameter K)) (eop : EarthOrientationParameter K)
    (xBar yBar : K) (hmean : self.meanPole.compute t = some (xBar, yBar))
    (hrot : earthRotation t = some eop) :
    self.pole PI t earthRotation =
      (.ok (eop.xp * RAD2DEG PI * 3600 - xBar, -(eop.yp * RAD2DEG PI * 3600 - yBar)),
        [.earthOrientationParameter t]) := by
  simp only [TidesOceanPole.pole, hmean, hrot]

/-- A successful `pole` has queried the provider exactly once. -/
theorem pole_ok_events (PI : K) (self : TidesOceanPole K T) (t : T)
    (rotation : T → Option (EarthOrientationParameter K)) (v : K × K)
    (h : (self.pole PI t rotation).1 = .ok v) :
    self.pole PI t rotation = (.ok v, [.earthOrientationParameter t]) := by
  unfold TidesOceanPole.pole at h ⊢
  cases hm : self.meanPole.compute t with
  | none => simp [hm] at h
  | some mp =>
    cases hr : rotation t with
    | none => simp [hm, hr] at h
    | some eop =>
      simp only [hm, hr] at h ⊢
      rw [Except.ok.inj h]

/-- Radians to arcseconds: `x*RAD2DEG*3600` is `x·(180·3600/π)`. -/
theorem rad2arcsec (x PI : K) : x * RAD2DEG PI * 3600 = x * (180 * 3600 / PI) := by
  simp only [RAD2DEG]
  ring

/-- C1: `pole` returns `m1 = xp·(180·3600/π) − xBar` and
`m2 = −(yp·(180·3600/π) − yBar)` for the reading of the provider and the
mean pole at `t`, and any other reading with the same `xp`, `yp` gives the
same result. -/
theorem pole_formula (PI : K) (self : TidesOceanPole K T) (t : T)
    (earthRotation : T → Option (EarthOrientationParameter K)) (eop : EarthOrientationParameter K)
    (xBar yBar : K) (hmean : self.meanPole.compute t = some (xBar, yBar))
    (hrot : earthRotation t = some eop) :
    self.pole PI t earthRotation =
        (.ok (eop.xp * (180 * 3600 / PI) - xBar, -(eop.yp * (180 * 3600 / PI) - yBar)),
          [.earthOrientationParameter t]) ∧
      ∀ (rotation : T → Option (EarthOrientationParameter K)) (sp deltaUT LOD X Y S : K),
        rotation t = some { xp := eop.xp, yp := eop.yp, sp := sp, deltaUT := deltaUT, LOD := LOD,
                            X := X, Y := Y, S := S } →
        self.pole PI t rotation = self.pole PI t earthRotation := by
  have key : ∀ (r : T → Option (EarthOrientationParameter K)) (e : EarthOrientationParameter K),
      r t = some e → self.pole PI t r =
        (.ok (e.xp * (180 * 3600 / PI) - xBar, -(e.yp * (180 * 3600 / PI) - yBar)),
          [.earthOrientationParameter t]) := by
    intro r e hr
    rw [pole_eq PI self t r e xBar yBar hmean hr, rad2arcsec, rad2arcsec]
  refine ⟨key _ _ hrot, ?_⟩
  intro rotation sp deltaUT LOD X Y S hr
  rw [key _ _ hr, key _ _ hrot]

/-- Witness of C1: the sample instance over the reals with `π`. -/
theorem pole_formula_witness :
    (sampleTides ℝ (1/10) (1/5)).meanPole.compute 0 = some (1/10, 1/5) ∧
    sampleRotation ℝ (1/1000) (1/500) 0 =
      some { xp := 1/1000, yp := 1/500, sp := 3, deltaUT := 4, LOD := 5, X := 6, Y := 7, S := 8 } ∧
    (sampleTides ℝ (1/10) (1/5)).pole Real.pi 0 (sampleRotation ℝ (1/1000) (1/500)) =
      (.ok ((1/1000 : ℝ) * (180 * 3600 / Real.pi) - 1/10, -((1/500 : ℝ) * (180 * 3600 / Real.pi) - 1/5)),
        [.earthOrientationParameter 0]) :=
  ⟨rfl, rfl, (pole_formula Real.pi (sampleTides ℝ (1/10) (1/5)) 0 (sampleRotation ℝ (1/1000) (1/500))
    _ (1/10) (1/5) rfl rfl).1⟩

/-- The factor `·DEG2RAD/3600` of the code is the factor `·π/(180·3600)` of the
specification. -/
theorem arcsec_factor (a PI : K) : a * DEG2RAD PI / 3600 = a * PI / (180 * 3600) := by
  simp only [DEG2RAD, div_eq_mul_inv, mul_inv, mul_assoc]

/-- The field built by lines 91-95 is the combination of the specification,
when the two coefficient sets have the same shape. -/
theorem field_eq_combinedField (PI : K) (self : TidesOceanPole K T) (m1 m2 : K)
    (hshape : self.SameShape) :
    self.field PI m1 m2 =
      .ok (combinedField self (wReal PI self.gammaR self.gammaI m1 m2)
        (wImag PI self.gammaR self.gammaI m1 m2)) := by
  obtain ⟨h1, h2, h3, h4⟩ := hshape
  simp only [TidesOceanPole.field, Matrix.addAssign, Matrix.mul, h1, h2, h3, h4, and_self, if_true,
    combinedField, wReal, wImag, arcsec_factor]
  congr 3 <;> funext n m <;> ring

/-- C2: with `(m1, m2) = pole(t)`, `sphericalHarmonics` returns the conversion
`get(maxDegree, minDegree, GM, R)` of the field with the real coefficient
set's `GM`, `R` and coefficients `wReal·Creal + wImag·Cimag`,
`wReal·Sreal + wImag·Simag`. -/
theorem sphericalHarmonics_formula [DecidableEq K] {Rotary3d EphemeridesPtr : Type}
    (PI : K) (INFINITYDEGREE : Nat) (rescale : K → K → K → K → Nat → K)
    (self : TidesOceanPole K T) (t : T) (rotEarth : Rotary3d)
    (earthRotation : T → Option (EarthOrientationParameter K)) (ephemerides : EphemeridesPtr)
    (maxDegree minDegree : Nat) (GM R m1 m2 : K) (events : List (Event K T))
    (hshape : self.SameShape)
    (hpole : self.pole PI t earthRotation = (.ok (m1, m2), events)) :
    self.sphericalHarmonics PI INFINITYDEGREE rescale t rotEarth earthRotation ephemerides
        maxDegree minDegree GM R =
      (.ok ((combinedField self (wReal PI self.gammaR self.gammaI m1 m2)
          (wImag PI self.gammaR self.gammaI m1 m2)).get INFINITYDEGREE rescale maxDegree minDegree GM R),
        events) := by
  simp only [TidesOceanPole.sphericalHarmonics, hpole, field_eq_combinedField PI self m1 m2 hshape]

/-- Witness of C2: the sample instance over the reals with `π`. -/
theorem sphericalHarmonics_formula_witness :
    (sampleTides ℝ (1/10) (1/5)).SameShape ∧
    (sampleTides ℝ (1/10) (1/5)).pole Real.pi 0 (sampleRotation ℝ (1/1000) (1/500)) =
      (.ok ((1/1000 : ℝ) * RAD2DEG Real.pi * 3600 - 1/10, -((1/500 : ℝ) * RAD2DEG Real.pi * 3600 - 1/5)),
        [.earthOrientationParameter 0]) ∧
    (sampleTides ℝ (1/10) (1/5)).sphericalHarmonics Real.pi 1000 (fun _ _ _ _ _ => 1) 0 ()
        (sampleRotation ℝ (1/1000) (1/500)) () 2 0 1 1 =
      (.ok ((combinedField (sampleTides ℝ (1/10) (1/5))
          (wReal Real.pi (7/10) (1/100) ((1/1000 : ℝ) * RAD2DEG Real.pi * 3600 - 1/10)
            (-((1/500 : ℝ) * RAD2DEG Real.pi * 3600 - 1/5)))
          (wImag Real.pi (7/10) (1/100) ((1/1000 : ℝ) * RAD2DEG Real.pi * 3600 - 1/10)
            (-((1/500 : ℝ) * RAD2DEG Real.pi * 3600 - 1/5)))).get 1000 (fun _ _ _ _ _ => 1) 2 0 1 1),
        [.earthOrientationParameter 0]) :=
  ⟨⟨rfl, rfl, rfl, rfl⟩, rfl,
    sphericalHarmonics_formula Real.pi 1000 (fun _ _ _ _ _ => 1) (sampleTides ℝ (1/10) (1/5)) 0 ()
      (sampleRotation ℝ (1/1000) (1/500)) () 2 0 1 1 _ _ _ ⟨rfl, rfl, rfl, rfl⟩ rfl⟩

/-- C4: with an empty time list or an empty site list `deformation` returns
without error, hands back the displacement buffer as it received it, whatever
its shape, and makes no call to the orientation provider. -/
theorem deformation_empty {Rotary3d EphemeridesPtr : Type} (PI : K)
    (deformationMatrix : List (Vector3d K) → List K → Vector K → Vector K → K → K → Nat → Matrix K)
    (x : SphericalHarmonics K → Vector K)
    (self : TidesOceanPole K T) (time : List T) (point : List (Vector3d K))
    (rotEarth : List Rotary3d) (rotation : T → Option (EarthOrientationParameter K))
    (ephemerides : EphemeridesPtr) (gravity : List K) (hn ln : Vector K)
    (disp : Displacement K) (hempty : time = [] ∨ point = []) :
    self.deformation PI deformationMatrix x time point rotEarth rotation ephemerides gravity hn ln disp =
      { result := .ok (), disp := disp, events := [] } := by
  have h : time.length = 0 ∨ point.length = 0 := by
    rcases hempty with h | h
    · exact Or.inl (by rw [h]; rfl)
    · exact Or.inr (by rw [h]; rfl)
  simp only [TidesOceanPole.deformation, if_pos h]

/-- Witness of C4: no epoch, one site and an empty buffer. -/
theorem deformation_empty_witness :
    (([] : List Nat) = [] ∨ samplePoint ℝ = []) ∧
    (sampleTides ℝ (1/10) (1/5)).deformation Real.pi (sampleDeformationMatrix ℝ) (sampleX ℝ)
        [] (samplePoint ℝ) ([] : List Unit) (sampleRotation ℝ (1/1000) (1/500)) () []
        (sampleX ℝ (sampleHarm ℝ 1 2)) (sampleX ℝ (sampleHarm ℝ 1 2)) [] =
      { result := .ok (), disp := [], events := [] } :=
  ⟨Or.inl rfl,
    deformation_empty Real.pi (sampleDeformationMatrix ℝ) (sampleX ℝ) (sampleTides ℝ (1/10) (1/5))
      [] (samplePoint ℝ) ([] : List Unit) (sampleRotation ℝ (1/1000) (1/500)) () []
      (sampleX ℝ (sampleHarm ℝ 1 2)) (sampleX ℝ (sampleHarm ℝ 1 2)) [] (Or.inl rfl)⟩

/-- C8, in exact arithmetic: over a field of characteristic 0, with the mean
pole at `(0, 0)` the conversion to arcseconds in `pole` followed by the factor
to radians of the weights gives back the reading: `m1·π/(180·3600) = xp`,
`m2·π/(180·3600) = −yp`, so that the weights of lines 91-94 are
`xp·γR − yp·γI` and `−yp·γR − xp·γI`, for every `xp`, `yp`. -/
theorem unit_round_trip [CharZero K] (PI : K) (self : TidesOceanPole K T) (t : T)
    (earthRotation : T → Option (EarthOrientationParameter K)) (eop : EarthOrientationParameter K)
    (hPI : PI ≠ 0) (hmean : self.meanPole.compute t = some (0, 0))
    (hrot : earthRotation t = some eop) :
    ∃ m1 m2, self.pole PI t earthRotation = (.ok (m1, m2), [.earthOrientationParameter t]) ∧
      m1 * PI / (180 * 3600) = eop.xp ∧ m2 * PI / (180 * 3600) = -eop.yp ∧
      wReal PI self.gammaR self.gammaI m1 m2 = eop.xp * self.gammaR - eop.yp * self.gammaI ∧
      wImag PI self.gammaR self.gammaI m1 m2 = -eop.yp * self.gammaR - eop.xp * self.gammaI ∧
      (m1 * self.gammaR + m2 * self.gammaI) * DEG2RAD PI / 3600 =
        eop.xp * self.gammaR - eop.yp * self.gammaI ∧
      (m2 * self.gammaR - m1 * self.gammaI) * DEG2RAD PI / 3600 =
        -eop.yp * self.gammaR - eop.xp * self.gammaI := by
  refine ⟨_, _, pole_eq PI self t earthRotation eop 0 0 hmean hrot, ?_, ?_, ?_, ?_, ?_, ?_⟩
  · simp only [RAD2DEG]; field_simp; ring
  · simp only [RAD2DEG]; field_simp; ring
  · simp only [wReal, RAD2DEG]; field_simp; ring
  · simp only [wImag, RAD2DEG]; field_simp; ring
  · simp only [arcsec_factor, RAD2DEG]; field_simp; ring
  · simp only [arcsec_factor, RAD2DEG]; field_simp; ring

/-- Witness of C8: the sample instance over the reals with `π` and the mean
pole at `(0, 0)`. -/
theorem unit_round_trip_witness :
    Real.pi ≠ 0 ∧ (sampleTides ℝ 0 0).meanPole.compute 0 = some (0, 0) ∧
    ∃ m1 m2, (sampleTides ℝ 0 0).pole Real.pi 0 (sampleRotation ℝ (1/1000) (1/500)) =
        (.ok (m1, m2), [.earthOrientationParameter 0]) ∧
      m1 * Real.pi / (180 * 3600) = 1/1000 ∧ m2 * Real.pi / (180 * 3600) = -(1/500) ∧
      wReal Real.pi (7/10) (1/100) m1 m2 = 1/1000 * (7/10) - 1/500 * (1/100) ∧
      wImag Real.pi (7/10) (1/100) m1 m2 = -(1/500) * (7/10) - 1/1000 * (1/100) ∧
      (m1 * (7/10) + m2 * (1/100)) * DEG2RAD Real.pi / 3600 = 1/1000 * (7/10) - 1/500 * (1/100) ∧
      (m2 * (7/10) - m1 * (1/100)) * DEG2RAD Real.pi / 3600 =
        -(1/500) * (7/10) - 1/1000 * (1/100) :=
  ⟨Real.pi_ne_zero, rfl,
    unit_round_trip Real.pi (sampleTides ℝ 0 0) 0 (sampleRotation ℝ (1/1000) (1/500)) _
      Real.pi_ne_zero rfl rfl⟩

set_option maxRecDepth 4096 in
/-- C8 as stated fails in the arithmetic of the program. In binary64, with the
mean pole at `(0, 0)`, `gammaR = 1`, `gammaI = 0` and the reading
`xp = 0x1.32c88b7ab58a1p-23` (the `double` that `1e-6/7` evaluates to),
`yp = 0`: `RAD2DEG` is `0x1.ca5dc1a63c1f8p+5`, `DEG2RAD` is
`0x1.1df46a2529d39p-6`, `pole` returns `m1 = 0x1.e2c70b0a7cc3cp-6` and
`m2 = -0`, and `m1·π/(180·3600)`, `m1·DEG2RAD/3600`, the weight
`(m1·γR + m2·γI)·DEG2RAD/3600` of lines 91-92 and with it the coefficient
`C00` of the field of lines 91-95, whose real coefficient set has `C00 = 1`,
all are `0x1.32c88b7ab58a0p-23`, one unit in the last place below
`xp = xp·γR − yp·γI`. -/
theorem unit_round_trip_counterexample :
    RAD2DEG Binary64.PI = Binary64.mk false 0x1ca5dc1a63c1f8 (-47) ∧
    DEG2RAD Binary64.PI = Binary64.mk false 0x11df46a2529d39 (-58) ∧
    (sampleUnit Binary64).pole Binary64.PI 0
        (sampleRotation Binary64 (Binary64.mk false 0x132c88b7ab58a1 (-75)) 0) =
      (.ok (Binary64.mk false 0x1e2c70b0a7cc3c (-58), Binary64.mk true 0 0),
        [.earthOrientationParameter 0]) ∧
    Binary64.mk false 0x1e2c70b0a7cc3c (-58) * Binary64.PI / (180 * 3600) =
      Binary64.mk false 0x132c88b7ab58a0 (-75) ∧
    Binary64.mk false 0x1e2c70b0a7cc3c (-58) * DEG2RAD Binary64.PI / 3600 =
      Binary64.mk false 0x132c88b7ab58a0 (-75) ∧
    (Binary64.mk false 0x1e2c70b0a7cc3c (-58) * (sampleUnit Binary64).gammaR +
        Binary64.mk true 0 0 * (sampleUnit Binary64).gammaI) * DEG2RAD Binary64.PI / 3600 =
      Binary64.mk false 0x132c88b7ab58a0 (-75) ∧
    (∃ harm, (sampleUnit Binary64).field Binary64.PI (Binary64.mk false 0x1e2c70b0a7cc3c (-58))
        (Binary64.mk true 0 0) = .ok harm ∧
      harm.cnm.coeff 0 0 = Binary64.mk false 0x132c88b7ab58a0 (-75)) ∧
    Binary64.mk false 0x132c88b7ab58a1 (-75) * (sampleUnit Binary64).gammaR -
        0 * (sampleUnit Binary64).gammaI = Binary64.mk false 0x132c88b7ab58a1 (-75) ∧
    Binary64.mk false 0x132c88b7ab58a0 (-75) ≠ Binary64.mk false 0x132c88b7ab58a1 (-75) := by
  refine ⟨?_, ?_, ?_, ?_, ?_, ?_, ⟨_, rfl, rfl⟩, ?_, ?_⟩
  · rfl
  · rfl
  · rfl
  · rfl
  · rfl
  · rfl
  · rfl
  · intro h
    injection h with _ h _
    exact absurd h (by decide)

/-- C9, as the code has it: with the mean pole at `(0, 0)` and `yp = 0`, so
that `m2 = 0`, every coefficient of the field before its conversion is
`m1·γR·arcsec2rad·Creal − m1·γI·arcsec2rad·Cimag`, with
`arcsec2rad = π/(180·3600)`, and `Snm` alike: the imaginary set enters with
the weight `(m2·γR − m1·γI)·arcsec2rad`, hence with a minus sign. -/
theorem field_end_to_end (PI : K) (self : TidesOceanPole K T) (t : T)
    (earthRotation : T → Option (EarthOrientationParameter K)) (eop : EarthOrientationParameter K)
    (hshape : self.SameShape) (hmean : self.meanPole.compute t = some (0, 0))
    (hrot : earthRotation t = some eop) (hyp : eop.yp = 0) :
    ∃ m1 harm, self.pole PI t earthRotation = (.ok (m1, 0), [.earthOrientationParameter t]) ∧
      self.field PI m1 0 = .ok harm ∧
      ∀ n m,
        harm.cnm.coeff n m =
            m1 * self.gammaR * (PI / (180 * 3600)) * self.harmReal.cnm.coeff n m -
              m1 * self.gammaI * (PI / (180 * 3600)) * self.harmImag.cnm.coeff n m ∧
        harm.snm.coeff n m =
            m1 * self.gammaR * (PI / (180 * 3600)) * self.harmReal.snm.coeff n m -
              m1 * self.gammaI * (PI / (180 * 3600)) * self.harmImag.snm.coeff n m := by
  refine ⟨eop.xp * RAD2DEG PI * 3600 - 0, _, ?_, field_eq_combinedField PI self _ 0 hshape, ?_⟩
  · rw [pole_eq PI self t earthRotation eop 0 0 hmean hrot, hyp]
    simp
  · intro n m
    simp only [combinedField, wReal, wImag]
    constructor <;> ring

/-- Witness of the amended C9: the sample instance over the reals. -/
theorem field_end_to_end_witness :
    (sampleTides ℝ 0 0).SameShape ∧
    ∃ m1 harm, (sampleTides ℝ 0 0).pole Real.pi 0 (sampleRotation ℝ (1 / 1000000) 0) =
        (.ok (m1, 0), [.earthOrientationParameter 0]) ∧
      (sampleTides ℝ 0 0).field Real.pi m1 0 = .ok harm ∧
      ∀ n m,
        harm.cnm.coeff n m =
            m1 * (7/10) * (Real.pi / (180 * 3600)) * (sampleHarm ℝ 1 2).cnm.coeff n m -
              m1 * (1/100) * (Real.pi / (180 * 3600)) * (sampleHarm ℝ 3 5).cnm.coeff n m ∧
        harm.snm.coeff n m =
            m1 * (7/10) * (Real.pi / (180 * 3600)) * (sampleHarm ℝ 1 2).snm.coeff n m -
              m1 * (1/100) * (Real.pi / (180 * 3600)) * (sampleHarm ℝ 3 5).snm.coeff n m :=
  ⟨⟨rfl, rfl, rfl, rfl⟩,
    field_end_to_end Real.pi (sampleTides ℝ 0 0) 0 (sampleRotation ℝ (1 / 1000000) 0) _
      ⟨rfl, rfl, rfl, rfl⟩ rfl rfl rfl⟩

/-- C9 as stated fails: on the sample instance with the mean pole at `(0, 0)`,
`xp = 1e-6` and `yp = 0`, the coefficient `c00` of the field before conversion
is `67e-8`, whereas `m1·γR·arcsec2rad·Creal + m1·γI·arcsec2rad·Cimag` is
`73e-8`. -/
theorem field_end_to_end_counterexample :
    (sampleTides ℝ 0 0).pole Real.pi 0 (sampleRotation ℝ (1 / 1000000) 0) =
        (.ok (1 / 1000000 * 180 * 3600 / Real.pi, 0), [.earthOrientationParameter 0]) ∧
    Except.map (fun harm => harm.cnm.coeff 0 0)
        ((sampleTides ℝ 0 0).field Real.pi (1 / 1000000 * 180 * 3600 / Real.pi) 0) =
      .ok (67 / 100000000) ∧
    (67 / 100000000 : ℝ) ≠
      (1 / 1000000 * 180 * 3600 / Real.pi) * (sampleTides ℝ 0 0).gammaR * (Real.pi / (180 * 3600)) *
          (sampleTides ℝ 0 0).harmReal.cnm.coeff 0 0 +
        (1 / 1000000 * 180 * 3600 / Real.pi) * (sampleTides ℝ 0 0).gammaI * (Real.pi / (180 * 3600)) *
          (sampleTides ℝ 0 0).harmImag.cnm.coeff 0 0 := by
  have hpi : Real.pi ≠ 0 := Real.pi_ne_zero
  refine ⟨?_, ?_, ?_⟩
  · rw [pole_eq Real.pi (sampleTides ℝ 0 0) 0 (sampleRotation ℝ (1 / 1000000) 0) _ 0 0 rfl rfl,
      rad2arcsec, rad2arcsec]
    simp only [sampleRotation]
    congr 3
    · ring
    · ring
  · rw [field_eq_combinedField Real.pi (sampleTides ℝ 0 0) _ 0 ⟨rfl, rfl, rfl, rfl⟩]
    simp only [Except.map, combinedField, wReal, wImag, sampleTides, sampleHarm]
    congr 1
    field_simp
    ring
  · have hval : (1 / 1000000 * 180 * 3600 / Real.pi) * (sampleTides ℝ 0 0).gammaR *
          (Real.pi / (180 * 3600)) * (sampleTides ℝ 0 0).harmReal.cnm.coeff 0 0 +
        (1 / 1000000 * 180 * 3600 / Real.pi) * (sampleTides ℝ 0 0).gammaI *
          (Real.pi / (180 * 3600)) * (sampleTides ℝ 0 0).harmImag.cnm.coeff 0 0 =
        (73 / 100000000 : ℝ) := by
      simp only [sampleTides, sampleHarm]
      field_simp
      ring
    rw [hval]
    norm_num

/-- A field returned by lines 91-95 is the combination of the specification. -/
theorem field_ok (PI : K) (self : TidesOceanPole K T) (m1 m2 : K) (harm : SphericalHarmonics K)
    (h : self.field PI m1 m2 = .ok harm) :
    self.SameShape ∧
      harm = combinedField self (wReal PI self.gammaR self.gammaI m1 m2)
        (wImag PI self.gammaR self.gammaI m1 m2) := by
  by_cases h1 : self.harmReal.cnm.rows = self.harmImag.cnm.rows ∧
      self.harmReal.cnm.columns = self.harmImag.cnm.columns
  · by_cases h2 : self.harmReal.snm.rows = self.harmImag.snm.rows ∧
        self.harmReal.snm.columns = self.harmImag.snm.columns
    · have hshape : self.SameShape := ⟨h1.1, h1.2, h2.1, h2.2⟩
      rw [field_eq_combinedField PI self m1 m2 hshape] at h
      exact ⟨hshape, (Except.ok.inj h).symm⟩
    · simp [TidesOceanPole.field, Matrix.addAssign, Matrix.mul, h1, h2] at h
  · simp [TidesOceanPole.field, Matrix.addAssign, Matrix.mul, h1] at h

/-- A successful `sphericalHarmonics` is the conversion of the combination of
the specification at the pair returned by `pole`. -/
theorem sphericalHarmonics_ok [DecidableEq K] {Rotary3d EphemeridesPtr : Type}
    (PI : K) (INFINITYDEGREE : Nat) (rescale : K → K → K → K → Nat → K)
    (self : TidesOceanPole K T) (t : T) (rotEarth : Rotary3d)
    (earthRotation : T → Option (EarthOrientationParameter K)) (ephemerides : EphemeridesPtr)
    (maxDegree minDegree : Nat) (GM R : K) (harm : SphericalHarmonics K)
    (h : (self.sphericalHarmonics PI INFINITYDEGREE rescale t rotEarth earthRotation ephemerides
        maxDegree minDegree GM R).1 = .ok harm) :
    ∃ m1 m2, (self.pole PI t earthRotation).1 = .ok (m1, m2) ∧ self.SameShape ∧
      harm = (combinedField self (wReal PI self.gammaR self.gammaI m1 m2)
        (wImag PI self.gammaR self.gammaI m1 m2)).get INFINITYDEGREE rescale maxDegree minDegree GM R := by
  unfold TidesOceanPole.sphericalHarmonics at h
  rcases hp : self.pole PI t earthRotation with ⟨r, events⟩
  cases r with
  | error e => simp [hp] at h
  | ok v =>
    obtain ⟨m1, m2⟩ := v
    simp only [hp] at h
    cases hf : self.field PI m1 m2 with
    | error e => simp [hf] at h
    | ok f =>
      simp only [hf] at h
      obtain ⟨hshape, hfeq⟩ := field_ok PI self m1 m2 f hf
      exact ⟨m1, m2, rfl, hshape, by rw [← Except.ok.inj h, hfeq]⟩

/-- A successful constructor outside of the schema mode has read both files
and stores the truncated fields times `factor`. -/
theorem create_ok [DecidableEq K] (INFINITYDEGREE : Nat) (rescale : K → K → K → K → Nat → K)
    (readFileOceanPoleTide : String → Option (SphericalHarmonics K × SphericalHarmonics K))
    (readFileMeanPolarMotion : String → Option (MeanPolarMotion K T))
    (init : TidesOceanPole K T) (config : Config K) (self : TidesOceanPole K T)
    (hschema : config.isCreateSchema = false)
    (h : TidesOceanPole.create INFINITYDEGREE rescale readFileOceanPoleTide readFileMeanPolarMotion
      init config = .ok self) :
    ∃ harmReal harmImag meanPole,
      readFileOceanPoleTide config.inputfileOceanPole = some (harmReal, harmImag) ∧
      readFileMeanPolarMotion config.inputfileMeanPole = some meanPole ∧
      self.harmReal = (harmReal.get INFINITYDEGREE rescale (config.maxDegree.getD INFINITYDEGREE)
        config.minDegree harmReal.GM harmReal.R).scale config.factor ∧
      self.harmImag = (harmImag.get INFINITYDEGREE rescale (config.maxDegree.getD INFINITYDEGREE)
        config.minDegree harmImag.GM harmImag.R).scale config.factor ∧
      self.gammaR = config.gammaReal ∧ self.gammaI = config.gammaImaginary ∧
      self.meanPole = meanPole := by
  unfold TidesOceanPole.create at h
  simp only [hschema] at h
  cases ho : readFileOceanPoleTide config.inputfileOceanPole with
  | none => simp [ho] at h
  | some pair =>
    obtain ⟨harmReal, harmImag⟩ := pair
    cases hm : readFileMeanPolarMotion config.inputfileMeanPole with
    | none => simp [ho, hm] at h
    | some meanPole =>
      simp only [ho, hm] at h
      have h' := Except.ok.inj h
      subst h'
      exact ⟨harmReal, harmImag, meanPole, rfl, rfl, rfl, rfl, rfl, rfl, rfl⟩

/-- The value of `pole` depends on the instance through its mean pole model
only. -/
theorem pole_congr (PI : K) (a b : TidesOceanPole K T) (t : T)
    (earthRotation : T → Option (EarthOrientationParameter K)) (h : a.meanPole = b.meanPole) :
    a.pole PI t earthRotation = b.pole PI t earthRotation := by
  simp only [TidesOceanPole.pole, h]

/-- Conversion and combination keep exact negation: when the stored sets of
`a` are the negations of those of `b` and the constants agree, the converted
combination of `a` is the negation of that of `b`. -/
theorem get_combinedField_isNeg [DecidableEq K] (INFINITYDEGREE : Nat)
    (rescale : K → K → K → K → Nat → K) (a b : TidesOceanPole K T) (wR wI : K)
    (maxDegree minDegree : Nat) (GM R : K)
    (hReal : a.harmReal.IsNeg b.harmReal) (hImag : a.harmImag.IsNeg b.harmImag) :
    ((combinedField a wR wI).get INFINITYDEGREE rescale maxDegree minDegree GM R).IsNeg
      ((combinedField b wR wI).get INFINITYDEGREE rescale maxDegree minDegree GM R) := by
  obtain ⟨g1, g2, g3, g4, g5, g6, g7⟩ := hReal
  obtain ⟨_, _, _, _, _, _, i7⟩ := hImag
  have c1 : ∀ n m, a.harmReal.cnm.coeff n m = -b.harmReal.cnm.coeff n m := fun n m => (g7 n m).1
  have c2 : ∀ n m, a.harmReal.snm.coeff n m = -b.harmReal.snm.coeff n m := fun n m => (g7 n m).2
  have c3 : ∀ n m, a.harmImag.cnm.coeff n m = -b.harmImag.cnm.coeff n m := fun n m => (i7 n m).1
  have c4 : ∀ n m, a.harmImag.snm.coeff n m = -b.harmImag.snm.coeff n m := fun n m => (i7 n m).2
  simp only [SphericalHarmonics.IsNeg, SphericalHarmonics.get, SphericalHarmonics.maxDegree,
    combinedField, g1, g2, g3, g4, g5, g6, c1, c2, c3, c4, true_and]
  intro n m
  constructor
  · split_ifs <;> simp <;> ring
  · split_ifs <;> simp <;> ring

/-- C5: of two instances built by the constructor from the same files, degree
bounds and gamma constants, one with `factor = -1` and one with `factor = 1`,
the stored real and imaginary coefficient sets of the first are the exact
negations of those of the second, and whenever `sphericalHarmonics` returns a
field for `factor = 1` it returns for `factor = -1`, at the same time and
request, the field with every coefficient negated. -/
theorem sign_inversion [DecidableEq K] (INFINITYDEGREE : Nat) (rescale : K → K → K → K → Nat → K)
    (readFileOceanPoleTide : String → Option (SphericalHarmonics K × SphericalHarmonics K))
    (readFileMeanPolarMotion : String → Option (MeanPolarMotion K T))
    (init : TidesOceanPole K T) (config : Config K) (a b : TidesOceanPole K T)
    (hschema : config.isCreateSchema = false)
    (ha : TidesOceanPole.create INFINITYDEGREE rescale readFileOceanPoleTide readFileMeanPolarMotion
      init { config with factor := -1 } = .ok a)
    (hb : TidesOceanPole.create INFINITYDEGREE rescale readFileOceanPoleTide readFileMeanPolarMotion
      init { config with factor := 1 } = .ok b) :
    a.harmReal.IsNeg b.harmReal ∧ a.harmImag.IsNeg b.harmImag ∧
      ∀ (Rotary3d EphemeridesPtr : Type) (PI : K) (t : T) (rotEarth : Rotary3d)
        (earthRotation : T → Option (EarthOrientationParameter K)) (ephemerides : EphemeridesPtr)
        (maxDegree minDegree : Nat) (GM R : K) (fb : SphericalHarmonics K),
        (b.sphericalHarmonics PI INFINITYDEGREE rescale t rotEarth earthRotation ephemerides
          maxDegree minDegree GM R).1 = .ok fb →
        ∃ fa, (a.sphericalHarmonics PI INFINITYDEGREE rescale t rotEarth earthRotation ephemerides
          maxDegree minDegree GM R).1 = .ok fa ∧ fa.IsNeg fb := by
  obtain ⟨hR, hI, mp, ho, hm, aR, aI, aγR, aγI, amp⟩ := create_ok INFINITYDEGREE rescale
    readFileOceanPoleTide readFileMeanPolarMotion init { config with factor := -1 } a hschema ha
  obtain ⟨hR', hI', mp', ho', hm', bR, bI, bγR, bγI, bmp⟩ := create_ok INFINITYDEGREE rescale
    readFileOceanPoleTide readFileMeanPolarMotion init { config with factor := 1 } b hschema hb
  simp only at ho ho' hm hm' aR aI bR bI aγR aγI bγR bγI
  rw [ho] at ho'
  rw [hm] at hm'
  obtain ⟨e1, e2⟩ := Prod.mk.inj (Option.some.inj ho')
  have e3 := Option.some.inj hm'
  subst e1 e2 e3
  have nR : a.harmReal.IsNeg b.harmReal := by
    rw [aR, bR]
    simp only [SphericalHarmonics.IsNeg, SphericalHarmonics.scale, SphericalHarmonics.get, true_and]
    intro n m
    constructor <;> ring
  have nI : a.harmImag.IsNeg b.harmImag := by
    rw [aI, bI]
    simp only [SphericalHarmonics.IsNeg, SphericalHarmonics.scale, SphericalHarmonics.get, true_and]
    intro n m
    constructor <;> ring
  refine ⟨nR, nI, ?_⟩
  intro Rotary3d EphemeridesPtr PI t rotEarth earthRotation ephemerides maxDegree minDegree GM R fb hfb
  obtain ⟨m1, m2, hp, hshape, hfbeq⟩ := sphericalHarmonics_ok PI INFINITYDEGREE rescale b t rotEarth
    earthRotation ephemerides maxDegree minDegree GM R fb hfb
  have hpa : a.pole PI t earthRotation = (.ok (m1, m2), [.earthOrientationParameter t]) := by
    rw [pole_congr PI a b t earthRotation (by rw [amp, bmp])]
    exact pole_ok_events PI b t earthRotation (m1, m2) hp
  have hshapea : a.SameShape := by
    obtain ⟨_, _, r1, r2, r3, r4, _⟩ := nR
    obtain ⟨_, _, s1, s2, s3, s4, _⟩ := nI
    obtain ⟨t1, t2, t3, t4⟩ := hshape
    exact ⟨by rw [r1, s1, t1], by rw [r2, s2, t2], by rw [r3, s3, t3], by rw [r4, s4, t4]⟩
  refine ⟨(combinedField a (wReal PI a.gammaR a.gammaI m1 m2)
    (wImag PI a.gammaR a.gammaI m1 m2)).get INFINITYDEGREE rescale maxDegree minDegree GM R, ?_, ?_⟩
  · simp only [TidesOceanPole.sphericalHarmonics, hpa, field_eq_combinedField PI a m1 m2 hshapea]
  · rw [hfbeq, aγR, aγI, ← bγR, ← bγI]
    exact get_combinedField_isNeg INFINITYDEGREE rescale a b _ _ maxDegree minDegree GM R nR nI

/-- Witness of C5: the constructor on the sample files over the rationals,
`INFINITYDEGREE = 1000`, degrees from 2 on. -/
theorem sign_inversion_witness :
    (sampleConfig ℚ 2 none 7).isCreateSchema = false ∧
    TidesOceanPole.create 1000 (fun _ _ _ _ _ => 1) (sampleReadOceanPoleTide ℚ)
        (sampleReadMeanPolarMotion ℚ) (sampleInit ℚ) { sampleConfig ℚ 2 none 7 with factor := -1 } =
      .ok (sampleCreated ℚ 2 none (-1)) ∧
    TidesOceanPole.create 1000 (fun _ _ _ _ _ => 1) (sampleReadOceanPoleTide ℚ)
        (sampleReadMeanPolarMotion ℚ) (sampleInit ℚ) { sampleConfig ℚ 2 none 7 with factor := 1 } =
      .ok (sampleCreated ℚ 2 none 1) ∧
    ((sampleCreated ℚ 2 none (-1)).harmReal.IsNeg (sampleCreated ℚ 2 none 1).harmReal ∧
      (sampleCreated ℚ 2 none (-1)).harmImag.IsNeg (sampleCreated ℚ 2 none 1).harmImag ∧
      ∀ (Rotary3d EphemeridesPtr : Type) (PI : ℚ) (t : Nat) (rotEarth : Rotary3d)
        (earthRotation : Nat → Option (EarthOrientationParameter ℚ)) (ephemerides : EphemeridesPtr)
        (maxDegree minDegree : Nat) (GM R : ℚ) (fb : SphericalHarmonics ℚ),
        ((sampleCreated ℚ 2 none 1).sphericalHarmonics PI 1000 (fun _ _ _ _ _ => 1) t rotEarth
          earthRotation ephemerides maxDegree minDegree GM R).1 = .ok fb →
        ∃ fa, ((sampleCreated ℚ 2 none (-1)).sphericalHarmonics PI 1000 (fun _ _ _ _ _ => 1) t rotEarth
          earthRotation ephemerides maxDegree minDegree GM R).1 = .ok fa ∧ fa.IsNeg fb) :=
  ⟨rfl, rfl, rfl,
    sign_inversion 1000 (fun _ _ _ _ _ => 1) (sampleReadOceanPoleTide ℚ) (sampleReadMeanPolarMotion ℚ)
      (sampleInit ℚ) (sampleConfig ℚ 2 none 7) (sampleCreated ℚ 2 none (-1)) (sampleCreated ℚ 2 none 1)
      rfl rfl rfl⟩

/-- C6: for an instance built by the constructor with `minDegree = maxDegree = 2`
every coefficient `Cnm`, `Snm` of a degree `n ≠ 2` of a field returned by
`sphericalHarmonics` is zero, at every time and for every request. -/
theorem degree_truncation [DecidableEq K] (INFINITYDEGREE : Nat) (rescale : K → K → K → K → Nat → K)
    (readFileOceanPoleTide : String → Option (SphericalHarmonics K × SphericalHarmonics K))
    (readFileMeanPolarMotion : String → Option (MeanPolarMotion K T))
    (init : TidesOceanPole K T) (config : Config K) (self : TidesOceanPole K T)
    (hschema : config.isCreateSchema = false) (hINF : INFINITYDEGREE ≠ 2)
    (hmin : config.minDegree = 2) (hmax : config.maxDegree = some 2)
    (hself : TidesOceanPole.create INFINITYDEGREE rescale readFileOceanPoleTide
      readFileMeanPolarMotion init config = .ok self) :
    ∀ (Rotary3d EphemeridesPtr : Type) (PI : K) (t : T) (rotEarth : Rotary3d)
      (earthRotation : T → Option (EarthOrientationParameter K)) (ephemerides : EphemeridesPtr)
      (maxDegree minDegree : Nat) (GM R : K) (harm : SphericalHarmonics K),
      (self.sphericalHarmonics PI INFINITYDEGREE rescale t rotEarth earthRotation ephemerides
        maxDegree minDegree GM R).1 = .ok harm →
      ∀ n m, n ≠ 2 → harm.cnm.coeff n m = 0 ∧ harm.snm.coeff n m = 0 := by
  obtain ⟨hR, hI, mp, _, _, eR, eI, _, _, _⟩ := create_ok INFINITYDEGREE rescale
    readFileOceanPoleTide readFileMeanPolarMotion init config self hschema hself
  have hne : ¬ (2 = INFINITYDEGREE) := fun e => hINF e.symm
  have zero : ∀ (h0 : SphericalHarmonics K) (n m : Nat), n ≠ 2 →
      ((h0.get INFINITYDEGREE rescale (config.maxDegree.getD INFINITYDEGREE) config.minDegree
          h0.GM h0.R).scale config.factor).cnm.coeff n m = 0 ∧
      ((h0.get INFINITYDEGREE rescale (config.maxDegree.getD INFINITYDEGREE) config.minDegree
          h0.GM h0.R).scale config.factor).snm.coeff n m = 0 := by
    intro h0 n m hn
    simp only [SphericalHarmonics.scale, SphericalHarmonics.get, hmin, hmax, Option.getD_some,
      if_neg hne]
    have c1 : ¬ (2 ≤ n ∧ n ≤ 2 ∧ n < h0.cnm.rows ∧ m ≤ n) := by omega
    have c2 : ¬ (2 ≤ n ∧ n ≤ 2 ∧ n < h0.snm.rows ∧ m ≤ n) := by omega
    rw [if_neg c1, if_neg c2]
    simp
  intro Rotary3d EphemeridesPtr PI t rotEarth earthRotation ephemerides maxDegree minDegree GM R harm
    hharm n m hn
  obtain ⟨m1, m2, _, _, hEq⟩ := sphericalHarmonics_ok PI INFINITYDEGREE rescale self t rotEarth
    earthRotation ephemerides maxDegree minDegree GM R harm hharm
  have zR := zero hR n m hn
  have zI := zero hI n m hn
  rw [← eR] at zR
  rw [← eI] at zI
  rw [hEq]
  simp only [SphericalHarmonics.get, combinedField, zR.1, zR.2, zI.1, zI.2, mul_zero, add_zero,
    ite_self, and_self]

/-- Witness of C6: the constructor on the sample files over the rationals
with both degree bounds 2 and `INFINITYDEGREE = 1000`. -/
theorem degree_truncation_witness :
    (sampleConfig ℚ 2 (some 2) 1).isCreateSchema = false ∧ (1000 : Nat) ≠ 2 ∧
    (sampleConfig ℚ 2 (some 2) 1).minDegree = 2 ∧ (sampleConfig ℚ 2 (some 2) 1).maxDegree = some 2 ∧
    TidesOceanPole.create 1000 (fun _ _ _ _ _ => 1) (sampleReadOceanPoleTide ℚ)
        (sampleReadMeanPolarMotion ℚ) (sampleInit ℚ) (sampleConfig ℚ 2 (some 2) 1) =
      .ok (sampleCreated ℚ 2 (some 2) 1) ∧
    ∀ (Rotary3d EphemeridesPtr : Type) (PI : ℚ) (t : Nat) (rotEarth : Rotary3d)
      (earthRotation : Nat → Option (EarthOrientationParameter ℚ)) (ephemerides : EphemeridesPtr)
      (maxDegree minDegree : Nat) (GM R : ℚ) (harm : SphericalHarmonics ℚ),
      ((sampleCreated ℚ 2 (some 2) 1).sphericalHarmonics PI 1000 (fun _ _ _ _ _ => 1) t rotEarth
        earthRotation ephemerides maxDegree minDegree GM R).1 = .ok harm →
      ∀ n m, n ≠ 2 → harm.cnm.coeff n m = 0 ∧ harm.snm.coeff n m = 0 :=
  ⟨rfl, by decide, rfl, rfl, rfl,
    degree_truncation 1000 (fun _ _ _ _ _ => 1) (sampleReadOceanPoleTide ℚ)
      (sampleReadMeanPolarMotion ℚ) (sampleInit ℚ) (sampleConfig ℚ 2 (some 2) 1)
      (sampleCreated ℚ 2 (some 2) 1) rfl (by decide) rfl rfl rfl⟩

/-- C10: with the mean pole at `(0, 0)` and the reading `xp = 1e-6 rad`,
`yp = 0`, `pole` returns `m2 = 0` and `m1 = 1e-6·180·3600/π`, which lies
between 0.20625 and 0.20635 arcseconds. -/
theorem excitation_value (self : TidesOceanPole ℝ T) (t : T)
    (earthRotation : T → Option (EarthOrientationParameter ℝ)) (eop : EarthOrientationParameter ℝ)
    (hmean : self.meanPole.compute t = some (0, 0)) (hrot : earthRotation t = some eop)
    (hxp : eop.xp = 1 / 1000000) (hyp : eop.yp = 0) :
    self.pole Real.pi t earthRotation =
        (.ok (1 / 1000000 * 180 * 3600 / Real.pi, 0), [.earthOrientationParameter t]) ∧
      0.20625 < (1 / 1000000 * 180 * 3600 / Real.pi : ℝ) ∧
      (1 / 1000000 * 180 * 3600 / Real.pi : ℝ) < 0.20635 := by
  have hpos : (0 : ℝ) < Real.pi := Real.pi_pos
  have hlo : (3.141592 : ℝ) < Real.pi := Real.pi_gt_d6
  have hhi : Real.pi < (3.141593 : ℝ) := Real.pi_lt_d6
  refine ⟨?_, ?_, ?_⟩
  · rw [pole_eq Real.pi self t earthRotation eop 0 0 hmean hrot, hxp, hyp, rad2arcsec, rad2arcsec]
    congr 3
    · ring
    · ring
  · rw [lt_div_iff₀ hpos]
    norm_num
    linarith
  · rw [div_lt_iff₀ hpos]
    norm_num
    linarith

/-- Witness of C10: the sample instance with the mean pole at `(0, 0)`. -/
theorem excitation_value_witness :
    (sampleTides ℝ 0 0).meanPole.compute 0 = some (0, 0) ∧
    (sampleTides ℝ 0 0).pole Real.pi 0 (sampleRotation ℝ (1 / 1000000) 0) =
        (.ok (1 / 1000000 * 180 * 3600 / Real.pi, 0), [.earthOrientationParameter 0]) ∧
      0.20625 < (1 / 1000000 * 180 * 3600 / Real.pi : ℝ) ∧
      (1 / 1000000 * 180 * 3600 / Real.pi : ℝ) < 0.20635 :=
  ⟨rfl, excitation_value (sampleTides ℝ 0 0) 0 (sampleRotation ℝ (1 / 1000000) 0) _ rfl rfl rfl rfl⟩

/-! ## Properties of `deformation` -/

omit [Field K] in
/-- Reading the buffer after one row has been replaced. -/
theorem entry_set (disp : Displacement K) (k : Nat) (row : List (Vector3d K)) (hk : k < disp.length)
    (k' i' : Nat) :
    entry (disp.set k row) k' i' = if k' = k then row[i']? else entry disp k' i' := by
  unfold entry
  by_cases h : k' = k
  · subst h
    simp [List.getElem?_set_self hk]
  · have h' : k ≠ k' := fun e => h e.symm
    simp [List.getElem?_set_ne h', h]

omit [Field K] in
/-- One statement `disp.at(k).at(i).c() += v` on an existing entry. -/
theorem addAt_spec (put : Vector3d K → K → Vector3d K) (disp : Displacement K) (k i : Nat) (v : K)
    (p : Vector3d K) (h : entry disp k i = some p) :
    ∃ d, addAt put disp k i v = .ok d ∧ d.map List.length = disp.map List.length ∧
      ∀ k' i', entry d k' i' = if k' = k ∧ i' = i then some (put p v) else entry disp k' i' := by
  unfold entry at h
  cases hrow : disp[k]? with
  | none => simp [hrow] at h
  | some row =>
    simp only [hrow] at h
    have hk : k < disp.length := (List.getElem?_eq_some.mp hrow).1
    have hi : i < row.length := (List.getElem?_eq_some.mp h).1
    refine ⟨disp.set k (row.set i (put p v)), ?_, ?_, ?_⟩
    · simp only [addAt, hrow, h]
    · rw [List.map_set, List.length_set]
      apply List.ext_getElem?
      intro j
      by_cases hj : k = j
      · subst hj
        have hr : disp[k] = row := (List.getElem?_eq_some.mp hrow).2
        simp [List.getElem?_set_self, hk, hr]
      · simp [List.getElem?_set_ne hj]
    · intro k' i'
      rw [entry_set disp k _ hk]
      by_cases hk' : k' = k
      · subst hk'
        by_cases hi' : i' = i
        · subst hi'
          simp [List.getElem?_set_self hi]
        · have : i ≠ i' := fun e => hi' e.symm
          simp [List.getElem?_set_ne this, hi', entry, hrow]
      · simp [hk']

/-- The three statements of the site loop on an existing entry, with the
slice inside the vector: the slice is added to entry `(k, i)`, nothing else
changes. -/
theorem siteBody_spec (x : Vector K) (i k : Nat) (disp : Displacement K) (p : Vector3d K)
    (h : entry disp k i = some p) (hx : 3 * k + 2 < x.rows) :
    ∃ d, siteBody x i k disp = (.ok (), d) ∧ d.map List.length = disp.map List.length ∧
      ∀ k' i', entry d k' i' =
        if k' = k ∧ i' = i then some (addSlice x.coeff k p) else entry disp k' i' := by
  obtain ⟨d1, e1, s1, f1⟩ := addAt_spec (fun p v => { p with x := p.x + v }) disp k i (x.coeff (3 * k + 0)) p h
  have h1 : entry d1 k i = some { p with x := p.x + x.coeff (3 * k + 0) } := by
    rw [f1]; simp
  obtain ⟨d2, e2, s2, f2⟩ := addAt_spec (fun p v => { p with y := p.y + v }) d1 k i (x.coeff (3 * k + 1)) _ h1
  have h2 : entry d2 k i = some { x := p.x + x.coeff (3 * k + 0), y := p.y + x.coeff (3 * k + 1), z := p.z } := by
    rw [f2]; simp
  obtain ⟨d3, e3, s3, f3⟩ := addAt_spec (fun p v => { p with z := p.z + v }) d2 k i (x.coeff (3 * k + 2)) _ h2
  have g0 : 3 * k + 0 < x.rows := by omega
  have g1 : 3 * k + 1 < x.rows := by omega
  refine ⟨d3, ?_, by rw [s3, s2, s1], ?_⟩
  · simp only [siteBody, Vector.get, if_pos g0, if_pos g1, if_pos hx, e1, e2, e3]
  · intro k' i'
    rw [f3, f2, f1]
    by_cases c : k' = k ∧ i' = i
    · simp [c, addSlice]
    · simp [c]

/-- The site loop over distinct sites whose entries exist and whose slices
lie inside the vector. -/
theorem siteLoop_spec (x : Vector K) (i : Nat) (ks : List Nat) (hnodup : ks.Nodup) :
    ∀ (disp : Displacement K), (∀ k ∈ ks, (entry disp k i).isSome ∧ 3 * k + 2 < x.rows) →
    ∃ d, siteLoop x i ks disp = (.ok (), d) ∧ d.map List.length = disp.map List.length ∧
      ∀ k' i', entry d k' i' =
        if k' ∈ ks ∧ i' = i then (entry disp k' i').map (addSlice x.coeff k') else entry disp k' i' := by
  induction ks with
  | nil =>
    intro disp _
    exact ⟨disp, rfl, rfl, by simp⟩
  | cons k ks ih =>
    intro disp hall
    obtain ⟨hknot, hnd⟩ := List.nodup_cons.mp hnodup
    obtain ⟨hsome, hx⟩ := hall k (List.mem_cons_self _ _)
    obtain ⟨p, hp⟩ := Option.isSome_iff_exists.mp hsome
    obtain ⟨d1, e1, s1, f1⟩ := siteBody_spec x i k disp p hp hx
    have hall1 : ∀ k2 ∈ ks, (entry d1 k2 i).isSome ∧ 3 * k2 + 2 < x.rows := by
      intro k2 hk2
      have hne : k2 ≠ k := fun e => hknot (e ▸ hk2)
      obtain ⟨a, b⟩ := hall k2 (List.mem_cons_of_mem _ hk2)
      refine ⟨?_, b⟩
      rw [f1]; simpa [hne] using a
    obtain ⟨d, e, s2, f⟩ := ih hnd d1 hall1
    refine ⟨d, ?_, by rw [s2, s1], ?_⟩
    · simp only [siteLoop, e1, e]
    · intro k' i'
      rw [f, f1]
      by_cases hk : k' = k
      · subst hk
        by_cases hi : i' = i
        · subst hi
          simp [hknot, hp]
        · simp [hi]
      · by_cases hm : k' ∈ ks
        · by_cases hi : i' = i
          · subst hi
            simp [hk, hm, f1]
          · simp [hk, hi]
        · simp [hk, hm]

/-- The epoch loop from `idEpoch` on, when `pole` succeeds at every epoch, the
entries of the first `point.size()` rows exist and the two images hold a slice
for every site. -/
theorem epochLoop_spec (PI : K) (self : TidesOceanPole K T) (point : List (Vector3d K))
    (rotation : T → Option (EarthOrientationParameter K)) (xReal xImag : Vector K) (m : T → K × K)
    (hrows : xReal.rows = xImag.rows) (hx : 3 * point.length ≤ xReal.rows) :
    ∀ (time : List T) (idEpoch : Nat) (disp : Displacement K),
    (∀ t ∈ time, (self.pole PI t rotation).1 = .ok (m t)) →
    (∀ k < point.length, ∀ j < time.length, (entry disp k (idEpoch + j)).isSome) →
    ∃ d, epochLoop PI self point rotation xReal xImag idEpoch time disp =
        { result := .ok (), disp := d, events := time.map fun t => .earthOrientationParameter t } ∧
      d.map List.length = disp.map List.length ∧
      ∀ k' i', entry d k' i' =
        epochUpdate (fun t => combinedVector xReal xImag
            (wReal PI self.gammaR self.gammaI (m t).1 (m t).2)
            (wImag PI self.gammaR self.gammaI (m t).1 (m t).2))
          point.length idEpoch time disp k' i' := by
  intro time
  induction time with
  | nil =>
    intro idEpoch disp _ _
    refine ⟨disp, rfl, rfl, ?_⟩
    intro k' i'
    simp [epochUpdate]
  | cons t time ih =>
    intro idEpoch disp hpole hdisp
    have hp := pole_ok_events PI self t rotation (m t) (hpole t (List.mem_cons_self _ _))
    rcases hm : m t with ⟨m1, m2⟩
    rw [hm] at hp
    have hsite : ∀ k ∈ List.range point.length,
        (entry disp k idEpoch).isSome ∧
          3 * k + 2 < (Vector.mk xReal.rows fun i =>
            xReal.coeff i * ((m1 * self.gammaR + m2 * self.gammaI) * DEG2RAD PI / 3600) +
            xImag.coeff i * ((m2 * self.gammaR - m1 * self.gammaI) * DEG2RAD PI / 3600)).rows := by
      intro k hk
      have hk' : k < point.length := List.mem_range.mp hk
      refine ⟨?_, ?_⟩
      · simpa using hdisp k hk' 0 (by simp)
      · show 3 * k + 2 < xReal.rows
        omega
    obtain ⟨d1, e1, s1, f1⟩ := siteLoop_spec _ idEpoch (List.range point.length)
      (List.nodup_range _) disp hsite
    have hdisp1 : ∀ k < point.length, ∀ j < time.length, (entry d1 k (idEpoch + 1 + j)).isSome := by
      intro k hk j hj
      rw [f1]
      have hne : idEpoch + 1 + j ≠ idEpoch := by omega
      have := hdisp k hk (j + 1) (by simp; omega)
      simpa [hne, Nat.add_assoc, Nat.add_comm 1 j] using this
    obtain ⟨d, e, s2, f⟩ := ih (idEpoch + 1) d1
      (fun t ht => hpole t (List.mem_cons_of_mem _ ht)) hdisp1
    refine ⟨d, ?_, by rw [s2, s1], ?_⟩
    · simp only [epochLoop, hp, Vector.add, Vector.mul, if_pos hrows, e1, e, List.map_cons,
        List.singleton_append]
    · intro k' i'
      rw [f]
      simp only [epochUpdate, f1, List.mem_range]
      by_cases hk : k' < point.length
      · rcases Nat.lt_trichotomy i' idEpoch with hlt | heq | hgt
        · have h1 : ¬ idEpoch + 1 ≤ i' := by omega
          have h2 : ¬ idEpoch ≤ i' := by omega
          have h3 : i' ≠ idEpoch := by omega
          simp [h1, h2, h3]
        · subst heq
          have h1 : ¬ i' + 1 ≤ i' := by omega
          simp only [hk, h1, and_false, if_false, and_self, if_true, le_refl, Nat.sub_self,
            List.getElem?_cons_zero, hm]
          congr 1
          funext p
          simp only [addSlice, combinedVector, wReal, wImag, arcsec_factor]
        · have h1 : idEpoch + 1 ≤ i' := by omega
          have h2 : idEpoch ≤ i' := by omega
          have h3 : i' ≠ idEpoch := by omega
          have h4 : i' - idEpoch = (i' - (idEpoch + 1)) + 1 := by omega
          simp only [hk, h1, h2, h3, and_self, if_true, and_false, if_false, h4,
            List.getElem?_cons_succ]
      · simp [hk]

/-- Result of `deformation` for non-empty inputs: with `pole` succeeding at
every epoch, the entries of the first `point.size()` rows present and three
rows of `A` per site, the call succeeds, has built `A` once and queried the
provider once per epoch, keeps the shape of the buffer and leaves it as
described by `epochUpdate`. -/
theorem deformation_spec {Rotary3d EphemeridesPtr : Type} (PI : K)
    (deformationMatrix : List (Vector3d K) → List K → Vector K → Vector K → K → K → Nat → Matrix K)
    (x : SphericalHarmonics K → Vector K)
    (self : TidesOceanPole K T) (time : List T) (point : List (Vector3d K))
    (rotEarth : List Rotary3d) (rotation : T → Option (EarthOrientationParameter K))
    (ephemerides : EphemeridesPtr) (gravity : List K) (hn ln : Vector K)
    (disp : Displacement K) (m : T → K × K) (xReal xImag : Vector K)
    (htime : time ≠ []) (hpoint : point ≠ [])
    (hdisp : ∀ k < point.length, ∃ row, disp[k]? = some row ∧ time.length ≤ row.length)
    (hpole : ∀ t ∈ time, (self.pole PI t rotation).1 = .ok (m t))
    (hReal : (deformationMatrix point gravity hn ln self.harmReal.GM self.harmReal.R
        self.harmReal.maxDegree).mulVec (x self.harmReal) = .ok xReal)
    (hImag : (deformationMatrix point gravity hn ln self.harmReal.GM self.harmReal.R
        self.harmReal.maxDegree).mulVec (x self.harmImag) = .ok xImag)
    (hA : 3 * point.length ≤ (deformationMatrix point gravity hn ln self.harmReal.GM self.harmReal.R
        self.harmReal.maxDegree).rows) :
    ∃ d, self.deformation PI deformationMatrix x time point rotEarth rotation ephemerides gravity
          hn ln disp =
        { result := .ok (), disp := d
          events := .deformationMatrix point :: time.map fun t => .earthOrientationParameter t } ∧
      d.map List.length = disp.map List.length ∧
      ∀ k i, entry d k i =
        epochUpdate (fun t => combinedVector xReal xImag
            (wReal PI self.gammaR self.gammaI (m t).1 (m t).2)
            (wImag PI self.gammaR self.gammaI (m t).1 (m t).2))
          point.length 0 time disp k i := by
  have hrR : xReal.rows = (deformationMatrix point gravity hn ln self.harmReal.GM self.harmReal.R
      self.harmReal.maxDegree).rows := by
    unfold Matrix.mulVec at hReal
    split at hReal
    · rw [← Except.ok.inj hReal]
    · cases hReal
  have hrI : xImag.rows = (deformationMatrix point gravity hn ln self.harmReal.GM self.harmReal.R
      self.harmReal.maxDegree).rows := by
    unfold Matrix.mulVec at hImag
    split at hImag
    · rw [← Except.ok.inj hImag]
    · cases hImag
  have hentries : ∀ k < point.length, ∀ j < time.length, (entry disp k (0 + j)).isSome := by
    intro k hk j hj
    obtain ⟨row, hrow, hlen⟩ := hdisp k hk
    have hj' : j < row.length := by omega
    simp [entry, hrow, List.getElem?_eq_getElem hj']
  obtain ⟨d, e, hshape, f⟩ := epochLoop_spec PI self point rotation xReal xImag m
    (by rw [hrR, hrI]) (by rw [hrR]; exact hA) time 0 disp hpole hentries
  refine ⟨d, ?_, hshape, f⟩
  have hne : ¬ (time.length = 0 ∨ point.length = 0) := by
    simp [List.length_eq_zero, htime, hpoint]
  simp only [TidesOceanPole.deformation, if_neg hne, hReal, hImag, e]

/-- Entries of the sites and epochs of a successful call: each is its previous
value plus the slice of the displacement vector of its epoch. -/
theorem deformation_entry {Rotary3d EphemeridesPtr : Type} (PI : K)
    (deformationMatrix : List (Vector3d K) → List K → Vector K → Vector K → K → K → Nat → Matrix K)
    (x : SphericalHarmonics K → Vector K)
    (self : TidesOceanPole K T) (time : List T) (point : List (Vector3d K))
    (rotEarth : List Rotary3d) (rotation : T → Option (EarthOrientationParameter K))
    (ephemerides : EphemeridesPtr) (gravity : List K) (hn ln : Vector K)
    (disp : Displacement K) (m : T → K × K) (xReal xImag : Vector K)
    (htime : time ≠ []) (hpoint : point ≠ [])
    (hdisp : ∀ k < point.length, ∃ row, disp[k]? = some row ∧ time.length ≤ row.length)
    (hpole : ∀ t ∈ time, (self.pole PI t rotation).1 = .ok (m t))
    (hReal : (deformationMatrix point gravity hn ln self.harmReal.GM self.harmReal.R
        self.harmReal.maxDegree).mulVec (x self.harmReal) = .ok xReal)
    (hImag : (deformationMatrix point gravity hn ln self.harmReal.GM self.harmReal.R
        self.harmReal.maxDegree).mulVec (x self.harmImag) = .ok xImag)
    (hA : 3 * point.length ≤ (deformationMatrix point gravity hn ln self.harmReal.GM self.harmReal.R
        self.harmReal.maxDegree).rows) :
    (self.deformation PI deformationMatrix x time point rotEarth rotation ephemerides gravity
        hn ln disp).result = .ok () ∧
      ∀ (k : Nat) (_ : k < point.length) (i : Nat) (hi : i < time.length),
        ∃ p, entry disp k i = some p ∧
          entry (self.deformation PI deformationMatrix x time point rotEarth rotation ephemerides
              gravity hn ln disp).disp k i =
            some (addSlice (combinedVector xReal xImag
                (wReal PI self.gammaR self.gammaI (m time[i]).1 (m time[i]).2)
                (wImag PI self.gammaR self.gammaI (m time[i]).1 (m time[i]).2)) k p) := by
  obtain ⟨d, e, _, f⟩ := deformation_spec PI deformationMatrix x self time point rotEarth rotation
    ephemerides gravity hn ln disp m xReal xImag htime hpoint hdisp hpole hReal hImag hA
  rw [e]
  refine ⟨rfl, ?_⟩
  intro k hk i hi
  obtain ⟨row, hrow, hlen⟩ := hdisp k hk
  have hi' : i < row.length := by omega
  refine ⟨row[i], by simp [entry, hrow, List.getElem?_eq_getElem hi'], ?_⟩
  show entry d k i = _
  rw [f]
  simp [epochUpdate, hk, List.getElem?_eq_getElem hi, entry, hrow, List.getElem?_eq_getElem hi']


/-- C3: for non-empty times and sites and a buffer with a row per site and
an entry per epoch, after `deformation` every entry `disp[k][i]` of a site
`k` and an epoch `i` of the call is its previous value plus the slice
`(3k, 3k+1, 3k+2)` of `xReal·wReal(t_i) + xImag·wImag(t_i)`, with
`xReal = A·x(harmReal)`, `xImag = A·x(harmImag)` and the weights taken from
`pole(t_i)`. -/
theorem deformation_adds {Rotary3d EphemeridesPtr : Type} (PI : K)
    (deformationMatrix : List (Vector3d K) → List K → Vector K → Vector K → K → K → Nat → Matrix K)
    (x : SphericalHarmonics K → Vector K)
    (self : TidesOceanPole K T) (time : List T) (point : List (Vector3d K))
    (rotEarth : List Rotary3d) (rotation : T → Option (EarthOrientationParameter K))
    (ephemerides : EphemeridesPtr) (gravity : List K) (hn ln : Vector K)
    (disp : Displacement K) (m : T → K × K) (xReal xImag : Vector K)
    (htime : time ≠ []) (hpoint : point ≠ [])
    (hdisp : ∀ k < point.length, ∃ row, disp[k]? = some row ∧ time.length ≤ row.length)
    (hpole : ∀ t ∈ time, (self.pole PI t rotation).1 = .ok (m t))
    (hReal : (deformationMatrix point gravity hn ln self.harmReal.GM self.harmReal.R
        self.harmReal.maxDegree).mulVec (x self.harmReal) = .ok xReal)
    (hImag : (deformationMatrix point gravity hn ln self.harmReal.GM self.harmReal.R
        self.harmReal.maxDegree).mulVec (x self.harmImag) = .ok xImag)
    (hA : 3 * point.length ≤ (deformationMatrix point gravity hn ln self.harmReal.GM self.harmReal.R
        self.harmReal.maxDegree).rows) :
    (self.deformation PI deformationMatrix x time point rotEarth rotation ephemerides gravity
        hn ln disp).result = .ok () ∧
      ∀ (k : Nat) (_ : k < point.length) (i : Nat) (hi : i < time.length),
        ∃ p, entry disp k i = some p ∧
          entry (self.deformation PI deformationMatrix x time point rotEarth rotation ephemerides
              gravity hn ln disp).disp k i =
            some (addSlice (combinedVector xReal xImag
                (wReal PI self.gammaR self.gammaI (m time[i]).1 (m time[i]).2)
                (wImag PI self.gammaR self.gammaI (m time[i]).1 (m time[i]).2)) k p) :=
  deformation_entry PI deformationMatrix x self time point rotEarth rotation ephemerides gravity
    hn ln disp m xReal xImag htime hpoint hdisp hpole hReal hImag hA

/-- Witness of C3: one site, two epochs, the sample instance over the
reals. -/
theorem deformation_adds_witness :
    ([0, 1] : List Nat) ≠ [] ∧ samplePoint ℝ ≠ [] ∧
    ((sampleTides ℝ (1/10) (1/5)).deformation Real.pi (sampleDeformationMatrix ℝ) (sampleX ℝ)
        [0, 1] (samplePoint ℝ) ([] : List Unit) (sampleRotation ℝ (1/1000) (1/500)) () []
        (sampleX ℝ (sampleHarm ℝ 1 2)) (sampleX ℝ (sampleHarm ℝ 1 2)) (sampleDisp ℝ)).result = .ok () ∧
      ∀ (k : Nat) (_ : k < (samplePoint ℝ).length) (i : Nat) (hi : i < ([0, 1] : List Nat).length),
        ∃ p, entry (sampleDisp ℝ) k i = some p ∧
          entry ((sampleTides ℝ (1/10) (1/5)).deformation Real.pi (sampleDeformationMatrix ℝ)
              (sampleX ℝ) [0, 1] (samplePoint ℝ) ([] : List Unit)
              (sampleRotation ℝ (1/1000) (1/500)) () []
              (sampleX ℝ (sampleHarm ℝ 1 2)) (sampleX ℝ (sampleHarm ℝ 1 2)) (sampleDisp ℝ)).disp k i =
            some (addSlice (combinedVector (sampleImage ℝ (sampleHarm ℝ 1 2))
                (sampleImage ℝ (sampleHarm ℝ 3 5))
                (wReal Real.pi (7/10) (1/100)
                  (((fun _ => ((1/1000 : ℝ) * RAD2DEG Real.pi * 3600 - 1/10,
                      -((1/500 : ℝ) * RAD2DEG Real.pi * 3600 - 1/5))) : Nat → ℝ × ℝ) ([0, 1][i])).1
                  (((fun _ => ((1/1000 : ℝ) * RAD2DEG Real.pi * 3600 - 1/10,
                      -((1/500 : ℝ) * RAD2DEG Real.pi * 3600 - 1/5))) : Nat → ℝ × ℝ) ([0, 1][i])).2)
                (wImag Real.pi (7/10) (1/100)
                  (((fun _ => ((1/1000 : ℝ) * RAD2DEG Real.pi * 3600 - 1/10,
                      -((1/500 : ℝ) * RAD2DEG Real.pi * 3600 - 1/5))) : Nat → ℝ × ℝ) ([0, 1][i])).1
                  (((fun _ => ((1/1000 : ℝ) * RAD2DEG Real.pi * 3600 - 1/10,
                      -((1/500 : ℝ) * RAD2DEG Real.pi * 3600 - 1/5))) : Nat → ℝ × ℝ) ([0, 1][i])).2))
              k p) :=
  ⟨by simp, by simp [samplePoint],
    deformation_adds Real.pi (sampleDeformationMatrix ℝ) (sampleX ℝ) (sampleTides ℝ (1/10) (1/5))
      [0, 1] (samplePoint ℝ) ([] : List Unit) (sampleRotation ℝ (1/1000) (1/500)) () []
      (sampleX ℝ (sampleHarm ℝ 1 2)) (sampleX ℝ (sampleHarm ℝ 1 2)) (sampleDisp ℝ)
      (fun _ => ((1/1000 : ℝ) * RAD2DEG Real.pi * 3600 - 1/10,
        -((1/500 : ℝ) * RAD2DEG Real.pi * 3600 - 1/5)))
      (sampleImage ℝ (sampleHarm ℝ 1 2)) (sampleImage ℝ (sampleHarm ℝ 3 5))
      (by simp) (by simp [samplePoint])
      (by
        intro k hk
        have hk0 : k = 0 := by simpa [samplePoint] using hk
        subst hk0
        exact ⟨_, rfl, by simp [sampleDisp]⟩)
      (fun _ _ => rfl) rfl rfl (by simp [samplePoint, sampleDeformationMatrix])⟩

/-- C7: for fixed epochs, sites and static state the displacement that
`deformation` adds to the buffer is linear in the excitation pair: when the
pair of a provider is the sum of the pairs of two others the added
displacement is the sum of theirs, and when the pair is scaled by `c` the
displacement added for every site is scaled by `c`. -/
theorem deformation_linear {Rotary3d EphemeridesPtr : Type} (PI : K)
    (deformationMatrix : List (Vector3d K) → List K → Vector K → Vector K → K → K → Nat → Matrix K)
    (x : SphericalHarmonics K → Vector K)
    (self : TidesOceanPole K T) (time : List T) (point : List (Vector3d K))
    (rotEarth : List Rotary3d) (rotA rotB rotSum rotScaled : T → Option (EarthOrientationParameter K))
    (ephemerides : EphemeridesPtr) (gravity : List K) (hn ln : Vector K)
    (disp : Displacement K) (mA mB : T → K × K) (c : K) (xReal xImag : Vector K)
    (htime : time ≠ []) (hpoint : point ≠ [])
    (hdisp : ∀ k < point.length, ∃ row, disp[k]? = some row ∧ time.length ≤ row.length)
    (hA : ∀ t ∈ time, (self.pole PI t rotA).1 = .ok (mA t))
    (hB : ∀ t ∈ time, (self.pole PI t rotB).1 = .ok (mB t))
    (hSum : ∀ t ∈ time, (self.pole PI t rotSum).1 = .ok ((mA t).1 + (mB t).1, (mA t).2 + (mB t).2))
    (hScaled : ∀ t ∈ time, (self.pole PI t rotScaled).1 = .ok (c * (mA t).1, c * (mA t).2))
    (hReal : (deformationMatrix point gravity hn ln self.harmReal.GM self.harmReal.R
        self.harmReal.maxDegree).mulVec (x self.harmReal) = .ok xReal)
    (hImag : (deformationMatrix point gravity hn ln self.harmReal.GM self.harmReal.R
        self.harmReal.maxDegree).mulVec (x self.harmImag) = .ok xImag)
    (hrows : 3 * point.length ≤ (deformationMatrix point gravity hn ln self.harmReal.GM
        self.harmReal.R self.harmReal.maxDegree).rows) :
    ∀ (k : Nat) (_ : k < point.length) (i : Nat) (_ : i < time.length),
      ∃ p dA dB, entry disp k i = some p ∧
        entry (self.deformation PI deformationMatrix x time point rotEarth rotA ephemerides
          gravity hn ln disp).disp k i = some (p.add dA) ∧
        entry (self.deformation PI deformationMatrix x time point rotEarth rotB ephemerides
          gravity hn ln disp).disp k i = some (p.add dB) ∧
        entry (self.deformation PI deformationMatrix x time point rotEarth rotSum ephemerides
          gravity hn ln disp).disp k i = some (p.add (dA.add dB)) ∧
        entry (self.deformation PI deformationMatrix x time point rotEarth rotScaled ephemerides
          gravity hn ln disp).disp k i = some (p.add (Vector3d.smul c dA)) := by
  intro k hk i hi
  obtain ⟨p, hp, eA⟩ := (deformation_entry PI deformationMatrix x self time point rotEarth rotA
    ephemerides gravity hn ln disp mA xReal xImag htime hpoint hdisp hA hReal hImag hrows).2 k hk i hi
  obtain ⟨pB, hpB, eB⟩ := (deformation_entry PI deformationMatrix x self time point rotEarth rotB
    ephemerides gravity hn ln disp mB xReal xImag htime hpoint hdisp hB hReal hImag hrows).2 k hk i hi
  obtain ⟨pS, hpS, eS⟩ := (deformation_entry PI deformationMatrix x self time point rotEarth rotSum
    ephemerides gravity hn ln disp _ xReal xImag htime hpoint hdisp hSum hReal hImag hrows).2 k hk i hi
  obtain ⟨pC, hpC, eC⟩ := (deformation_entry PI deformationMatrix x self time point rotEarth rotScaled
    ephemerides gravity hn ln disp _ xReal xImag htime hpoint hdisp hScaled hReal hImag hrows).2 k hk i hi
  have e1 : pB = p := Option.some.inj (hpB.symm.trans hp)
  have e2 : pS = p := Option.some.inj (hpS.symm.trans hp)
  have e3 : pC = p := Option.some.inj (hpC.symm.trans hp)
  subst e1 e2 e3
  refine ⟨pC,
    { x := combinedVector xReal xImag (wReal PI self.gammaR self.gammaI (mA time[i]).1 (mA time[i]).2)
        (wImag PI self.gammaR self.gammaI (mA time[i]).1 (mA time[i]).2) (3 * k + 0)
      y := combinedVector xReal xImag (wReal PI self.gammaR self.gammaI (mA time[i]).1 (mA time[i]).2)
        (wImag PI self.gammaR self.gammaI (mA time[i]).1 (mA time[i]).2) (3 * k + 1)
      z := combinedVector xReal xImag (wReal PI self.gammaR self.gammaI (mA time[i]).1 (mA time[i]).2)
        (wImag PI self.gammaR self.gammaI (mA time[i]).1 (mA time[i]).2) (3 * k + 2) },
    { x := combinedVector xReal xImag (wReal PI self.gammaR self.gammaI (mB time[i]).1 (mB time[i]).2)
        (wImag PI self.gammaR self.gammaI (mB time[i]).1 (mB time[i]).2) (3 * k + 0)
      y := combinedVector xReal xImag (wReal PI self.gammaR self.gammaI (mB time[i]).1 (mB time[i]).2)
        (wImag PI self.gammaR self.gammaI (mB time[i]).1 (mB time[i]).2) (3 * k + 1)
      z := combinedVector xReal xImag (wReal PI self.gammaR self.gammaI (mB time[i]).1 (mB time[i]).2)
        (wImag PI self.gammaR self.gammaI (mB time[i]).1 (mB time[i]).2) (3 * k + 2) },
    hp, ?_, ?_, ?_, ?_⟩
  · rw [eA]; rfl
  · rw [eB]; rfl
  · rw [eS]
    simp only [addSlice, Vector3d.add, combinedVector, wReal, wImag, Option.some.injEq,
      Vector3d.mk.injEq]
    refine ⟨?_, ?_, ?_⟩ <;> ring
  · rw [eC]
    simp only [addSlice, Vector3d.add, Vector3d.smul, combinedVector, wReal, wImag,
      Option.some.injEq, Vector3d.mk.injEq]
    refine ⟨?_, ?_, ?_⟩ <;> ring

/-- Witness of C7: site 0 and epoch 1 of the sample data with the mean pole
at `(0, 0)`, readings `(1/1000, 1/500)` and `(1/2000, 1/250)`, their sum, and
the first reading times 3. -/
theorem deformation_linear_witness :
    ([0, 1] : List Nat) ≠ [] ∧ samplePoint ℝ ≠ [] ∧
    ∃ p dA dB, entry (sampleDisp ℝ) 0 1 = some p ∧
      entry ((sampleTides ℝ 0 0).deformation Real.pi (sampleDeformationMatrix ℝ) (sampleX ℝ)
        [0, 1] (samplePoint ℝ) ([] : List Unit) (sampleRotation ℝ (1/1000) (1/500)) () []
        (sampleX ℝ (sampleHarm ℝ 1 2)) (sampleX ℝ (sampleHarm ℝ 1 2)) (sampleDisp ℝ)).disp 0 1 =
          some (p.add dA) ∧
      entry ((sampleTides ℝ 0 0).deformation Real.pi (sampleDeformationMatrix ℝ) (sampleX ℝ)
        [0, 1] (samplePoint ℝ) ([] : List Unit) (sampleRotation ℝ (1/2000) (1/250)) () []
        (sampleX ℝ (sampleHarm ℝ 1 2)) (sampleX ℝ (sampleHarm ℝ 1 2)) (sampleDisp ℝ)).disp 0 1 =
          some (p.add dB) ∧
      entry ((sampleTides ℝ 0 0).deformation Real.pi (sampleDeformationMatrix ℝ) (sampleX ℝ)
        [0, 1] (samplePoint ℝ) ([] : List Unit) (sampleRotation ℝ (1/1000 + 1/2000) (1/500 + 1/250))
        () [] (sampleX ℝ (sampleHarm ℝ 1 2)) (sampleX ℝ (sampleHarm ℝ 1 2)) (sampleDisp ℝ)).disp 0 1 =
          some (p.add (dA.add dB)) ∧
      entry ((sampleTides ℝ 0 0).deformation Real.pi (sampleDeformationMatrix ℝ) (sampleX ℝ)
        [0, 1] (samplePoint ℝ) ([] : List Unit) (sampleRotation ℝ (3 * (1/1000)) (3 * (1/500)))
        () [] (sampleX ℝ (sampleHarm ℝ 1 2)) (sampleX ℝ (sampleHarm ℝ 1 2)) (sampleDisp ℝ)).disp 0 1 =
          some (p.add (Vector3d.smul 3 dA)) :=
  ⟨by simp, by simp [samplePoint],
    deformation_linear Real.pi (sampleDeformationMatrix ℝ) (sampleX ℝ) (sampleTides ℝ 0 0)
      [0, 1] (samplePoint ℝ) ([] : List Unit)
      (sampleRotation ℝ (1/1000) (1/500)) (sampleRotation ℝ (1/2000) (1/250))
      (sampleRotation ℝ (1/1000 + 1/2000) (1/500 + 1/250))
      (sampleRotation ℝ (3 * (1/1000)) (3 * (1/500))) () []
      (sampleX ℝ (sampleHarm ℝ 1 2)) (sampleX ℝ (sampleHarm ℝ 1 2)) (sampleDisp ℝ)
      (fun _ => ((1/1000 : ℝ) * RAD2DEG Real.pi * 3600 - 0, -((1/500 : ℝ) * RAD2DEG Real.pi * 3600 - 0)))
      (fun _ => ((1/2000 : ℝ) * RAD2DEG Real.pi * 3600 - 0, -((1/250 : ℝ) * RAD2DEG Real.pi * 3600 - 0)))
      3 (sampleImage ℝ (sampleHarm ℝ 1 2)) (sampleImage ℝ (sampleHarm ℝ 3 5))
      (by simp) (by simp [samplePoint])
      (by
        intro k hk
        have hk0 : k = 0 := by simpa [samplePoint] using hk
        subst hk0
        exact ⟨_, rfl, by simp [sampleDisp]⟩)
      (fun _ _ => rfl) (fun _ _ => rfl)
      (fun t _ => by
        rw [pole_eq Real.pi (sampleTides ℝ 0 0) t _ _ 0 0 rfl rfl]
        simp only [Except.ok.injEq, Prod.mk.injEq]
        constructor <;> ring)
      (fun t _ => by
        rw [pole_eq Real.pi (sampleTides ℝ 0 0) t _ _ 0 0 rfl rfl]
        simp only [Except.ok.injEq, Prod.mk.injEq]
        constructor <;> ring)
      rfl rfl (by simp [samplePoint, sampleDeformationMatrix])
      0 (by simp [samplePoint]) 1 (by simp)⟩

/-! ## Weights, failures, frame and index safety of `deformation` -/

/-- One pass of the epoch loop, with line 123 named. -/
theorem epochLoop_cons (PI : K) (self : TidesOceanPole K T) (point : List (Vector3d K))
    (rotation : T → Option (EarthOrientationParameter K)) (xReal xImag : Vector K)
    (idEpoch : Nat) (t : T) (time : List T) (disp : Displacement K) :
    epochLoop PI self point rotation xReal xImag idEpoch (t :: time) disp =
      match self.pole PI t rotation with
      | (.error e, events) => { result := .error e, disp := disp, events := events }
      | (.ok (m1, m2), events) =>
        match deformationVector PI self xReal xImag m1 m2 with
        | .error e => { result := .error e, disp := disp, events := events }
        | .ok x =>
          match siteLoop x idEpoch (List.range point.length) disp with
          | (.error e, disp) => { result := .error e, disp := disp, events := events }
          | (.ok (), disp) =>
            { result := (epochLoop PI self point rotation xReal xImag (idEpoch + 1) time disp).result
              disp := (epochLoop PI self point rotation xReal xImag (idEpoch + 1) time disp).disp
              events := events ++
                (epochLoop PI self point rotation xReal xImag (idEpoch + 1) time disp).events } := by
  rfl

/-- A weighted sum distributes over a linear combination of the summands. -/
theorem sum_map_combination (l : List Nat) (a u v : Nat → K) (c d : K) :
    (l.map fun j => a j * (c * u j + d * v j)).sum =
      (l.map fun j => a j * u j).sum * c + (l.map fun j => a j * v j).sum * d := by
  induction l with
  | nil => simp
  | cons j l ih =>
    simp only [List.map_cons, List.sum_cons, ih]
    ring

/-- C11: both code paths use the same two scalars. For the pair `(m1, m2)`
returned by `pole` at `t`, `sphericalHarmonics` weights the real and imaginary
coefficient sets by `wReal`, `wImag`, and the epoch loop of `deformation`
weights `xReal`, `xImag` by the same `wReal`, `wImag`; with a linear
vectorisation `x()` the displacement vector of the epoch is `A` applied to
the coefficient vector of the field before its conversion. -/
theorem same_weights [DecidableEq K] {Rotary3d EphemeridesPtr : Type} (PI : K)
    (INFINITYDEGREE : Nat) (rescale : K → K → K → K → Nat → K)
    (deformationMatrix : List (Vector3d K) → List K → Vector K → Vector K → K → K → Nat → Matrix K)
    (x : SphericalHarmonics K → Vector K)
    (self : TidesOceanPole K T) (t : T) (time : List T) (point : List (Vector3d K))
    (rotEarth : Rotary3d) (rotation : T → Option (EarthOrientationParameter K))
    (ephemerides : EphemeridesPtr) (gravity : List K) (hn ln : Vector K)
    (maxDegree minDegree : Nat) (GM R : K) (idEpoch : Nat) (disp : Displacement K)
    (m1 m2 : K) (events : List (Event K T)) (xReal xImag : Vector K)
    (hshape : self.SameShape) (hlin : LinearVectorisation x)
    (hpole : self.pole PI t rotation = (.ok (m1, m2), events))
    (hReal : (deformationMatrix point gravity hn ln self.harmReal.GM self.harmReal.R
        self.harmReal.maxDegree).mulVec (x self.harmReal) = .ok xReal)
    (hImag : (deformationMatrix point gravity hn ln self.harmReal.GM self.harmReal.R
        self.harmReal.maxDegree).mulVec (x self.harmImag) = .ok xImag) :
    ∃ harm xvec,
      self.field PI m1 m2 = .ok harm ∧
      self.sphericalHarmonics PI INFINITYDEGREE rescale t rotEarth rotation ephemerides
          maxDegree minDegree GM R =
        (.ok (harm.get INFINITYDEGREE rescale maxDegree minDegree GM R), events) ∧
      (∀ n m,
        harm.cnm.coeff n m =
            wReal PI self.gammaR self.gammaI m1 m2 * self.harmReal.cnm.coeff n m +
              wImag PI self.gammaR self.gammaI m1 m2 * self.harmImag.cnm.coeff n m ∧
        harm.snm.coeff n m =
            wReal PI self.gammaR self.gammaI m1 m2 * self.harmReal.snm.coeff n m +
              wImag PI self.gammaR self.gammaI m1 m2 * self.harmImag.snm.coeff n m) ∧
      deformationVector PI self xReal xImag m1 m2 = .ok xvec ∧
      epochLoop PI self point rotation xReal xImag idEpoch (t :: time) disp =
        afterSites events (siteLoop xvec idEpoch (List.range point.length) disp)
          (epochLoop PI self point rotation xReal xImag (idEpoch + 1) time) ∧
      (∀ j, xvec.coeff j =
        xReal.coeff j * wReal PI self.gammaR self.gammaI m1 m2 +
          xImag.coeff j * wImag PI self.gammaR self.gammaI m1 m2) ∧
      (deformationMatrix point gravity hn ln self.harmReal.GM self.harmReal.R
        self.harmReal.maxDegree).mulVec (x harm) = .ok xvec := by
  have hfield := field_eq_combinedField PI self m1 m2 hshape
  obtain ⟨s1, s2, s3, s4⟩ := hshape
  obtain ⟨hrows, hcoeff⟩ := hlin self.harmReal self.harmImag
    (combinedField self (wReal PI self.gammaR self.gammaI m1 m2)
      (wImag PI self.gammaR self.gammaI m1 m2))
    (wReal PI self.gammaR self.gammaI m1 m2) (wImag PI self.gammaR self.gammaI m1 m2)
    s1 s2 s3 s4 rfl rfl rfl rfl (fun _ _ => rfl) (fun _ _ => rfl)
  unfold Matrix.mulVec at hReal hImag
  split at hReal
  case isFalse => cases hReal
  case isTrue cR =>
  split at hImag
  case isFalse => cases hImag
  case isTrue cI =>
  have eR := Except.ok.inj hReal
  have eI := Except.ok.inj hImag
  subst eR eI
  have hvec : deformationVector PI self
      { rows := (deformationMatrix point gravity hn ln self.harmReal.GM self.harmReal.R
          self.harmReal.maxDegree).rows
        coeff := fun i => ((List.range (deformationMatrix point gravity hn ln self.harmReal.GM
          self.harmReal.R self.harmReal.maxDegree).columns).map fun j =>
            (deformationMatrix point gravity hn ln self.harmReal.GM self.harmReal.R
              self.harmReal.maxDegree).coeff i j * (x self.harmReal).coeff j).sum }
      { rows := (deformationMatrix point gravity hn ln self.harmReal.GM self.harmReal.R
          self.harmReal.maxDegree).rows
        coeff := fun i => ((List.range (deformationMatrix point gravity hn ln self.harmReal.GM
          self.harmReal.R self.harmReal.maxDegree).columns).map fun j =>
            (deformationMatrix point gravity hn ln self.harmReal.GM self.harmReal.R
              self.harmReal.maxDegree).coeff i j * (x self.harmImag).coeff j).sum } m1 m2 =
      .ok { rows := (deformationMatrix point gravity hn ln self.harmReal.GM self.harmReal.R
              self.harmReal.maxDegree).rows
            coeff := fun i =>
              ((List.range (deformationMatrix point gravity hn ln self.harmReal.GM
                self.harmReal.R self.harmReal.maxDegree).columns).map fun j =>
                  (deformationMatrix point gravity hn ln self.harmReal.GM self.harmReal.R
                    self.harmReal.maxDegree).coeff i j * (x self.harmReal).coeff j).sum *
                wReal PI self.gammaR self.gammaI m1 m2 +
              ((List.range (deformationMatrix point gravity hn ln self.harmReal.GM
                self.harmReal.R self.harmReal.maxDegree).columns).map fun j =>
                  (deformationMatrix point gravity hn ln self.harmReal.GM self.harmReal.R
                    self.harmReal.maxDegree).coeff i j * (x self.harmImag).coeff j).sum *
                wImag PI self.gammaR self.gammaI m1 m2 } := by
    simp only [deformationVector, Vector.add, Vector.mul, if_true, wReal, wImag, arcsec_factor]
  refine ⟨_, _, hfield, ?_, fun _ _ => ⟨rfl, rfl⟩, hvec, ?_, fun _ => rfl, ?_⟩
  · simp only [TidesOceanPole.sphericalHarmonics, hpole, hfield]
  · rw [epochLoop_cons, hpole]
    simp only [hvec, afterSites]
  · have hc : (deformationMatrix point gravity hn ln self.harmReal.GM self.harmReal.R
        self.harmReal.maxDegree).columns =
        (x (combinedField self (wReal PI self.gammaR self.gammaI m1 m2)
          (wImag PI self.gammaR self.gammaI m1 m2))).rows := by rw [hrows, cR]
    simp only [Matrix.mulVec, if_pos hc, hcoeff, sum_map_combination]

/-- Witness of C11: the sample instance over the reals, one site, and the
sample vectorisation, which is linear. -/
theorem same_weights_witness :
    (sampleTides ℝ (1/10) (1/5)).SameShape ∧ LinearVectorisation (sampleX ℝ) ∧
    ∃ harm xvec,
      (sampleTides ℝ (1/10) (1/5)).field Real.pi ((1/1000 : ℝ) * RAD2DEG Real.pi * 3600 - 1/10)
          (-((1/500 : ℝ) * RAD2DEG Real.pi * 3600 - 1/5)) = .ok harm ∧
      (sampleTides ℝ (1/10) (1/5)).sphericalHarmonics Real.pi 1000 (fun _ _ _ _ _ => 1) 0 ()
          (sampleRotation ℝ (1/1000) (1/500)) () 2 0 1 1 =
        (.ok (harm.get 1000 (fun _ _ _ _ _ => 1) 2 0 1 1), [.earthOrientationParameter 0]) ∧
      (∀ n m,
        harm.cnm.coeff n m =
            wReal Real.pi (sampleTides ℝ (1/10) (1/5)).gammaR (sampleTides ℝ (1/10) (1/5)).gammaI
              ((1/1000 : ℝ) * RAD2DEG Real.pi * 3600 - 1/10)
                (-((1/500 : ℝ) * RAD2DEG Real.pi * 3600 - 1/5)) * (sampleTides ℝ (1/10) (1/5)).harmReal.cnm.coeff n m +
              wImag Real.pi (sampleTides ℝ (1/10) (1/5)).gammaR (sampleTides ℝ (1/10) (1/5)).gammaI
              ((1/1000 : ℝ) * RAD2DEG Real.pi * 3600 - 1/10)
                (-((1/500 : ℝ) * RAD2DEG Real.pi * 3600 - 1/5)) * (sampleTides ℝ (1/10) (1/5)).harmImag.cnm.coeff n m ∧
        harm.snm.coeff n m =
            wReal Real.pi (sampleTides ℝ (1/10) (1/5)).gammaR (sampleTides ℝ (1/10) (1/5)).gammaI
              ((1/1000 : ℝ) * RAD2DEG Real.pi * 3600 - 1/10)
                (-((1/500 : ℝ) * RAD2DEG Real.pi * 3600 - 1/5)) * (sampleTides ℝ (1/10) (1/5)).harmReal.snm.coeff n m +
              wImag Real.pi (sampleTides ℝ (1/10) (1/5)).gammaR (sampleTides ℝ (1/10) (1/5)).gammaI
              ((1/1000 : ℝ) * RAD2DEG Real.pi * 3600 - 1/10)
                (-((1/500 : ℝ) * RAD2DEG Real.pi * 3600 - 1/5)) * (sampleTides ℝ (1/10) (1/5)).harmImag.snm.coeff n m) ∧
      deformationVector Real.pi (sampleTides ℝ (1/10) (1/5)) (sampleImage ℝ (sampleHarm ℝ 1 2))
          (sampleImage ℝ (sampleHarm ℝ 3 5)) ((1/1000 : ℝ) * RAD2DEG Real.pi * 3600 - 1/10)
          (-((1/500 : ℝ) * RAD2DEG Real.pi * 3600 - 1/5)) = .ok xvec ∧
      epochLoop Real.pi (sampleTides ℝ (1/10) (1/5)) (samplePoint ℝ)
          (sampleRotation ℝ (1/1000) (1/500)) (sampleImage ℝ (sampleHarm ℝ 1 2))
          (sampleImage ℝ (sampleHarm ℝ 3 5)) 0 (0 :: [1]) (sampleDisp ℝ) =
        afterSites [.earthOrientationParameter 0]
          (siteLoop xvec 0 (List.range (samplePoint ℝ).length) (sampleDisp ℝ))
          (epochLoop Real.pi (sampleTides ℝ (1/10) (1/5)) (samplePoint ℝ)
            (sampleRotation ℝ (1/1000) (1/500)) (sampleImage ℝ (sampleHarm ℝ 1 2))
            (sampleImage ℝ (sampleHarm ℝ 3 5)) (0 + 1) [1]) ∧
      (∀ j, xvec.coeff j =
        (sampleImage ℝ (sampleHarm ℝ 1 2)).coeff j *
            wReal Real.pi (sampleTides ℝ (1/10) (1/5)).gammaR (sampleTides ℝ (1/10) (1/5)).gammaI
              ((1/1000 : ℝ) * RAD2DEG Real.pi * 3600 - 1/10)
              (-((1/500 : ℝ) * RAD2DEG Real.pi * 3600 - 1/5)) +
          (sampleImage ℝ (sampleHarm ℝ 3 5)).coeff j *
            wImag Real.pi (sampleTides ℝ (1/10) (1/5)).gammaR (sampleTides ℝ (1/10) (1/5)).gammaI
              ((1/1000 : ℝ) * RAD2DEG Real.pi * 3600 - 1/10)
              (-((1/500 : ℝ) * RAD2DEG Real.pi * 3600 - 1/5))) ∧
      (sampleDeformationMatrix ℝ (samplePoint ℝ) [] (sampleX ℝ (sampleHarm ℝ 1 2))
        (sampleX ℝ (sampleHarm ℝ 1 2)) (sampleTides ℝ (1/10) (1/5)).harmReal.GM (sampleTides ℝ (1/10) (1/5)).harmReal.R
        (sampleTides ℝ (1/10) (1/5)).harmReal.maxDegree).mulVec (sampleX ℝ harm) = .ok xvec :=
  ⟨⟨rfl, rfl, rfl, rfl⟩, fun _ _ _ _ _ _ _ _ _ _ _ _ _ hc _ => ⟨rfl, fun _ => hc 0 0⟩,
    same_weights Real.pi 1000 (fun _ _ _ _ _ => 1) (sampleDeformationMatrix ℝ) (sampleX ℝ)
      (sampleTides ℝ (1/10) (1/5)) 0 [1] (samplePoint ℝ) () (sampleRotation ℝ (1/1000) (1/500)) ()
      [] (sampleX ℝ (sampleHarm ℝ 1 2)) (sampleX ℝ (sampleHarm ℝ 1 2)) 2 0 1 1 0 (sampleDisp ℝ)
      ((1/1000 : ℝ) * RAD2DEG Real.pi * 3600 - 1/10) (-((1/500 : ℝ) * RAD2DEG Real.pi * 3600 - 1/5))
      [.earthOrientationParameter 0]
      (sampleImage ℝ (sampleHarm ℝ 1 2)) (sampleImage ℝ (sampleHarm ℝ 3 5))
      ⟨rfl, rfl, rfl, rfl⟩ (fun _ _ _ _ _ _ _ _ _ _ _ _ _ hc _ => ⟨rfl, fun _ => hc 0 0⟩)
      rfl rfl rfl⟩

omit [Field K] in
/-- Whether an entry exists depends on the shape of the buffer only. -/
theorem entry_isSome_of_shape (d disp : Displacement K) (k i : Nat)
    (h : d.map List.length = disp.map List.length) :
    (entry d k i).isSome = (entry disp k i).isSome := by
  have hk : (d.map List.length)[k]? = (disp.map List.length)[k]? := by rw [h]
  simp only [List.getElem?_map] at hk
  unfold entry
  cases hd : d[k]? with
  | none =>
    cases hs : disp[k]? with
    | none => rfl
    | some row => simp [hd, hs] at hk
  | some row =>
    cases hs : disp[k]? with
    | none => simp [hd, hs] at hk
    | some row' =>
      simp only [hd, hs, Option.map_some', Option.some.injEq] at hk
      by_cases hi : i < row.length
      · have hi' : i < row'.length := by omega
        simp [List.getElem?_eq_getElem hi, List.getElem?_eq_getElem hi']
      · have hi' : ¬ i < row'.length := by omega
        simp [List.getElem?_eq_none (Nat.le_of_not_lt hi), List.getElem?_eq_none (Nat.le_of_not_lt hi')]

omit [Field K] in
/-- A statement `disp.at(k).at(i).c() += v` that does not throw found its
entry. -/
theorem addAt_inv (put : Vector3d K → K → Vector3d K) (disp d : Displacement K) (k i : Nat) (v : K)
    (h : addAt put disp k i v = .ok d) : ∃ p, entry disp k i = some p := by
  unfold addAt at h
  unfold entry
  cases hrow : disp[k]? with
  | none => simp [hrow] at h
  | some row =>
    cases hp : row[i]? with
    | none => simp [hrow, hp] at h
    | some p => exact ⟨p, by simp [hp]⟩

omit [Field K] in
/-- A statement `disp.at(k).at(i).c() += v` keeps the shape of the buffer
and every other entry. -/
theorem addAt_frame (put : Vector3d K → K → Vector3d K) (disp d : Displacement K) (k i : Nat) (v : K)
    (h : addAt put disp k i v = .ok d) :
    d.map List.length = disp.map List.length ∧
      ∀ k' i', (k' ≠ k ∨ i' ≠ i) → entry d k' i' = entry disp k' i' := by
  obtain ⟨p, hp⟩ := addAt_inv put disp d k i v h
  obtain ⟨d', e, s, f⟩ := addAt_spec put disp k i v p hp
  rw [h] at e
  have := Except.ok.inj e
  subst this
  refine ⟨s, ?_⟩
  intro k' i' hne
  rw [f]
  have : ¬ (k' = k ∧ i' = i) := by
    rintro ⟨a, b⟩
    rcases hne with c | c
    · exact c a
    · exact c b
  simp [this]

/-- Whatever the site body does, it keeps the shape of the buffer and every
entry other than `(k, i)`. -/
theorem siteBody_frame (x : Vector K) (i k : Nat) (disp : Displacement K) :
    (siteBody x i k disp).2.map List.length = disp.map List.length ∧
      ∀ k' i', (k' ≠ k ∨ i' ≠ i) → entry (siteBody x i k disp).2 k' i' = entry disp k' i' := by
  cases h0 : x.get (3 * k + 0) with
  | error e =>
    simp only [siteBody, h0]
    exact ⟨trivial, fun _ _ _ => trivial⟩
  | ok v0 =>
    cases a0 : addAt (fun p v => { p with x := p.x + v }) disp k i v0 with
    | error e =>
      simp only [siteBody, h0, a0]
      exact ⟨trivial, fun _ _ _ => trivial⟩
    | ok d0 =>
      obtain ⟨s0, f0⟩ := addAt_frame _ disp d0 k i v0 a0
      cases h1 : x.get (3 * k + 1) with
      | error e =>
        simp only [siteBody, h0, a0, h1]
        exact ⟨s0, f0⟩
      | ok v1 =>
        cases a1 : addAt (fun p v => { p with y := p.y + v }) d0 k i v1 with
        | error e =>
          simp only [siteBody, h0, a0, h1, a1]
          exact ⟨s0, f0⟩
        | ok d1 =>
          obtain ⟨s1, f1⟩ := addAt_frame _ d0 d1 k i v1 a1
          have s01 := s1.trans s0
          have f01 : ∀ k' i', (k' ≠ k ∨ i' ≠ i) → entry d1 k' i' = entry disp k' i' :=
            fun k' i' hne => (f1 k' i' hne).trans (f0 k' i' hne)
          cases h2 : x.get (3 * k + 2) with
          | error e =>
            simp only [siteBody, h0, a0, h1, a1, h2]
            exact ⟨s01, f01⟩
          | ok v2 =>
            cases a2 : addAt (fun p v => { p with z := p.z + v }) d1 k i v2 with
            | error e =>
              simp only [siteBody, h0, a0, h1, a1, h2, a2]
              exact ⟨s01, f01⟩
            | ok d2 =>
              obtain ⟨s2, f2⟩ := addAt_frame _ d1 d2 k i v2 a2
              simp only [siteBody, h0, a0, h1, a1, h2, a2]
              exact ⟨s2.trans s01, fun k' i' hne => (f2 k' i' hne).trans (f01 k' i' hne)⟩

/-- A site body that does not throw found its entry. -/
theorem siteBody_ok_inv (x : Vector K) (i k : Nat) (disp : Displacement K)
    (h : (siteBody x i k disp).1 = .ok ()) : (entry disp k i).isSome := by
  cases h0 : x.get (3 * k + 0) with
  | error e =>
    simp only [siteBody, h0] at h
    cases h
  | ok v0 =>
    cases a0 : addAt (fun p v => { p with x := p.x + v }) disp k i v0 with
    | error e =>
      simp only [siteBody, h0, a0] at h
      cases h
    | ok d0 =>
      obtain ⟨p, hp⟩ := addAt_inv _ disp d0 k i v0 a0
      simp [hp]

/-- Whatever the site loop does, it keeps the shape of the buffer and every
entry outside of column `i` and of the listed sites. -/
theorem siteLoop_frame (x : Vector K) (i : Nat) (ks : List Nat) :
    ∀ (disp : Displacement K),
    (siteLoop x i ks disp).2.map List.length = disp.map List.length ∧
      ∀ k' i', (k' ∉ ks ∨ i' ≠ i) → entry (siteLoop x i ks disp).2 k' i' = entry disp k' i' := by
  induction ks with
  | nil => intro disp; exact ⟨rfl, fun _ _ _ => rfl⟩
  | cons k ks ih =>
    intro disp
    obtain ⟨s0, f0⟩ := siteBody_frame x i k disp
    unfold siteLoop
    rcases hb : siteBody x i k disp with ⟨r, d0⟩
    rw [hb] at s0 f0
    simp only at s0 f0
    have f0' : ∀ k' i', (k' ∉ k :: ks ∨ i' ≠ i) → entry d0 k' i' = entry disp k' i' := by
      intro k' i' hne
      apply f0
      rcases hne with c | c
      · exact Or.inl (fun e => c (e ▸ List.mem_cons_self _ _))
      · exact Or.inr c
    cases r with
    | error e => exact ⟨s0, f0'⟩
    | ok u =>
      obtain ⟨s1, f1⟩ := ih d0
      refine ⟨s1.trans s0, ?_⟩
      intro k' i' hne
      rw [f1 k' i' (by
        rcases hne with c | c
        · exact Or.inl (fun e => c (List.mem_cons_of_mem _ e))
        · exact Or.inr c)]
      exact f0' k' i' hne

/-- A site loop that does not throw found the entry of every listed site. -/
theorem siteLoop_ok_inv (x : Vector K) (i : Nat) (ks : List Nat) :
    ∀ (disp : Displacement K), (siteLoop x i ks disp).1 = .ok () →
      ∀ k ∈ ks, (entry disp k i).isSome := by
  induction ks with
  | nil => intro disp _ k hk; cases hk
  | cons k ks ih =>
    intro disp h k' hk'
    obtain ⟨s0, _⟩ := siteBody_frame x i k disp
    have hinv := siteBody_ok_inv x i k disp
    unfold siteLoop at h
    rcases hb : siteBody x i k disp with ⟨r, d0⟩
    rw [hb] at h s0 hinv
    cases r with
    | error e => simp at h
    | ok u =>
      simp only at h s0 hinv
      rcases List.mem_cons.mp hk' with e | e
      · subst e
        exact hinv trivial
      · rw [← entry_isSome_of_shape d0 disp k' i s0]
        exact ih d0 h k' e
/-- The events of `pole` are queries of the provider. -/
theorem pole_events (PI : K) (self : TidesOceanPole K T) (t : T)
    (rotation : T → Option (EarthOrientationParameter K)) :
    ∀ ev ∈ (self.pole PI t rotation).2, ev = .earthOrientationParameter t := by
  unfold TidesOceanPole.pole
  cases self.meanPole.compute t with
  | none => simp
  | some mp =>
    cases rotation t with
    | none => simp
    | some eop => simp

/-- Whatever the epoch loop does, it keeps the shape of the buffer and every
entry outside of the sites and epochs it runs over, and its events are
queries of the provider. -/
theorem epochLoop_frame (PI : K) (self : TidesOceanPole K T) (point : List (Vector3d K))
    (rotation : T → Option (EarthOrientationParameter K)) (xReal xImag : Vector K) :
    ∀ (time : List T) (idEpoch : Nat) (disp : Displacement K),
    (epochLoop PI self point rotation xReal xImag idEpoch time disp).disp.map List.length =
        disp.map List.length ∧
      (∀ k i, (point.length ≤ k ∨ i < idEpoch ∨ idEpoch + time.length ≤ i) →
        entry (epochLoop PI self point rotation xReal xImag idEpoch time disp).disp k i =
          entry disp k i) ∧
      ∀ ev ∈ (epochLoop PI self point rotation xReal xImag idEpoch time disp).events,
        ∃ t, ev = .earthOrientationParameter t := by
  intro time
  induction time with
  | nil =>
    intro idEpoch disp
    exact ⟨rfl, fun _ _ _ => rfl, fun ev hev => by simp [epochLoop] at hev⟩
  | cons t time ih =>
    intro idEpoch disp
    have hpe := pole_events PI self t rotation
    rw [epochLoop_cons]
    rcases hp : self.pole PI t rotation with ⟨r, events⟩
    rw [hp] at hpe
    simp only at hpe
    have hev0 : ∀ ev ∈ events, ∃ t, ev = Event.earthOrientationParameter (K := K) t :=
      fun ev h => ⟨t, hpe ev h⟩
    cases r with
    | error e => exact ⟨rfl, fun _ _ _ => rfl, hev0⟩
    | ok m =>
      obtain ⟨m1, m2⟩ := m
      simp only
      cases hv : deformationVector PI self xReal xImag m1 m2 with
      | error e => exact ⟨rfl, fun _ _ _ => rfl, hev0⟩
      | ok x =>
        simp only
        obtain ⟨s0, f0⟩ := siteLoop_frame x idEpoch (List.range point.length) disp
        rcases hs : siteLoop x idEpoch (List.range point.length) disp with ⟨r, d0⟩
        rw [hs] at s0 f0
        simp only at s0 f0
        have f0' : ∀ k i, (point.length ≤ k ∨ i < idEpoch ∨ idEpoch + (t :: time).length ≤ i) →
            entry d0 k i = entry disp k i := by
          intro k i h
          apply f0
          rcases h with c | c | c
          · exact Or.inl (by simp [List.mem_range]; omega)
          · exact Or.inr (by omega)
          · exact Or.inr (by simp at c; omega)
        cases r with
        | error e => exact ⟨s0, f0', hev0⟩
        | ok u =>
          obtain ⟨s1, f1, e1⟩ := ih (idEpoch + 1) d0
          refine ⟨s1.trans s0, ?_, ?_⟩
          · intro k i h
            simp only
            rw [f1 k i (by
              rcases h with c | c | c
              · exact Or.inl c
              · exact Or.inr (Or.inl (by omega))
              · exact Or.inr (Or.inr (by simp at c; omega)))]
            exact f0' k i h
          · intro ev hev
            simp only [List.mem_append] at hev
            rcases hev with h | h
            · exact hev0 ev h
            · exact e1 ev h

/-- An epoch loop that does not throw found the entry of every site at every
epoch it ran over. -/
theorem epochLoop_ok_inv (PI : K) (self : TidesOceanPole K T) (point : List (Vector3d K))
    (rotation : T → Option (EarthOrientationParameter K)) (xReal xImag : Vector K) :
    ∀ (time : List T) (idEpoch : Nat) (disp : Displacement K),
    (epochLoop PI self point rotation xReal xImag idEpoch time disp).result = .ok () →
    ∀ k < point.length, ∀ j < time.length, (entry disp k (idEpoch + j)).isSome := by
  intro time
  induction time with
  | nil => intro idEpoch disp _ k _ j hj; simp at hj
  | cons t time ih =>
    intro idEpoch disp h k hk j hj
    rw [epochLoop_cons] at h
    rcases hp : self.pole PI t rotation with ⟨r, events⟩
    rw [hp] at h
    cases r with
    | error e => simp at h
    | ok m =>
      obtain ⟨m1, m2⟩ := m
      simp only at h
      cases hv : deformationVector PI self xReal xImag m1 m2 with
      | error e => simp [hv] at h
      | ok x =>
        simp only [hv] at h
        obtain ⟨s0, _⟩ := siteLoop_frame x idEpoch (List.range point.length) disp
        have hinv := siteLoop_ok_inv x idEpoch (List.range point.length) disp
        rcases hs : siteLoop x idEpoch (List.range point.length) disp with ⟨r, d0⟩
        rw [hs] at h s0 hinv
        cases r with
        | error e => simp at h
        | ok u =>
          simp only at h s0 hinv
          cases j with
          | zero => exact hinv trivial k (List.mem_range.mpr hk)
          | succ j =>
            have := ih (idEpoch + 1) d0 h k hk j (by simpa using hj)
            rw [entry_isSome_of_shape d0 disp k _ s0] at this
            have e : idEpoch + (j + 1) = idEpoch + 1 + j := by omega
            rw [e]
            exact this
/-- The epoch loop over `pre ++ rest` is the loop over `pre` followed, when it
does not throw, by the loop over `rest`. -/
theorem epochLoop_append (PI : K) (self : TidesOceanPole K T) (point : List (Vector3d K))
    (rotation : T → Option (EarthOrientationParameter K)) (xReal xImag : Vector K)
    (rest : List T) :
    ∀ (pre : List T) (idEpoch : Nat) (disp : Displacement K),
    epochLoop PI self point rotation xReal xImag idEpoch (pre ++ rest) disp =
      afterSites (epochLoop PI self point rotation xReal xImag idEpoch pre disp).events
        ((epochLoop PI self point rotation xReal xImag idEpoch pre disp).result,
          (epochLoop PI self point rotation xReal xImag idEpoch pre disp).disp)
        (epochLoop PI self point rotation xReal xImag (idEpoch + pre.length) rest) := by
  intro pre
  induction pre with
  | nil =>
    intro idEpoch disp
    simp [epochLoop, afterSites]
  | cons t pre ih =>
    intro idEpoch disp
    rw [List.cons_append, epochLoop_cons, epochLoop_cons]
    rcases hp : self.pole PI t rotation with ⟨r, events⟩
    cases r with
    | error e => simp [afterSites]
    | ok m =>
      obtain ⟨m1, m2⟩ := m
      simp only
      cases hv : deformationVector PI self xReal xImag m1 m2 with
      | error e => simp [afterSites]
      | ok x =>
        simp only
        rcases hs : siteLoop x idEpoch (List.range point.length) disp with ⟨r, d0⟩
        cases r with
        | error e => simp [afterSites]
        | ok u =>
          simp only
          rw [ih (idEpoch + 1) d0]
          have e : idEpoch + 1 + pre.length = idEpoch + (t :: pre).length := by
            simp only [List.length_cons]; omega
          rw [e]
          rcases ho : (epochLoop PI self point rotation xReal xImag (idEpoch + 1) pre d0).result with e' | u'
          · simp [afterSites]
          · simp [afterSites, List.append_assoc]
/-- Whatever `deformation` does, it keeps the shape of the buffer and every
entry outside of the sites and epochs of the call, and it builds the
load-response operator once for non-empty inputs and not at all otherwise. -/
theorem deformation_frame_builds {Rotary3d EphemeridesPtr : Type} (PI : K)
    (deformationMatrix : List (Vector3d K) → List K → Vector K → Vector K → K → K → Nat → Matrix K)
    (x : SphericalHarmonics K → Vector K)
    (self : TidesOceanPole K T) (time : List T) (point : List (Vector3d K))
    (rotEarth : List Rotary3d) (rotation : T → Option (EarthOrientationParameter K))
    (ephemerides : EphemeridesPtr) (gravity : List K) (hn ln : Vector K)
    (disp : Displacement K) :
    (self.deformation PI deformationMatrix x time point rotEarth rotation ephemerides gravity
        hn ln disp).disp.map List.length = disp.map List.length ∧
      (∀ k i, (point.length ≤ k ∨ time.length ≤ i) →
        entry (self.deformation PI deformationMatrix x time point rotEarth rotation ephemerides
          gravity hn ln disp).disp k i = entry disp k i) ∧
      buildCount (self.deformation PI deformationMatrix x time point rotEarth rotation ephemerides
          gravity hn ln disp).events =
        if time.length = 0 ∨ point.length = 0 then 0 else 1 := by
  unfold TidesOceanPole.deformation
  by_cases h : time.length = 0 ∨ point.length = 0
  · simp only [if_pos h]
    exact ⟨trivial, fun _ _ _ => trivial, rfl⟩
  · simp only [if_neg h]
    cases hR : (deformationMatrix point gravity hn ln self.harmReal.GM self.harmReal.R
        self.harmReal.maxDegree).mulVec (x self.harmReal) with
    | error e => exact ⟨rfl, fun _ _ _ => rfl, rfl⟩
    | ok xReal =>
      cases hI : (deformationMatrix point gravity hn ln self.harmReal.GM self.harmReal.R
          self.harmReal.maxDegree).mulVec (x self.harmImag) with
      | error e => exact ⟨rfl, fun _ _ _ => rfl, rfl⟩
      | ok xImag =>
        obtain ⟨s, f, ev⟩ := epochLoop_frame PI self point rotation xReal xImag time 0 disp
        refine ⟨s, fun k i hki => f k i ?_, ?_⟩
        · rcases hki with c | c
          · exact Or.inl c
          · exact Or.inr (Or.inr (by omega))
        · have hnone : List.filter Event.isBuild
              (epochLoop PI self point rotation xReal xImag 0 time disp).events = [] := by
            rw [List.filter_eq_nil_iff]
            intro a ha
            obtain ⟨t, rfl⟩ := ev a ha
            simp [Event.isBuild]
          simp [buildCount, Event.isBuild, hnone]

/-- C13: `deformation` keeps the shape of the buffer, the number of rows and
the length of every row, and leaves every entry `disp[k][i]` with
`k ≥ point.size()` or `i ≥ time.size()` as it was; this holds for every call,
successful or not. The instance is an argument that the function only reads. -/
theorem deformation_frame {Rotary3d EphemeridesPtr : Type} (PI : K)
    (deformationMatrix : List (Vector3d K) → List K → Vector K → Vector K → K → K → Nat → Matrix K)
    (x : SphericalHarmonics K → Vector K)
    (self : TidesOceanPole K T) (time : List T) (point : List (Vector3d K))
    (rotEarth : List Rotary3d) (rotation : T → Option (EarthOrientationParameter K))
    (ephemerides : EphemeridesPtr) (gravity : List K) (hn ln : Vector K)
    (disp : Displacement K) :
    (self.deformation PI deformationMatrix x time point rotEarth rotation ephemerides gravity
        hn ln disp).disp.length = disp.length ∧
      (self.deformation PI deformationMatrix x time point rotEarth rotation ephemerides gravity
        hn ln disp).disp.map List.length = disp.map List.length ∧
      ∀ k i, (point.length ≤ k ∨ time.length ≤ i) →
        entry (self.deformation PI deformationMatrix x time point rotEarth rotation ephemerides
          gravity hn ln disp).disp k i = entry disp k i := by
  obtain ⟨s, f, _⟩ := deformation_frame_builds PI deformationMatrix x self time point rotEarth
    rotation ephemerides gravity hn ln disp
  refine ⟨?_, s, f⟩
  have := congrArg List.length s
  simpa using this

/-- C14, as the code has it: within one call of `deformation` the
load-response operator is built exactly once when both lists are non-empty,
whatever the number of epochs, and not at all otherwise; nothing is kept for
a later call. -/
theorem deformation_builds {Rotary3d EphemeridesPtr : Type} (PI : K)
    (deformationMatrix : List (Vector3d K) → List K → Vector K → Vector K → K → K → Nat → Matrix K)
    (x : SphericalHarmonics K → Vector K)
    (self : TidesOceanPole K T) (time : List T) (point : List (Vector3d K))
    (rotEarth : List Rotary3d) (rotation : T → Option (EarthOrientationParameter K))
    (ephemerides : EphemeridesPtr) (gravity : List K) (hn ln : Vector K)
    (disp : Displacement K) :
    buildCount (self.deformation PI deformationMatrix x time point rotEarth rotation ephemerides
        gravity hn ln disp).events =
      if time.length = 0 ∨ point.length = 0 then 0 else 1 :=
  (deformation_frame_builds PI deformationMatrix x self time point rotEarth rotation ephemerides
    gravity hn ln disp).2.2

/-- C15: `sphericalHarmonics` depends on the provider through its reading at
`time` only and not at all on `rotEarth` and `ephemerides`: two calls with the
same instance, time and request, and providers that agree at `time`, return
the same result, hence fields with the same `GM`, `R` and coefficients. -/
theorem sphericalHarmonics_deterministic [DecidableEq K]
    {Rotary3d EphemeridesPtr Rotary3d' EphemeridesPtr' : Type}
    (PI : K) (INFINITYDEGREE : Nat) (rescale : K → K → K → K → Nat → K)
    (self : TidesOceanPole K T) (t : T) (rotEarth : Rotary3d) (rotEarth' : Rotary3d')
    (earthRotation earthRotation' : T → Option (EarthOrientationParameter K))
    (ephemerides : EphemeridesPtr) (ephemerides' : EphemeridesPtr')
    (maxDegree minDegree : Nat) (GM R : K)
    (hsame : earthRotation t = earthRotation' t) :
    self.sphericalHarmonics PI INFINITYDEGREE rescale t rotEarth earthRotation ephemerides
        maxDegree minDegree GM R =
      self.sphericalHarmonics PI INFINITYDEGREE rescale t rotEarth' earthRotation' ephemerides'
        maxDegree minDegree GM R := by
  simp only [TidesOceanPole.sphericalHarmonics, TidesOceanPole.pole, hsame]
/-- `pole` succeeds when the mean pole model and the provider answer. -/
theorem pole_ok_of (PI : K) (self : TidesOceanPole K T) (t : T)
    (rotation : T → Option (EarthOrientationParameter K))
    (hmean : ∃ v, self.meanPole.compute t = some v) (hrot : ∃ eop, rotation t = some eop) :
    ∃ v, (self.pole PI t rotation).1 = .ok v := by
  obtain ⟨⟨xBar, yBar⟩, hv⟩ := hmean
  obtain ⟨eop, he⟩ := hrot
  exact ⟨_, by rw [pole_eq PI self t rotation eop xBar yBar hv he]⟩

/-- `deformation` succeeds when `pole` succeeds at every epoch, the operator
fits the coefficient vectors and has three rows per site, and the buffer has
a row per site with an entry per epoch. -/
theorem deformation_ok {Rotary3d EphemeridesPtr : Type} (PI : K)
    (deformationMatrix : List (Vector3d K) → List K → Vector K → Vector K → K → K → Nat → Matrix K)
    (x : SphericalHarmonics K → Vector K)
    (self : TidesOceanPole K T) (time : List T) (point : List (Vector3d K))
    (rotEarth : List Rotary3d) (rotation : T → Option (EarthOrientationParameter K))
    (ephemerides : EphemeridesPtr) (gravity : List K) (hn ln : Vector K)
    (disp : Displacement K)
    (hdisp : ∀ k < point.length, ∃ row, disp[k]? = some row ∧ time.length ≤ row.length)
    (hpole : ∀ t ∈ time, ∃ v, (self.pole PI t rotation).1 = .ok v)
    (hcR : (deformationMatrix point gravity hn ln self.harmReal.GM self.harmReal.R
        self.harmReal.maxDegree).columns = (x self.harmReal).rows)
    (hcI : (deformationMatrix point gravity hn ln self.harmReal.GM self.harmReal.R
        self.harmReal.maxDegree).columns = (x self.harmImag).rows)
    (hA : 3 * point.length ≤ (deformationMatrix point gravity hn ln self.harmReal.GM self.harmReal.R
        self.harmReal.maxDegree).rows) :
    (self.deformation PI deformationMatrix x time point rotEarth rotation ephemerides gravity
        hn ln disp).result = .ok () := by
  by_cases h : time.length = 0 ∨ point.length = 0
  · simp only [TidesOceanPole.deformation, if_pos h]
  · have htime : time ≠ [] := fun e => h (Or.inl (by rw [e]; rfl))
    have hpoint : point ≠ [] := fun e => h (Or.inr (by rw [e]; rfl))
    have hpole' : ∀ t ∈ time, (self.pole PI t rotation).1 =
        .ok ((fun t => match (self.pole PI t rotation).1 with
          | .ok v => v
          | .error _ => ((0 : K), (0 : K))) t) := by
      intro t ht
      obtain ⟨v, hv⟩ := hpole t ht
      simp only [hv]
    obtain ⟨d, e, _, _⟩ := deformation_spec PI deformationMatrix x self time point rotEarth rotation
      ephemerides gravity hn ln disp _ _ _ htime hpoint hdisp hpole'
      (by rw [Matrix.mulVec, if_pos hcR]) (by rw [Matrix.mulVec, if_pos hcI]) hA
    rw [e]

/-- C12, as the code has it: for an instance whose coefficient sets have the
same shape and a mean pole model that never fails, `sphericalHarmonics`
succeeds for every request when the provider answers at the time, and
`deformation` succeeds when the provider answers at every epoch, provided
that the list of epochs is empty or the buffer has a row per site with an
entry per epoch (and the operator fits the coefficient vectors and has three
rows per site). -/
theorem evaluation_succeeds [DecidableEq K] (PI : K) (INFINITYDEGREE : Nat)
    (rescale : K → K → K → K → Nat → K) (self : TidesOceanPole K T)
    (hshape : self.SameShape) (hmean : ∀ t, ∃ v, self.meanPole.compute t = some v) :
    (∀ (Rotary3d EphemeridesPtr : Type) (t : T) (rotEarth : Rotary3d)
        (earthRotation : T → Option (EarthOrientationParameter K)) (ephemerides : EphemeridesPtr)
        (maxDegree minDegree : Nat) (GM R : K),
        (∃ eop, earthRotation t = some eop) →
        ∃ harm, (self.sphericalHarmonics PI INFINITYDEGREE rescale t rotEarth earthRotation
          ephemerides maxDegree minDegree GM R).1 = .ok harm) ∧
    ∀ (Rotary3d EphemeridesPtr : Type)
      (deformationMatrix : List (Vector3d K) → List K → Vector K → Vector K → K → K → Nat → Matrix K)
      (x : SphericalHarmonics K → Vector K) (time : List T) (point : List (Vector3d K))
      (rotEarth : List Rotary3d) (rotation : T → Option (EarthOrientationParameter K))
      (ephemerides : EphemeridesPtr) (gravity : List K) (hn ln : Vector K) (disp : Displacement K),
      (∀ t ∈ time, ∃ eop, rotation t = some eop) →
      (deformationMatrix point gravity hn ln self.harmReal.GM self.harmReal.R
        self.harmReal.maxDegree).columns = (x self.harmReal).rows →
      (deformationMatrix point gravity hn ln self.harmReal.GM self.harmReal.R
        self.harmReal.maxDegree).columns = (x self.harmImag).rows →
      3 * point.length ≤ (deformationMatrix point gravity hn ln self.harmReal.GM self.harmReal.R
        self.harmReal.maxDegree).rows →
      (time = [] ∨ ∀ k < point.length, ∃ row, disp[k]? = some row ∧ time.length ≤ row.length) →
      (self.deformation PI deformationMatrix x time point rotEarth rotation ephemerides gravity
        hn ln disp).result = .ok () := by
  constructor
  · intro Rotary3d EphemeridesPtr t rotEarth earthRotation ephemerides maxDegree minDegree GM R hrot
    obtain ⟨⟨m1, m2⟩, hv⟩ := pole_ok_of PI self t earthRotation (hmean t) hrot
    have hp := pole_ok_events PI self t earthRotation (m1, m2) hv
    refine ⟨(combinedField self (wReal PI self.gammaR self.gammaI m1 m2)
      (wImag PI self.gammaR self.gammaI m1 m2)).get INFINITYDEGREE rescale maxDegree minDegree GM R, ?_⟩
    simp only [TidesOceanPole.sphericalHarmonics, hp, field_eq_combinedField PI self m1 m2 hshape]
  · intro Rotary3d EphemeridesPtr deformationMatrix x time point rotEarth rotation ephemerides
      gravity hn ln disp hrot hcR hcI hA hdisp
    rcases hdisp with htime | hdisp
    · subst htime
      simp only [TidesOceanPole.deformation, List.length_nil, true_or, if_true]
    · exact deformation_ok PI deformationMatrix x self time point rotEarth rotation ephemerides
        gravity hn ln disp hdisp (fun t ht => pole_ok_of PI self t rotation (hmean t) (hrot t ht))
        hcR hcI hA

/-- Witness of the amended C12: the sample instance over the rationals. -/
theorem evaluation_succeeds_witness :
    (sampleTides ℚ (1/10) (1/5)).SameShape ∧
    (∀ t, ∃ v, (sampleTides ℚ (1/10) (1/5)).meanPole.compute t = some v) ∧
    (∃ harm, ((sampleTides ℚ (1/10) (1/5)).sphericalHarmonics (22/7) 1000 (fun _ _ _ _ _ => 1) 0 ()
        (sampleRotation ℚ (1/1000) (1/500)) () 2 0 1 1).1 = .ok harm) ∧
    ((sampleTides ℚ (1/10) (1/5)).deformation (22/7) (sampleDeformationMatrix ℚ) (sampleX ℚ)
        [0, 1] (samplePoint ℚ) ([] : List Unit) (sampleRotation ℚ (1/1000) (1/500)) () []
        (sampleX ℚ (sampleHarm ℚ 1 2)) (sampleX ℚ (sampleHarm ℚ 1 2)) (sampleDisp ℚ)).result = .ok () :=
  ⟨⟨rfl, rfl, rfl, rfl⟩, fun _ => ⟨_, rfl⟩,
    (evaluation_succeeds (22/7) 1000 (fun _ _ _ _ _ => 1) (sampleTides ℚ (1/10) (1/5))
      ⟨rfl, rfl, rfl, rfl⟩ (fun _ => ⟨_, rfl⟩)).1 Unit Unit 0 ()
      (sampleRotation ℚ (1/1000) (1/500)) () 2 0 1 1 ⟨_, rfl⟩,
    (evaluation_succeeds (22/7) 1000 (fun _ _ _ _ _ => 1) (sampleTides ℚ (1/10) (1/5))
      ⟨rfl, rfl, rfl, rfl⟩ (fun _ => ⟨_, rfl⟩)).2 Unit Unit (sampleDeformationMatrix ℚ) (sampleX ℚ)
      [0, 1] (samplePoint ℚ) [] (sampleRotation ℚ (1/1000) (1/500)) () []
      (sampleX ℚ (sampleHarm ℚ 1 2)) (sampleX ℚ (sampleHarm ℚ 1 2)) (sampleDisp ℚ)
      (fun _ _ => ⟨_, rfl⟩) rfl rfl (by simp [samplePoint, sampleDeformationMatrix])
      (Or.inr (by
        intro k hk
        have hk0 : k = 0 := by simpa [samplePoint] using hk
        subst hk0
        exact ⟨_, rfl, by simp [sampleDisp]⟩))⟩

/-- C12 as stated fails: on the sample instance, whose coefficient sets have
the same shape and whose mean pole model and provider never fail,
`deformation` with one epoch, one site and an empty buffer throws
`std::out_of_range`. -/
theorem evaluation_succeeds_counterexample :
    (sampleTides ℚ (1/10) (1/5)).SameShape ∧
    (∀ t, ∃ v, (sampleTides ℚ (1/10) (1/5)).meanPole.compute t = some v) ∧
    (∀ t, ∃ eop, sampleRotation ℚ (1/1000) (1/500) t = some eop) ∧
    ((sampleTides ℚ (1/10) (1/5)).deformation (22/7) (sampleDeformationMatrix ℚ) (sampleX ℚ)
        [0] (samplePoint ℚ) ([] : List Unit) (sampleRotation ℚ (1/1000) (1/500)) () []
        (sampleX ℚ (sampleHarm ℚ 1 2)) (sampleX ℚ (sampleHarm ℚ 1 2)) []).result =
      .error .outOfRange :=
  ⟨⟨rfl, rfl, rfl, rfl⟩, fun _ => ⟨_, rfl⟩, fun _ => ⟨_, rfl⟩, rfl⟩
/-- State of `deformation` when `pole` first fails at epoch index `j`: the call
throws what `pole` throws, the epochs before `j` are complete and nothing
else is written. -/
theorem deformation_fail_at {Rotary3d EphemeridesPtr : Type} (PI : K)
    (deformationMatrix : List (Vector3d K) → List K → Vector K → Vector K → K → K → Nat → Matrix K)
    (x : SphericalHarmonics K → Vector K)
    (self : TidesOceanPole K T) (time : List T) (point : List (Vector3d K))
    (rotEarth : List Rotary3d) (rotation : T → Option (EarthOrientationParameter K))
    (ephemerides : EphemeridesPtr) (gravity : List K) (hn ln : Vector K)
    (disp : Displacement K) (m : T → K × K) (xReal xImag : Vector K) (j : Nat) (tj : T)
    (err : Exception)
    (hpoint : point ≠ [])
    (hdisp : ∀ k < point.length, ∃ row, disp[k]? = some row ∧ time.length ≤ row.length)
    (htj : time[j]? = some tj)
    (hbefore : ∀ i t, i < j → time[i]? = some t → (self.pole PI t rotation).1 = .ok (m t))
    (hfail : (self.pole PI tj rotation).1 = .error err)
    (hReal : (deformationMatrix point gravity hn ln self.harmReal.GM self.harmReal.R
        self.harmReal.maxDegree).mulVec (x self.harmReal) = .ok xReal)
    (hImag : (deformationMatrix point gravity hn ln self.harmReal.GM self.harmReal.R
        self.harmReal.maxDegree).mulVec (x self.harmImag) = .ok xImag)
    (hA : 3 * point.length ≤ (deformationMatrix point gravity hn ln self.harmReal.GM self.harmReal.R
        self.harmReal.maxDegree).rows) :
    (self.deformation PI deformationMatrix x time point rotEarth rotation ephemerides gravity
        hn ln disp).result = .error err ∧
      ∀ k i, entry (self.deformation PI deformationMatrix x time point rotEarth rotation ephemerides
          gravity hn ln disp).disp k i =
        epochUpdate (fun t => combinedVector xReal xImag
            (wReal PI self.gammaR self.gammaI (m t).1 (m t).2)
            (wImag PI self.gammaR self.gammaI (m t).1 (m t).2))
          point.length 0 (time.take j) disp k i := by
  obtain ⟨hjlt, hjeq⟩ := List.getElem?_eq_some.mp htj
  have hsplit : time = time.take j ++ tj :: time.drop (j + 1) := by
    rw [← hjeq, ← List.drop_eq_getElem_cons hjlt, List.take_append_drop]
  have hrR : xReal.rows = (deformationMatrix point gravity hn ln self.harmReal.GM self.harmReal.R
      self.harmReal.maxDegree).rows := by
    unfold Matrix.mulVec at hReal
    split at hReal
    · rw [← Except.ok.inj hReal]
    · cases hReal
  have hrI : xImag.rows = (deformationMatrix point gravity hn ln self.harmReal.GM self.harmReal.R
      self.harmReal.maxDegree).rows := by
    unfold Matrix.mulVec at hImag
    split at hImag
    · rw [← Except.ok.inj hImag]
    · cases hImag
  have hlen : (time.take j).length = j := by
    rw [List.length_take]; omega
  have hpre : ∀ t ∈ time.take j, (self.pole PI t rotation).1 = .ok (m t) := by
    intro t ht
    obtain ⟨i, hi⟩ := List.mem_iff_getElem?.mp ht
    have hij : i < j := by
      have := (List.getElem?_eq_some.mp hi).1
      omega
    rw [List.getElem?_take_of_lt hij] at hi
    exact hbefore i t hij hi
  have hentries : ∀ k < point.length, ∀ i < (time.take j).length, (entry disp k (0 + i)).isSome := by
    intro k hk i hi
    obtain ⟨row, hrow, hl⟩ := hdisp k hk
    have hi' : i < row.length := by omega
    simp [entry, hrow, List.getElem?_eq_getElem hi']
  obtain ⟨d, e, _, f⟩ := epochLoop_spec PI self point rotation xReal xImag m
    (by rw [hrR, hrI]) (by rw [hrR]; exact hA) (time.take j) 0 disp hpre hentries
  have hpj : ∃ ev, self.pole PI tj rotation = (.error err, ev) := by
    rcases hq : self.pole PI tj rotation with ⟨r, ev⟩
    rw [hq] at hfail
    simp only at hfail
    exact ⟨ev, by rw [hfail]⟩
  obtain ⟨ev, hpj⟩ := hpj
  have hloop : epochLoop PI self point rotation xReal xImag 0 time disp =
      { result := .error err, disp := d
        events := (time.take j).map (fun t => .earthOrientationParameter t) ++ ev } := by
    rw [hsplit, epochLoop_append, e, hsplit.symm]
    simp only [afterSites]
    rw [epochLoop_cons, hpj]
  have hne : ¬ (time.length = 0 ∨ point.length = 0) := by
    have : point.length ≠ 0 := fun e => hpoint (List.length_eq_zero.mp e)
    omega
  simp only [TidesOceanPole.deformation, if_neg hne, hReal, hImag, hloop]
  exact ⟨trivial, f⟩
/-- C16: for a non-empty site list and a buffer with a row per site and an
entry per epoch, when the mean pole model answers and the provider succeeds
at the epochs before index `j` and fails at epoch `j`, `deformation` throws
the provider's failure, every entry `disp[k][i]` with `i < j` of every site
has received its full increment and every entry with `i ≥ j` is unchanged. -/
theorem deformation_not_atomic {Rotary3d EphemeridesPtr : Type} (PI : K)
    (deformationMatrix : List (Vector3d K) → List K → Vector K → Vector K → K → K → Nat → Matrix K)
    (x : SphericalHarmonics K → Vector K)
    (self : TidesOceanPole K T) (time : List T) (point : List (Vector3d K))
    (rotEarth : List Rotary3d) (rotation : T → Option (EarthOrientationParameter K))
    (ephemerides : EphemeridesPtr) (gravity : List K) (hn ln : Vector K)
    (disp : Displacement K) (m : T → K × K) (xReal xImag : Vector K) (j : Nat) (tj : T)
    (mean : K × K)
    (hpoint : point ≠ [])
    (hdisp : ∀ k < point.length, ∃ row, disp[k]? = some row ∧ time.length ≤ row.length)
    (htj : time[j]? = some tj)
    (hbefore : ∀ i t, i < j → time[i]? = some t → (self.pole PI t rotation).1 = .ok (m t))
    (hmean : self.meanPole.compute tj = some mean) (hfail : rotation tj = none)
    (hReal : (deformationMatrix point gravity hn ln self.harmReal.GM self.harmReal.R
        self.harmReal.maxDegree).mulVec (x self.harmReal) = .ok xReal)
    (hImag : (deformationMatrix point gravity hn ln self.harmReal.GM self.harmReal.R
        self.harmReal.maxDegree).mulVec (x self.harmImag) = .ok xImag)
    (hA : 3 * point.length ≤ (deformationMatrix point gravity hn ln self.harmReal.GM self.harmReal.R
        self.harmReal.maxDegree).rows) :
    (self.deformation PI deformationMatrix x time point rotEarth rotation ephemerides gravity
        hn ln disp).result = .error .earthRotation ∧
      (∀ k i t, k < point.length → i < j → time[i]? = some t →
        ∃ p, entry disp k i = some p ∧
          entry (self.deformation PI deformationMatrix x time point rotEarth rotation ephemerides
              gravity hn ln disp).disp k i =
            some (addSlice (combinedVector xReal xImag
                (wReal PI self.gammaR self.gammaI (m t).1 (m t).2)
                (wImag PI self.gammaR self.gammaI (m t).1 (m t).2)) k p)) ∧
      ∀ k i, j ≤ i →
        entry (self.deformation PI deformationMatrix x time point rotEarth rotation ephemerides
          gravity hn ln disp).disp k i = entry disp k i := by
  have hpolej : (self.pole PI tj rotation).1 = .error .earthRotation := by
    simp only [TidesOceanPole.pole, hmean, hfail]
  obtain ⟨hres, f⟩ := deformation_fail_at PI deformationMatrix x self time point rotEarth rotation
    ephemerides gravity hn ln disp m xReal xImag j tj .earthRotation hpoint hdisp htj hbefore hpolej
    hReal hImag hA
  refine ⟨hres, ?_, ?_⟩
  · intro k i t hk hi ht
    obtain ⟨row, hrow, hl⟩ := hdisp k hk
    have hilt : i < time.length := (List.getElem?_eq_some.mp ht).1
    have hi' : i < row.length := by omega
    refine ⟨row[i], by simp [entry, hrow, List.getElem?_eq_getElem hi'], ?_⟩
    rw [f]
    simp [epochUpdate, hk, List.getElem?_take_of_lt hi, ht, entry, hrow,
      List.getElem?_eq_getElem hi']
  · intro k i hji
    rw [f]
    simp [epochUpdate, List.getElem?_take_eq_none hji]

/-- Witness of C16: two epochs, one site, and a provider that answers at
time 0 and throws at time 1. -/
theorem deformation_not_atomic_witness :
    samplePoint ℝ ≠ [] ∧ ([0, 1] : List Nat)[1]? = some 1 ∧
    sampleRotationUntil ℝ (1/1000) (1/500) 1 1 = none ∧
    ((sampleTides ℝ (1/10) (1/5)).deformation Real.pi (sampleDeformationMatrix ℝ) (sampleX ℝ)
        [0, 1] (samplePoint ℝ) ([] : List Unit) (sampleRotationUntil ℝ (1/1000) (1/500) 1) () []
        (sampleX ℝ (sampleHarm ℝ 1 2)) (sampleX ℝ (sampleHarm ℝ 1 2)) (sampleDisp ℝ)).result =
      .error .earthRotation ∧
    (∀ k i t, k < (samplePoint ℝ).length → i < 1 → ([0, 1] : List Nat)[i]? = some t →
      ∃ p, entry (sampleDisp ℝ) k i = some p ∧
        entry ((sampleTides ℝ (1/10) (1/5)).deformation Real.pi (sampleDeformationMatrix ℝ)
            (sampleX ℝ) [0, 1] (samplePoint ℝ) ([] : List Unit)
            (sampleRotationUntil ℝ (1/1000) (1/500) 1) () []
            (sampleX ℝ (sampleHarm ℝ 1 2)) (sampleX ℝ (sampleHarm ℝ 1 2)) (sampleDisp ℝ)).disp k i =
          some (addSlice (combinedVector (sampleImage ℝ (sampleHarm ℝ 1 2))
              (sampleImage ℝ (sampleHarm ℝ 3 5))
              (wReal Real.pi (sampleTides ℝ (1/10) (1/5)).gammaR (sampleTides ℝ (1/10) (1/5)).gammaI
                ((1/1000 : ℝ) * RAD2DEG Real.pi * 3600 - 1/10)
                (-((1/500 : ℝ) * RAD2DEG Real.pi * 3600 - 1/5)))
              (wImag Real.pi (sampleTides ℝ (1/10) (1/5)).gammaR (sampleTides ℝ (1/10) (1/5)).gammaI
                ((1/1000 : ℝ) * RAD2DEG Real.pi * 3600 - 1/10)
                (-((1/500 : ℝ) * RAD2DEG Real.pi * 3600 - 1/5)))) k p)) ∧
    ∀ k i, 1 ≤ i →
      entry ((sampleTides ℝ (1/10) (1/5)).deformation Real.pi (sampleDeformationMatrix ℝ)
          (sampleX ℝ) [0, 1] (samplePoint ℝ) ([] : List Unit)
          (sampleRotationUntil ℝ (1/1000) (1/500) 1) () []
          (sampleX ℝ (sampleHarm ℝ 1 2)) (sampleX ℝ (sampleHarm ℝ 1 2)) (sampleDisp ℝ)).disp k i =
        entry (sampleDisp ℝ) k i :=
  ⟨by simp [samplePoint], rfl, rfl,
    deformation_not_atomic Real.pi (sampleDeformationMatrix ℝ) (sampleX ℝ)
      (sampleTides ℝ (1/10) (1/5)) [0, 1] (samplePoint ℝ) ([] : List Unit)
      (sampleRotationUntil ℝ (1/1000) (1/500) 1) () []
      (sampleX ℝ (sampleHarm ℝ 1 2)) (sampleX ℝ (sampleHarm ℝ 1 2)) (sampleDisp ℝ)
      (fun _ => ((1/1000 : ℝ) * RAD2DEG Real.pi * 3600 - 1/10,
        -((1/500 : ℝ) * RAD2DEG Real.pi * 3600 - 1/5)))
      (sampleImage ℝ (sampleHarm ℝ 1 2)) (sampleImage ℝ (sampleHarm ℝ 3 5)) 1 1 (1/10, 1/5)
      (by simp [samplePoint])
      (by
        intro k hk
        have hk0 : k = 0 := by simpa [samplePoint] using hk
        subst hk0
        exact ⟨_, rfl, by simp [sampleDisp]⟩)
      rfl
      (by
        intro i t hi ht
        have hi0 : i = 0 := by omega
        subst hi0
        have ht0 : t = 0 := by simpa using ht.symm
        subst ht0
        rfl)
      rfl rfl rfl rfl (by simp [samplePoint, sampleDeformationMatrix])⟩
omit [Field K] in
/-- An entry exists when its row exists and is long enough. -/
theorem entry_isSome_iff (disp : Displacement K) (k i : Nat) :
    (entry disp k i).isSome ↔ ∃ row, disp[k]? = some row ∧ i < row.length := by
  unfold entry
  cases h : disp[k]? with
  | none => simp
  | some row =>
    simp only [Option.some.injEq, exists_eq_left']
    constructor
    · intro hs
      obtain ⟨p, hp⟩ := Option.isSome_iff_exists.mp hs
      exact (List.getElem?_eq_some.mp hp).1
    · intro hi
      simp [List.getElem?_eq_getElem hi]

/-- A call of `deformation` with non-empty lists that does not throw found an
entry per epoch in the row of every site. -/
theorem deformation_ok_inv {Rotary3d EphemeridesPtr : Type} (PI : K)
    (deformationMatrix : List (Vector3d K) → List K → Vector K → Vector K → K → K → Nat → Matrix K)
    (x : SphericalHarmonics K → Vector K)
    (self : TidesOceanPole K T) (time : List T) (point : List (Vector3d K))
    (rotEarth : List Rotary3d) (rotation : T → Option (EarthOrientationParameter K))
    (ephemerides : EphemeridesPtr) (gravity : List K) (hn ln : Vector K)
    (disp : Displacement K) (htime : time ≠ []) (hpoint : point ≠ [])
    (h : (self.deformation PI deformationMatrix x time point rotEarth rotation ephemerides gravity
        hn ln disp).result = .ok ()) :
    ∀ k < point.length, ∃ row, disp[k]? = some row ∧ time.length ≤ row.length := by
  have hne : ¬ (time.length = 0 ∨ point.length = 0) := by
    have h1 : point.length ≠ 0 := fun e => hpoint (List.length_eq_zero.mp e)
    have h2 : time.length ≠ 0 := fun e => htime (List.length_eq_zero.mp e)
    omega
  have hpos : 0 < time.length := List.length_pos.mpr htime
  unfold TidesOceanPole.deformation at h
  simp only [if_neg hne] at h
  cases hR : (deformationMatrix point gravity hn ln self.harmReal.GM self.harmReal.R
      self.harmReal.maxDegree).mulVec (x self.harmReal) with
  | error e => simp [hR] at h
  | ok xReal =>
    cases hI : (deformationMatrix point gravity hn ln self.harmReal.GM self.harmReal.R
        self.harmReal.maxDegree).mulVec (x self.harmImag) with
    | error e => simp [hR, hI] at h
    | ok xImag =>
      simp only [hR, hI] at h
      intro k hk
      have := epochLoop_ok_inv PI self point rotation xReal xImag time 0 disp h k hk
        (time.length - 1) (by omega)
      obtain ⟨row, hrow, hlt⟩ := (entry_isSome_iff disp k _).mp this
      exact ⟨row, hrow, by omega⟩

/-- C17: for non-empty times and sites, an operator with three rows per site
and `pole` succeeding at every epoch, `deformation` returns without an
exception exactly when the buffer has a row for every site with an entry for
every epoch; in that case every index `3k+0`, `3k+1`, `3k+2` lies inside the
displacement vector of an epoch and every `disp.at(k).at(idEpoch)` exists. -/
theorem deformation_index_safety {Rotary3d EphemeridesPtr : Type} (PI : K)
    (deformationMatrix : List (Vector3d K) → List K → Vector K → Vector K → K → K → Nat → Matrix K)
    (x : SphericalHarmonics K → Vector K)
    (self : TidesOceanPole K T) (time : List T) (point : List (Vector3d K))
    (rotEarth : List Rotary3d) (rotation : T → Option (EarthOrientationParameter K))
    (ephemerides : EphemeridesPtr) (gravity : List K) (hn ln : Vector K)
    (disp : Displacement K) (m : T → K × K) (xReal xImag : Vector K)
    (htime : time ≠ []) (hpoint : point ≠ [])
    (hpole : ∀ t ∈ time, (self.pole PI t rotation).1 = .ok (m t))
    (hReal : (deformationMatrix point gravity hn ln self.harmReal.GM self.harmReal.R
        self.harmReal.maxDegree).mulVec (x self.harmReal) = .ok xReal)
    (hImag : (deformationMatrix point gravity hn ln self.harmReal.GM self.harmReal.R
        self.harmReal.maxDegree).mulVec (x self.harmImag) = .ok xImag)
    (hA : (deformationMatrix point gravity hn ln self.harmReal.GM self.harmReal.R
        self.harmReal.maxDegree).rows = 3 * point.length) :
    ((self.deformation PI deformationMatrix x time point rotEarth rotation ephemerides gravity
          hn ln disp).result = .ok () ↔
        ∀ k < point.length, ∃ row, disp[k]? = some row ∧ time.length ≤ row.length) ∧
      ((∀ k < point.length, ∃ row, disp[k]? = some row ∧ time.length ≤ row.length) →
        ∀ k < point.length,
          (∀ m1 m2, ∃ xvec, deformationVector PI self xReal xImag m1 m2 = .ok xvec ∧
            3 * k + 0 < xvec.rows ∧ 3 * k + 1 < xvec.rows ∧ 3 * k + 2 < xvec.rows) ∧
          ∀ i < time.length, (entry disp k i).isSome) := by
  have hrR : xReal.rows = (deformationMatrix point gravity hn ln self.harmReal.GM self.harmReal.R
      self.harmReal.maxDegree).rows := by
    unfold Matrix.mulVec at hReal
    split at hReal
    · rw [← Except.ok.inj hReal]
    · cases hReal
  have hrI : xImag.rows = (deformationMatrix point gravity hn ln self.harmReal.GM self.harmReal.R
      self.harmReal.maxDegree).rows := by
    unfold Matrix.mulVec at hImag
    split at hImag
    · rw [← Except.ok.inj hImag]
    · cases hImag
  refine ⟨⟨?_, ?_⟩, ?_⟩
  · exact deformation_ok_inv PI deformationMatrix x self time point rotEarth rotation ephemerides
      gravity hn ln disp htime hpoint
  · intro hdisp
    obtain ⟨d, e, _, _⟩ := deformation_spec PI deformationMatrix x self time point rotEarth rotation
      ephemerides gravity hn ln disp m xReal xImag htime hpoint hdisp hpole hReal hImag
      (by rw [hA])
    rw [e]
  · intro hdisp k hk
    refine ⟨?_, ?_⟩
    · intro m1 m2
      have hrows : xReal.rows = xImag.rows := by rw [hrR, hrI]
      refine ⟨_, by simp only [deformationVector, Vector.add, Vector.mul, if_pos hrows]; rfl, ?_⟩
      show 3 * k + 0 < xReal.rows ∧ 3 * k + 1 < xReal.rows ∧ 3 * k + 2 < xReal.rows
      rw [hrR, hA]
      omega
    · intro i hi
      obtain ⟨row, hrow, hl⟩ := hdisp k hk
      exact (entry_isSome_iff disp k i).mpr ⟨row, hrow, by omega⟩

/-- Witness of C17: one site, two epochs, the sample instance over the
reals. -/
theorem deformation_index_safety_witness :
    ([0, 1] : List Nat) ≠ [] ∧ samplePoint ℝ ≠ [] ∧
    (((sampleTides ℝ (1/10) (1/5)).deformation Real.pi (sampleDeformationMatrix ℝ) (sampleX ℝ)
          [0, 1] (samplePoint ℝ) ([] : List Unit) (sampleRotation ℝ (1/1000) (1/500)) () []
          (sampleX ℝ (sampleHarm ℝ 1 2)) (sampleX ℝ (sampleHarm ℝ 1 2)) (sampleDisp ℝ)).result =
          .ok () ↔
        ∀ k < (samplePoint ℝ).length,
          ∃ row, (sampleDisp ℝ)[k]? = some row ∧ ([0, 1] : List Nat).length ≤ row.length) ∧
      ((∀ k < (samplePoint ℝ).length,
          ∃ row, (sampleDisp ℝ)[k]? = some row ∧ ([0, 1] : List Nat).length ≤ row.length) →
        ∀ k < (samplePoint ℝ).length,
          (∀ m1 m2, ∃ xvec, deformationVector Real.pi (sampleTides ℝ (1/10) (1/5))
              (sampleImage ℝ (sampleHarm ℝ 1 2)) (sampleImage ℝ (sampleHarm ℝ 3 5)) m1 m2 = .ok xvec ∧
            3 * k + 0 < xvec.rows ∧ 3 * k + 1 < xvec.rows ∧ 3 * k + 2 < xvec.rows) ∧
          ∀ i < ([0, 1] : List Nat).length, (entry (sampleDisp ℝ) k i).isSome) :=
  ⟨by simp, by simp [samplePoint],
    deformation_index_safety Real.pi (sampleDeformationMatrix ℝ) (sampleX ℝ)
      (sampleTides ℝ (1/10) (1/5)) [0, 1] (samplePoint ℝ) ([] : List Unit)
      (sampleRotation ℝ (1/1000) (1/500)) () []
      (sampleX ℝ (sampleHarm ℝ 1 2)) (sampleX ℝ (sampleHarm ℝ 1 2)) (sampleDisp ℝ)
      (fun _ => ((1/1000 : ℝ) * RAD2DEG Real.pi * 3600 - 1/10,
        -((1/500 : ℝ) * RAD2DEG Real.pi * 3600 - 1/5)))
      (sampleImage ℝ (sampleHarm ℝ 1 2)) (sampleImage ℝ (sampleHarm ℝ 3 5))
      (by simp) (by simp [samplePoint]) (fun _ _ => rfl) rfl rfl
      (by simp [samplePoint, sampleDeformationMatrix])⟩

/-- C14 as stated fails: a second call of `deformation` on the same instance
with the same sites, after a first one, builds the load-response operator
again, twice in all. -/
theorem deformation_builds_counterexample :
    buildCount ((sampleTides ℚ (1/10) (1/5)).deformation (22/7) (sampleDeformationMatrix ℚ)
        (sampleX ℚ) [0, 1] (samplePoint ℚ) ([] : List Unit) (sampleRotation ℚ (1/1000) (1/500)) () []
        (sampleX ℚ (sampleHarm ℚ 1 2)) (sampleX ℚ (sampleHarm ℚ 1 2)) (sampleDisp ℚ)).events = 1 ∧
    buildCount ((sampleTides ℚ (1/10) (1/5)).deformation (22/7) (sampleDeformationMatrix ℚ)
        (sampleX ℚ) [0, 1] (samplePoint ℚ) ([] : List Unit) (sampleRotation ℚ (1/1000) (1/500)) () []
        (sampleX ℚ (sampleHarm ℚ 1 2)) (sampleX ℚ (sampleHarm ℚ 1 2))
        ((sampleTides ℚ (1/10) (1/5)).deformation (22/7) (sampleDeformationMatrix ℚ)
          (sampleX ℚ) [0, 1] (samplePoint ℚ) ([] : List Unit) (sampleRotation ℚ (1/1000) (1/500))
          () [] (sampleX ℚ (sampleHarm ℚ 1 2)) (sampleX ℚ (sampleHarm ℚ 1 2))
          (sampleDisp ℚ)).disp).events = 1 := by
  constructor
  · rw [(deformation_frame_builds _ _ _ _ _ _ _ _ _ _ _ _ _).2.2]
    simp [samplePoint]
  · rw [(deformation_frame_builds _ _ _ _ _ _ _ _ _ _ _ _ _).2.2]
    simp [samplePoint]

/-- Witness of C15: two providers that agree at time 0 only, and different
unused arguments. -/
theorem sphericalHarmonics_deterministic_witness :
    sampleRotation ℝ (1/1000) (1/500) 0 = sampleRotationUntil ℝ (1/1000) (1/500) 1 0 ∧
    (sampleTides ℝ (1/10) (1/5)).sphericalHarmonics Real.pi 1000 (fun _ _ _ _ _ => 1) 0 ()
        (sampleRotation ℝ (1/1000) (1/500)) () 2 0 1 1 =
      (sampleTides ℝ (1/10) (1/5)).sphericalHarmonics Real.pi 1000 (fun _ _ _ _ _ => 1) 0 (5 : Nat)
        (sampleRotationUntil ℝ (1/1000) (1/500) 1) [true] 2 0 1 1 :=
  ⟨rfl, sphericalHarmonics_deterministic Real.pi 1000 (fun _ _ _ _ _ => 1)
    (sampleTides ℝ (1/10) (1/5)) 0 () (5 : Nat) (sampleRotation ℝ (1/1000) (1/500))
    (sampleRotationUntil ℝ (1/1000) (1/500) 1) () [true] 2 0 1 1 rfl⟩
end Theorems

/-! ## Properties of the GRACE L1B converters -/

section GraceTheorems
variable {T D F E : Type}

/-- The quality is 1 exactly for flag bit 0 set and bit 1 clear. -/
theorem clockQuality_eq_one (idEpoch qualflg : Nat) :
    clockQuality idEpoch qualflg = 1 ↔ qualflg &&& (1 <<< 0) ≠ 0 ∧ qualflg &&& (1 <<< 1) = 0 := by
  unfold clockQuality
  by_cases hi : idEpoch = 0 <;> simp only [hi, true_and, false_and, if_false] <;> split_ifs <;>
    simp_all

/-- The quality is 2 only for flag bit 1 set, and never in the first record
of a file. -/
theorem clockQuality_eq_two (idEpoch qualflg : Nat) (h : clockQuality idEpoch qualflg = 2) :
    qualflg &&& (1 <<< 1) ≠ 0 ∧ idEpoch ≠ 0 := by
  unfold clockQuality at h
  by_cases hi : idEpoch = 0 <;> simp only [hi, true_and, false_and, if_false] at h <;>
    split_ifs at h <;> simp_all

/-- The five ways through the loop body of the clock converter: a day-boundary
duplicate is skipped; a record of quality 1 is pushed and opens an invalid
period; inside an invalid period a record of another quality than 2 is
skipped; a record of quality 2 closes the period; outside of an invalid
period the record is pushed. -/
theorem clockBody_cases [DecidableEq T] [Zero D] [DecidableEq D] (toTime : Int → T)
    (dataAt1 : ClockEpoch T D → D) (numberOfRecords idEpoch : Nat) (r : ClockRecord D)
    (arc : List (ClockEpoch T D)) (dummy : Bool) (epoch : ClockEpoch T D)
    (hepoch : epoch = { time := toTime r.seconds, rcvTime := r.seconds, epsTime := r.eps_time
                        epsError := r.eps_err, epsDrift := r.eps_drift, driftError := r.drift_err
                        qualityFlag := clockQuality idEpoch r.qualflg }) :
    (clockBody toTime dataAt1 numberOfRecords idEpoch r arc dummy = (arc, dummy, .skipped) ∧
        (idEpoch = 1 ∨ idEpoch = numberOfRecords - 1) ∧ arc ≠ []) ∨
    (clockQuality idEpoch r.qualflg = 1 ∧
        clockBody toTime dataAt1 numberOfRecords idEpoch r arc dummy =
          (arc ++ [epoch], true, .pushed epoch false)) ∨
    (clockQuality idEpoch r.qualflg ≠ 1 ∧ dummy = true ∧ clockQuality idEpoch r.qualflg ≠ 2 ∧
        clockBody toTime dataAt1 numberOfRecords idEpoch r arc dummy = (arc, dummy, .skipped)) ∨
    (dummy = true ∧ clockQuality idEpoch r.qualflg = 2 ∧
        ((clockBody toTime dataAt1 numberOfRecords idEpoch r arc dummy = (arc, false, .skipped) ∧
            arc ≠ []) ∨
          clockBody toTime dataAt1 numberOfRecords idEpoch r arc dummy =
            (arc.dropLast ++ [epoch], false, .pushed epoch true) ∨
          clockBody toTime dataAt1 numberOfRecords idEpoch r arc dummy =
            (arc ++ [epoch], false, .pushed epoch false))) ∨
    (clockQuality idEpoch r.qualflg ≠ 1 ∧ dummy = false ∧
        clockBody toTime dataAt1 numberOfRecords idEpoch r arc dummy =
          (arc ++ [epoch], dummy, .pushed epoch false)) := by
  subst hepoch
  have hne : ∀ t, lastTimeIs arc t = true → arc ≠ [] := by
    intro t h e
    rw [e] at h
    simp [lastTimeIs] at h
  by_cases c1 : idEpoch = 1 ∧ lastTimeIs arc (toTime r.seconds) = true
  · exact Or.inl ⟨by simp only [clockBody, if_pos c1], Or.inl c1.1, hne _ c1.2⟩
  by_cases c2 : idEpoch = numberOfRecords - 1 ∧ clockQuality idEpoch r.qualflg = 1 ∧
      lastTimeIs arc (toTime r.seconds) = true
  · exact Or.inl ⟨by simp only [clockBody, if_neg c1, if_pos c2], Or.inr c2.1, hne _ c2.2.2⟩
  by_cases c3 : clockQuality idEpoch r.qualflg = 1
  · exact Or.inr (Or.inl ⟨c3, by simp only [clockBody, if_neg c1, if_neg c2, if_pos c3]⟩)
  by_cases c4 : dummy = true ∧ clockQuality idEpoch r.qualflg ≠ 2
  · exact Or.inr (Or.inr (Or.inl ⟨c3, c4.1, c4.2,
      by simp only [clockBody, if_neg c1, if_neg c2, if_neg c3, if_pos c4]⟩))
  by_cases c5 : dummy = true ∧ clockQuality idEpoch r.qualflg = 2
  · refine Or.inr (Or.inr (Or.inr (Or.inl ⟨c5.1, c5.2, ?_⟩)))
    by_cases c6 : lastTimeIs arc (toTime r.seconds) = true ∧ lastDataIsZero dataAt1 arc = false
    · exact Or.inl ⟨by simp only [clockBody, if_neg c1, if_neg c2, if_neg c3, if_neg c4, if_pos c5,
        if_pos c6], hne _ c6.1⟩
    by_cases c7 : lastTimeIs arc (toTime r.seconds) = true ∧ lastDataIsZero dataAt1 arc = true
    · exact Or.inr (Or.inl (by simp only [clockBody, if_neg c1, if_neg c2, if_neg c3, if_neg c4,
        if_pos c5, if_neg c6, if_pos c7, ite_self]))
    · exact Or.inr (Or.inr (by simp only [clockBody, if_neg c1, if_neg c2, if_neg c3, if_neg c4,
        if_pos c5, if_neg c6, if_neg c7]))
  · have hd : dummy = false := by
      cases dummy with
      | false => rfl
      | true =>
        exfalso
        by_cases q2 : clockQuality idEpoch r.qualflg = 2
        · exact c5 ⟨rfl, q2⟩
        · exact c4 ⟨rfl, q2⟩
    exact Or.inr (Or.inr (Or.inr (Or.inr ⟨c3, hd,
      by simp only [clockBody, if_neg c1, if_neg c2, if_neg c3, if_neg c4, if_neg c5]⟩)))
/-- One pass of the record loop of the clock converter that returns normally:
either the read threw on a non-empty arc and the loop ended, or the record
was read, the body ran and the loop went on. -/
theorem clockEpochs_succ_inv [DecidableEq T] [Zero D] [DecidableEq D] (toTime : Int → T)
    (dataAt1 : ClockEpoch T D → D) (numberOfRecords : Nat) (records : List (ClockRecord D))
    (remaining idEpoch : Nat) (arc : List (ClockEpoch T D)) (dummy : Bool)
    (arc' : List (ClockEpoch T D)) (actions : List (ClockAction T D))
    (h : clockEpochs toTime dataAt1 numberOfRecords records (remaining + 1) idEpoch arc dummy =
      .ok (arc', actions)) :
    (records[idEpoch]? = none ∧ actions = []) ∨
    ∃ r rest, records[idEpoch]? = some r ∧
      actions = (clockBody toTime dataAt1 numberOfRecords idEpoch r arc dummy).2.2 :: rest ∧
      clockEpochs toTime dataAt1 numberOfRecords records remaining (idEpoch + 1)
        (clockBody toTime dataAt1 numberOfRecords idEpoch r arc dummy).1
        (clockBody toTime dataAt1 numberOfRecords idEpoch r arc dummy).2.1 = .ok (arc', rest) := by
  unfold clockEpochs at h
  cases hr : records[idEpoch]? with
  | none =>
    simp only [hr] at h
    cases hb : Arc.back arc with
    | error f => simp [hb] at h
    | ok last =>
      simp only [hb, Except.ok.injEq, Prod.mk.injEq] at h
      exact Or.inl ⟨rfl, h.2.symm⟩
  | some r =>
    simp only [hr] at h
    cases hn : clockEpochs toTime dataAt1 numberOfRecords records remaining (idEpoch + 1)
        (clockBody toTime dataAt1 numberOfRecords idEpoch r arc dummy).1
        (clockBody toTime dataAt1 numberOfRecords idEpoch r arc dummy).2.1 with
    | error f => simp [hn] at h
    | ok out =>
      obtain ⟨a2, acts2⟩ := out
      simp only [hn, Except.ok.injEq, Prod.mk.injEq] at h
      exact Or.inr ⟨r, acts2, rfl, h.2.symm, by rw [hn, h.1]⟩

/-- Every action of the record loop belongs to a record that was read. -/
theorem clockEpochs_read [DecidableEq T] [Zero D] [DecidableEq D] (toTime : Int → T)
    (dataAt1 : ClockEpoch T D → D) (numberOfRecords : Nat) (records : List (ClockRecord D)) :
    ∀ (remaining idEpoch : Nat) (arc : List (ClockEpoch T D)) (dummy : Bool)
      (arc' : List (ClockEpoch T D)) (actions : List (ClockAction T D)),
    clockEpochs toTime dataAt1 numberOfRecords records remaining idEpoch arc dummy =
      .ok (arc', actions) →
    actions.length ≤ remaining ∧
      ∀ l action, actions[l]? = some action → ∃ r, records[idEpoch + l]? = some r ∧
        ∃ arcl dummyl, action = (clockBody toTime dataAt1 numberOfRecords (idEpoch + l) r arcl
          dummyl).2.2 := by
  intro remaining
  induction remaining with
  | zero =>
    intro idEpoch arc dummy arc' actions h
    simp only [clockEpochs, Except.ok.injEq, Prod.mk.injEq] at h
    rw [← h.2]
    simp
  | succ n ih =>
    intro idEpoch arc dummy arc' actions h
    rcases clockEpochs_succ_inv toTime dataAt1 numberOfRecords records n idEpoch arc dummy arc'
      actions h with ⟨_, ha⟩ | ⟨r, rest, hr, ha, hn⟩
    · rw [ha]; simp
    · obtain ⟨hlen, hrest⟩ := ih (idEpoch + 1) _ _ arc' rest hn
      rw [ha]
      refine ⟨by simp only [List.length_cons]; omega, ?_⟩
      intro l action hl
      cases l with
      | zero =>
        simp only [List.getElem?_cons_zero, Option.some.injEq] at hl
        exact ⟨r, hr, arc, dummy, hl.symm⟩
      | succ l =>
        simp only [List.getElem?_cons_succ] at hl
        obtain ⟨r', hr', hx⟩ := hrest l action hl
        have e : idEpoch + (l + 1) = idEpoch + 1 + l := by omega
        rw [e]
        exact ⟨r', hr', hx⟩

/-- Inside an invalid period no record of quality 0 is pushed before a record
with flag bit 1 has been read. -/
theorem clockEpochs_invalid [DecidableEq T] [Zero D] [DecidableEq D] (toTime : Int → T)
    (dataAt1 : ClockEpoch T D → D) (numberOfRecords : Nat) (records : List (ClockRecord D)) :
    ∀ (remaining idEpoch : Nat) (arc : List (ClockEpoch T D))
      (arc' : List (ClockEpoch T D)) (actions : List (ClockAction T D)),
    clockEpochs toTime dataAt1 numberOfRecords records remaining idEpoch arc true =
      .ok (arc', actions) →
    ∀ j e b, actions[j]? = some (.pushed e b) → e.qualityFlag = 0 →
      ∃ l r, l < j ∧ records[idEpoch + l]? = some r ∧ r.qualflg &&& (1 <<< 1) ≠ 0 := by
  intro remaining
  induction remaining with
  | zero =>
    intro idEpoch arc arc' actions h j e b hj
    simp only [clockEpochs, Except.ok.injEq, Prod.mk.injEq] at h
    rw [← h.2] at hj
    simp at hj
  | succ n ih =>
    intro idEpoch arc arc' actions h j e b hj hq
    rcases clockEpochs_succ_inv toTime dataAt1 numberOfRecords records n idEpoch arc true arc'
      actions h with ⟨_, ha⟩ | ⟨r, rest, hr, ha, hn⟩
    · rw [ha] at hj; simp at hj
    · rw [ha] at hj
      have hc := clockBody_cases toTime dataAt1 numberOfRecords idEpoch r arc true _ rfl
      cases j with
      | zero =>
        simp only [List.getElem?_cons_zero, Option.some.injEq] at hj
        exfalso
        rcases hc with ⟨hb, _⟩ | ⟨q1, hb⟩ | ⟨_, _, _, hb⟩ | ⟨_, q2, (⟨hb, _⟩ | hb | hb)⟩ | ⟨_, hd, _⟩
        · rw [hb] at hj; cases hj
        · rw [hb] at hj
          simp only [ClockAction.pushed.injEq] at hj
          rw [← hj.1] at hq
          simp only at hq
          omega
        · rw [hb] at hj; cases hj
        · rw [hb] at hj; cases hj
        · rw [hb] at hj
          simp only [ClockAction.pushed.injEq] at hj
          rw [← hj.1] at hq
          simp only at hq
          omega
        · rw [hb] at hj
          simp only [ClockAction.pushed.injEq] at hj
          rw [← hj.1] at hq
          simp only at hq
          omega
        · cases hd
      | succ j =>
        simp only [List.getElem?_cons_succ] at hj
        cases hd : (clockBody toTime dataAt1 numberOfRecords idEpoch r arc true).2.1 with
        | true =>
          rw [hd] at hn
          obtain ⟨l, r', hl, hr', hbit⟩ := ih (idEpoch + 1) _ arc' rest hn j e b hj hq
          refine ⟨l + 1, r', by omega, ?_, hbit⟩
          have e' : idEpoch + (l + 1) = idEpoch + 1 + l := by omega
          rw [e']
          exact hr'
        | false =>
          have q2 : clockQuality idEpoch r.qualflg = 2 := by
            rcases hc with ⟨hb, _⟩ | ⟨q1, hb⟩ | ⟨_, _, _, hb⟩ | ⟨_, q2, _⟩ | ⟨_, hd', _⟩
            · rw [hb] at hd; cases hd
            · rw [hb] at hd; cases hd
            · rw [hb] at hd; cases hd
            · exact q2
            · cases hd'
          exact ⟨0, r, by omega, hr, (clockQuality_eq_two idEpoch r.qualflg q2).1⟩

/-- Between a pushed record of quality 1 and a later pushed record of quality
0 of the same file a record with flag bit 1 has been read. -/
theorem clockEpochs_period [DecidableEq T] [Zero D] [DecidableEq D] (toTime : Int → T)
    (dataAt1 : ClockEpoch T D → D) (numberOfRecords : Nat) (records : List (ClockRecord D)) :
    ∀ (remaining idEpoch : Nat) (arc : List (ClockEpoch T D)) (dummy : Bool)
      (arc' : List (ClockEpoch T D)) (actions : List (ClockAction T D)),
    clockEpochs toTime dataAt1 numberOfRecords records remaining idEpoch arc dummy =
      .ok (arc', actions) →
    ∀ i j ei bi ej bj, i < j → actions[i]? = some (.pushed ei bi) → ei.qualityFlag = 1 →
      actions[j]? = some (.pushed ej bj) → ej.qualityFlag = 0 →
      ∃ l r, i < l ∧ l < j ∧ records[idEpoch + l]? = some r ∧ r.qualflg &&& (1 <<< 1) ≠ 0 := by
  intro remaining
  induction remaining with
  | zero =>
    intro idEpoch arc dummy arc' actions h i j ei bi ej bj _ hi
    simp only [clockEpochs, Except.ok.injEq, Prod.mk.injEq] at h
    rw [← h.2] at hi
    simp at hi
  | succ n ih =>
    intro idEpoch arc dummy arc' actions h i j ei bi ej bj hij hi hqi hj hqj
    rcases clockEpochs_succ_inv toTime dataAt1 numberOfRecords records n idEpoch arc dummy arc'
      actions h with ⟨_, ha⟩ | ⟨r, rest, hr, ha, hn⟩
    · rw [ha] at hi; simp at hi
    · rw [ha] at hi hj
      obtain ⟨j, rfl⟩ : ∃ j', j = j' + 1 := ⟨j - 1, by omega⟩
      simp only [List.getElem?_cons_succ] at hj
      cases i with
      | zero =>
        simp only [List.getElem?_cons_zero, Option.some.injEq] at hi
        have hc := clockBody_cases toTime dataAt1 numberOfRecords idEpoch r arc dummy _ rfl
        have hd : (clockBody toTime dataAt1 numberOfRecords idEpoch r arc dummy).2.1 = true := by
          rcases hc with ⟨hb, _⟩ | ⟨q1, hb⟩ | ⟨_, _, _, hb⟩ | ⟨_, q2, (⟨hb, _⟩ | hb | hb)⟩ | ⟨q1, _, hb⟩
          · rw [hb] at hi; cases hi
          · rw [hb]
          · rw [hb] at hi; cases hi
          · rw [hb] at hi; cases hi
          · rw [hb] at hi
            simp only [ClockAction.pushed.injEq] at hi
            rw [← hi.1] at hqi
            simp only at hqi
            omega
          · rw [hb] at hi
            simp only [ClockAction.pushed.injEq] at hi
            rw [← hi.1] at hqi
            simp only at hqi
            omega
          · rw [hb] at hi
            simp only [ClockAction.pushed.injEq] at hi
            rw [← hi.1] at hqi
            simp only at hqi
            exact absurd hqi q1
        rw [hd] at hn
        obtain ⟨l, r', hl, hr', hbit⟩ := clockEpochs_invalid toTime dataAt1 numberOfRecords records
          n (idEpoch + 1) _ arc' rest hn j ej bj hj hqj
        refine ⟨l + 1, r', by omega, by omega, ?_, hbit⟩
        have e' : idEpoch + (l + 1) = idEpoch + 1 + l := by omega
        rw [e']
        exact hr'
      | succ i =>
        simp only [List.getElem?_cons_succ] at hi
        obtain ⟨l, r', h1, h2, hr', hbit⟩ := ih (idEpoch + 1) _ _ arc' rest hn i j ei bi ej bj
          (by omega) hi hqi hj hqj
        refine ⟨l + 1, r', by omega, by omega, ?_, hbit⟩
        have e' : idEpoch + (l + 1) = idEpoch + 1 + l := by omega
        rw [e']
        exact hr'
/-- One pass of the record loop whose read succeeds: the body runs and the
loop goes on with the record after it. -/
theorem clockEpochs_succ_ok [DecidableEq T] [Zero D] [DecidableEq D] (toTime : Int → T)
    (dataAt1 : ClockEpoch T D → D) (numberOfRecords : Nat) (records : List (ClockRecord D))
    (remaining idEpoch : Nat) (arc : List (ClockEpoch T D)) (dummy : Bool) (r : ClockRecord D)
    (arc' : List (ClockEpoch T D)) (actions : List (ClockAction T D))
    (hr : records[idEpoch]? = some r)
    (h : clockEpochs toTime dataAt1 numberOfRecords records remaining (idEpoch + 1)
        (clockBody toTime dataAt1 numberOfRecords idEpoch r arc dummy).1
        (clockBody toTime dataAt1 numberOfRecords idEpoch r arc dummy).2.1 = .ok (arc', actions)) :
    clockEpochs toTime dataAt1 numberOfRecords records (remaining + 1) idEpoch arc dummy =
      .ok (arc', (clockBody toTime dataAt1 numberOfRecords idEpoch r arc dummy).2.2 :: actions) := by
  rw [clockEpochs]
  simp only [hr, h]

/-- The first `l` passes of a record loop that returned normally: they are a
run of the loop of their own, and pass `l` applies the body to the arc they
leave. -/
theorem clockEpochs_prefix [DecidableEq T] [Zero D] [DecidableEq D] (toTime : Int → T)
    (dataAt1 : ClockEpoch T D → D) (numberOfRecords : Nat) (records : List (ClockRecord D)) :
    ∀ (remaining idEpoch : Nat) (arc : List (ClockEpoch T D)) (dummy : Bool)
      (arc' : List (ClockEpoch T D)) (actions : List (ClockAction T D)),
    clockEpochs toTime dataAt1 numberOfRecords records remaining idEpoch arc dummy =
      .ok (arc', actions) →
    ∀ l, l < actions.length → ∃ r arcl dummyl, records[idEpoch + l]? = some r ∧
      clockEpochs toTime dataAt1 numberOfRecords records l idEpoch arc dummy =
        .ok (arcl, actions.take l) ∧
      clockEpochs toTime dataAt1 numberOfRecords records (l + 1) idEpoch arc dummy =
        .ok ((clockBody toTime dataAt1 numberOfRecords (idEpoch + l) r arcl dummyl).1,
          actions.take (l + 1)) ∧
      actions[l]? = some (clockBody toTime dataAt1 numberOfRecords (idEpoch + l) r arcl dummyl).2.2 := by
  intro remaining
  induction remaining with
  | zero =>
    intro idEpoch arc dummy arc' actions h l hl
    simp only [clockEpochs, Except.ok.injEq, Prod.mk.injEq] at h
    rw [← h.2] at hl
    simp at hl
  | succ n ih =>
    intro idEpoch arc dummy arc' actions h l hl
    rcases clockEpochs_succ_inv toTime dataAt1 numberOfRecords records n idEpoch arc dummy arc'
      actions h with ⟨_, ha⟩ | ⟨r, rest, hr, ha, hn⟩
    · rw [ha] at hl; simp at hl
    · subst ha
      cases l with
      | zero =>
        refine ⟨r, arc, dummy, by rw [Nat.add_zero]; exact hr, by simp [clockEpochs], ?_, by simp⟩
        rw [Nat.add_zero]
        exact clockEpochs_succ_ok toTime dataAt1 numberOfRecords records 0 idEpoch arc dummy r _ []
          hr (by simp [clockEpochs])
      | succ l =>
        have hl' : l < rest.length := by simpa using hl
        obtain ⟨r', arcl, dummyl, hr', h1, h2, h3⟩ := ih (idEpoch + 1) _ _ arc' rest hn l hl'
        have e : idEpoch + (l + 1) = idEpoch + 1 + l := by omega
        rw [e]
        refine ⟨r', arcl, dummyl, hr', ?_, ?_, ?_⟩
        · rw [List.take_succ_cons]
          exact clockEpochs_succ_ok toTime dataAt1 numberOfRecords records l idEpoch arc dummy r _ _
            hr h1
        · rw [List.take_succ_cons]
          exact clockEpochs_succ_ok toTime dataAt1 numberOfRecords records (l + 1) idEpoch arc dummy
            r _ _ hr h2
        · simpa using h3

/-- The loop body on a record of quality 1: a day-boundary duplicate (record 1
or the last record, at the time of the last epoch of the arc) is skipped, any
other record is pushed and opens an invalid period. -/
theorem clockBody_quality_one [DecidableEq T] [Zero D] [DecidableEq D] (toTime : Int → T)
    (dataAt1 : ClockEpoch T D → D) (numberOfRecords idEpoch : Nat) (r : ClockRecord D)
    (arc : List (ClockEpoch T D)) (dummy : Bool) (q1 : clockQuality idEpoch r.qualflg = 1) :
    clockBody toTime dataAt1 numberOfRecords idEpoch r arc dummy =
      if (idEpoch = 1 ∨ idEpoch = numberOfRecords - 1) ∧ lastTimeIs arc (toTime r.seconds) = true then
        (arc, dummy, .skipped)
      else
        (arc ++ [{ time := toTime r.seconds, rcvTime := r.seconds, epsTime := r.eps_time
                   epsError := r.eps_err, epsDrift := r.eps_drift, driftError := r.drift_err
                   qualityFlag := 1 }], true,
          .pushed { time := toTime r.seconds, rcvTime := r.seconds, epsTime := r.eps_time
                    epsError := r.eps_err, epsDrift := r.eps_drift, driftError := r.drift_err
                    qualityFlag := 1 } false) := by
  by_cases c1 : idEpoch = 1 ∧ lastTimeIs arc (toTime r.seconds) = true
  · rw [if_pos ⟨Or.inl c1.1, c1.2⟩]
    simp only [clockBody, if_pos c1]
  by_cases c2 : idEpoch = numberOfRecords - 1 ∧ clockQuality idEpoch r.qualflg = 1 ∧
      lastTimeIs arc (toTime r.seconds) = true
  · rw [if_pos ⟨Or.inr c2.1, c2.2.2⟩]
    simp only [clockBody, if_neg c1, if_pos c2]
  · have c : ¬((idEpoch = 1 ∨ idEpoch = numberOfRecords - 1) ∧
        lastTimeIs arc (toTime r.seconds) = true) := by
      rintro ⟨h | h, ht⟩
      · exact c1 ⟨h, ht⟩
      · exact c2 ⟨h, q1, ht⟩
    rw [if_neg c]
    simp only [clockBody, if_neg c1, if_neg c2, if_pos q1]
    rw [q1]

/-- A record loop that returned normally has run the body on every record
that the stream holds, up to the announced number of records. -/
theorem clockEpochs_length [DecidableEq T] [Zero D] [DecidableEq D] (toTime : Int → T)
    (dataAt1 : ClockEpoch T D → D) (numberOfRecords : Nat) (records : List (ClockRecord D)) :
    ∀ (remaining idEpoch : Nat) (arc : List (ClockEpoch T D)) (dummy : Bool)
      (arc' : List (ClockEpoch T D)) (actions : List (ClockAction T D)),
    clockEpochs toTime dataAt1 numberOfRecords records remaining idEpoch arc dummy =
      .ok (arc', actions) →
    ∀ l, l < remaining → (records[idEpoch + l]?).isSome = true → l < actions.length := by
  intro remaining
  induction remaining with
  | zero =>
    intro idEpoch arc dummy arc' actions _ l hl
    omega
  | succ n ih =>
    intro idEpoch arc dummy arc' actions h l hl hsome
    rcases clockEpochs_succ_inv toTime dataAt1 numberOfRecords records n idEpoch arc dummy arc'
      actions h with ⟨hnone, _⟩ | ⟨r, rest, hr, ha, hn⟩
    · exfalso
      rw [List.getElem?_eq_none_iff] at hnone
      have hlt : idEpoch + l < records.length := by
        by_contra hge
        rw [List.getElem?_eq_none_iff.mpr (by omega)] at hsome
        cases hsome
      omega
    · subst ha
      cases l with
      | zero => simp
      | succ l =>
        have e : idEpoch + (l + 1) = idEpoch + 1 + l := by omega
        rw [e] at hsome
        have := ih (idEpoch + 1) _ _ arc' rest hn l (by omega) hsome
        simp only [List.length_cons]
        omega

/-- C18: in the record loop of one file of `GraceL1b2Clock::run`, between a
pushed record of quality 1 and a later pushed record of quality 0 a record
with flag bit 1 has been read; every record of the file with flag bit 0 set
and bit 1 clear is appended to the arc with quality 1, unless it is a
day-boundary duplicate, that is record 1 or record `numberOfRecords-1` at the
time of the last epoch of a non-empty arc, which is skipped; and the first
record is never pushed with quality 2. The arc that record `l` meets is the
arc left by the first `l` passes of the loop. -/
theorem clock_invalid_periods [DecidableEq T] [Zero D] [DecidableEq D] (toTime : Int → T)
    (dataAt1 : ClockEpoch T D → D) (file : FileInGrace (ClockRecord D))
    (arc arc' : List (ClockEpoch T D)) (actions : List (ClockAction T D))
    (h : clockEpochs toTime dataAt1 file.numberOfRecords file.records file.numberOfRecords 0 arc
      false = .ok (arc', actions)) :
    (∀ (i j : Nat) (ei : ClockEpoch T D) (bi : Bool) (ej : ClockEpoch T D) (bj : Bool), i < j →
      actions[i]? = some (.pushed ei bi) → ei.qualityFlag = 1 →
      actions[j]? = some (.pushed ej bj) → ej.qualityFlag = 0 →
      ∃ (l : Nat) (r : ClockRecord D),
        i < l ∧ l < j ∧ file.records[l]? = some r ∧ r.qualflg &&& (1 <<< 1) ≠ 0) ∧
    (∀ (l : Nat) (r : ClockRecord D), l < file.numberOfRecords → file.records[l]? = some r →
      r.qualflg &&& (1 <<< 0) ≠ 0 → r.qualflg &&& (1 <<< 1) = 0 →
      ∃ arcl : List (ClockEpoch T D),
        clockEpochs toTime dataAt1 file.numberOfRecords file.records l 0 arc false =
          .ok (arcl, actions.take l) ∧
        ((l = 1 ∨ l = file.numberOfRecords - 1) ∧ lastTimeIs arcl (toTime r.seconds) = true →
          actions[l]? = some .skipped ∧
          clockEpochs toTime dataAt1 file.numberOfRecords file.records (l + 1) 0 arc false =
            .ok (arcl, actions.take (l + 1))) ∧
        (¬((l = 1 ∨ l = file.numberOfRecords - 1) ∧ lastTimeIs arcl (toTime r.seconds) = true) →
          actions[l]? = some (.pushed
            { time := toTime r.seconds, rcvTime := r.seconds, epsTime := r.eps_time
              epsError := r.eps_err, epsDrift := r.eps_drift, driftError := r.drift_err
              qualityFlag := 1 } false) ∧
          clockEpochs toTime dataAt1 file.numberOfRecords file.records (l + 1) 0 arc false =
            .ok (arcl ++ [{ time := toTime r.seconds, rcvTime := r.seconds, epsTime := r.eps_time
                            epsError := r.eps_err, epsDrift := r.eps_drift
                            driftError := r.drift_err, qualityFlag := 1 }],
              actions.take (l + 1)))) ∧
    (∀ (e : ClockEpoch T D) (b : Bool), actions[0]? = some (.pushed e b) → e.qualityFlag ≠ 2) := by
  obtain ⟨_, hread⟩ := clockEpochs_read toTime dataAt1 file.numberOfRecords file.records
    file.numberOfRecords 0 arc false arc' actions h
  refine ⟨?_, ?_, ?_⟩
  · intro i j ei bi ej bj hij hi hqi hj hqj
    obtain ⟨l, r, h1, h2, hr, hbit⟩ := clockEpochs_period toTime dataAt1 file.numberOfRecords
      file.records file.numberOfRecords 0 arc false arc' actions h i j ei bi ej bj hij hi hqi hj hqj
    rw [Nat.zero_add] at hr
    exact ⟨l, r, h1, h2, hr, hbit⟩
  · intro l r hl hr hb0 hb1
    have hl := clockEpochs_length toTime dataAt1 file.numberOfRecords file.records
      file.numberOfRecords 0 arc false arc' actions h l hl (by rw [Nat.zero_add, hr]; rfl)
    obtain ⟨r', arcl, dummyl, hr', h1, h2, h3⟩ := clockEpochs_prefix toTime dataAt1
      file.numberOfRecords file.records file.numberOfRecords 0 arc false arc' actions h l hl
    rw [Nat.zero_add] at hr' h2 h3
    rw [hr] at hr'
    have hrr : r' = r := (Option.some.inj hr').symm
    subst hrr
    have q1 : clockQuality l r'.qualflg = 1 := (clockQuality_eq_one l r'.qualflg).mpr ⟨hb0, hb1⟩
    have hb := clockBody_quality_one toTime dataAt1 file.numberOfRecords l r' arcl dummyl q1
    refine ⟨arcl, h1, ?_, ?_⟩
    · intro c
      rw [hb, if_pos c] at h2 h3
      exact ⟨h3, h2⟩
    · intro c
      rw [hb, if_neg c] at h2 h3
      exact ⟨h3, h2⟩
  · intro e b h0 hq
    obtain ⟨r, hr, arcl, dummyl, hact⟩ := hread 0 _ h0
    rw [Nat.add_zero] at hact
    have hne : clockQuality 0 r.qualflg ≠ 2 := fun q2 => (clockQuality_eq_two 0 r.qualflg q2).2 rfl
    rcases clockBody_cases toTime dataAt1 file.numberOfRecords 0 r arcl dummyl _ rfl with
      ⟨hb, _⟩ | ⟨_, hb⟩ | ⟨_, _, _, hb⟩ | ⟨_, q2, _⟩ | ⟨_, _, hb⟩
    · rw [hb] at hact; cases hact
    · rw [hb] at hact
      simp only [ClockAction.pushed.injEq] at hact
      rw [hact.1] at hq
      exact hne hq
    · rw [hb] at hact; cases hact
    · exact hne q2
    · rw [hb] at hact
      simp only [ClockAction.pushed.injEq] at hact
      rw [hact.1] at hq
      exact hne hq

/-- Witness of C18: the sample file read into an empty arc. Record 1 has
quality 1 and is no duplicate, so it is pushed; the last record has quality 1
at the time of the last epoch of the arc, so it is skipped. -/
theorem clock_invalid_periods_witness :
    clockEpochs (fun seconds => seconds) (fun epoch => epoch.epsTime)
        sampleClockFile.numberOfRecords sampleClockFile.records
        sampleClockFile.numberOfRecords 0 [] false =
      .ok ([sampleClockEpoch 10 1, sampleClockEpoch 11 1, sampleClockEpoch 12 2, sampleClockEpoch 13 0],
        [.pushed (sampleClockEpoch 10 1) false, .pushed (sampleClockEpoch 11 1) false,
          .pushed (sampleClockEpoch 12 2) false, .pushed (sampleClockEpoch 13 0) false, .skipped]) ∧
    (∀ (i j : Nat) (ei : ClockEpoch Int ℚ) (bi : Bool) (ej : ClockEpoch Int ℚ) (bj : Bool), i < j →
      ([.pushed (sampleClockEpoch 10 1) false, .pushed (sampleClockEpoch 11 1) false,
        .pushed (sampleClockEpoch 12 2) false, .pushed (sampleClockEpoch 13 0) false, .skipped] :
          List (ClockAction Int ℚ))[i]? = some (.pushed ei bi) → ei.qualityFlag = 1 →
      ([.pushed (sampleClockEpoch 10 1) false, .pushed (sampleClockEpoch 11 1) false,
        .pushed (sampleClockEpoch 12 2) false, .pushed (sampleClockEpoch 13 0) false, .skipped] :
          List (ClockAction Int ℚ))[j]? = some (.pushed ej bj) → ej.qualityFlag = 0 →
      ∃ (l : Nat) (r : ClockRecord ℚ),
        i < l ∧ l < j ∧ sampleClockFile.records[l]? = some r ∧ r.qualflg &&& (1 <<< 1) ≠ 0) ∧
    (∀ (l : Nat) (r : ClockRecord ℚ), l < sampleClockFile.numberOfRecords →
      sampleClockFile.records[l]? = some r →
      r.qualflg &&& (1 <<< 0) ≠ 0 → r.qualflg &&& (1 <<< 1) = 0 →
      ∃ arcl : List (ClockEpoch Int ℚ),
        clockEpochs (fun seconds => seconds) (fun epoch => epoch.epsTime)
            sampleClockFile.numberOfRecords sampleClockFile.records l 0 [] false =
          .ok (arcl, ([.pushed (sampleClockEpoch 10 1) false, .pushed (sampleClockEpoch 11 1) false,
        .pushed (sampleClockEpoch 12 2) false, .pushed (sampleClockEpoch 13 0) false, .skipped] :
          List (ClockAction Int ℚ)).take l) ∧
        ((l = 1 ∨ l = sampleClockFile.numberOfRecords - 1) ∧
            lastTimeIs arcl ((fun seconds => seconds) r.seconds) = true →
          ([.pushed (sampleClockEpoch 10 1) false, .pushed (sampleClockEpoch 11 1) false,
        .pushed (sampleClockEpoch 12 2) false, .pushed (sampleClockEpoch 13 0) false, .skipped] :
          List (ClockAction Int ℚ))[l]? = some .skipped ∧
          clockEpochs (fun seconds => seconds) (fun epoch => epoch.epsTime)
            sampleClockFile.numberOfRecords sampleClockFile.records (l + 1) 0 [] false =
            .ok (arcl, ([.pushed (sampleClockEpoch 10 1) false, .pushed (sampleClockEpoch 11 1) false,
        .pushed (sampleClockEpoch 12 2) false, .pushed (sampleClockEpoch 13 0) false, .skipped] :
          List (ClockAction Int ℚ)).take (l + 1))) ∧
        (¬((l = 1 ∨ l = sampleClockFile.numberOfRecords - 1) ∧
            lastTimeIs arcl ((fun seconds => seconds) r.seconds) = true) →
          ([.pushed (sampleClockEpoch 10 1) false, .pushed (sampleClockEpoch 11 1) false,
        .pushed (sampleClockEpoch 12 2) false, .pushed (sampleClockEpoch 13 0) false, .skipped] :
          List (ClockAction Int ℚ))[l]? = some (.pushed
            { time := (fun seconds => seconds) r.seconds, rcvTime := r.seconds, epsTime := r.eps_time,
              epsError := r.eps_err, epsDrift := r.eps_drift, driftError := r.drift_err,
              qualityFlag := 1 } false) ∧
          clockEpochs (fun seconds => seconds) (fun epoch => epoch.epsTime)
            sampleClockFile.numberOfRecords sampleClockFile.records (l + 1) 0 [] false =
            .ok (arcl ++ [{ time := (fun seconds => seconds) r.seconds, rcvTime := r.seconds,
                            epsTime := r.eps_time, epsError := r.eps_err, epsDrift := r.eps_drift,
                            driftError := r.drift_err, qualityFlag := 1 }],
              ([.pushed (sampleClockEpoch 10 1) false, .pushed (sampleClockEpoch 11 1) false,
        .pushed (sampleClockEpoch 12 2) false, .pushed (sampleClockEpoch 13 0) false, .skipped] :
          List (ClockAction Int ℚ)).take (l + 1)))) ∧
    (∀ (e : ClockEpoch Int ℚ) (b : Bool),
      ([.pushed (sampleClockEpoch 10 1) false, .pushed (sampleClockEpoch 11 1) false,
        .pushed (sampleClockEpoch 12 2) false, .pushed (sampleClockEpoch 13 0) false, .skipped] :
          List (ClockAction Int ℚ))[0]? = some (.pushed e b) → e.qualityFlag ≠ 2) :=
  ⟨rfl, clock_invalid_periods (fun seconds => seconds) (fun epoch => epoch.epsTime)
    sampleClockFile [] _ _ rfl⟩

/-- C19 at the failing input: when the first input file announces one record
and its stream holds none, the handler of the failed read evaluates
`arc.back()` on the empty arc, in `GraceL1b2Clock::run` as in
`GraceL1b2Magnetometer::run`. -/
theorem back_of_empty_arc :
    GraceL1b2Clock.run (fun seconds => seconds) (fun epoch => epoch.epsTime)
        (fun _ => some (sampleTruncatedFile (ClockRecord ℚ))) (fun arc => arc) (fun arc => arc)
        "clock.dat" ["CLK1B_2019-01-01_C_04.dat"] false =
      (.error .backOfEmptyArc : Except GraceFault (Option (List (ClockEpoch Int ℚ)))) ∧
    GraceL1b2Magnetometer.run (fun seconds time_frac => 1000000 * seconds + time_frac)
        (fun _ => some (sampleTruncatedFile (MagnetometerRecord ℚ))) (fun arc => arc) (fun arc => arc)
        "magnetometer.dat" ["MAG1B_2019-01-01_C_04.dat"] false =
      (.error .backOfEmptyArc : Except GraceFault (Option (List (MagnetometerEpoch Int ℚ)))) :=
  ⟨rfl, rfl⟩
end GraceTheorems

end Groops
